import Mathlib

/-!
# MixLoveMatch store layer: filtered queries and partial updates

A shallow embedding of the query/update stores of
`internal/musicapp/lib/users/store` and `internal/musicapp/lib/rooms/store`,
together with the value objects of `lib/users/models.go` and
`lib/rooms/models.go`, the row conversions of the three stores (users, rooms,
room members) and the bulk inserts of `internal/musicapp/db/repo`.

Conventions of the embedding:

* Go `(T, error)` results are `Except GoError T`; a bare `error` result is
  `Option GoError` (`none` is the `nil` error).
* Go `uint64` values are `Nat` (bounded by `2^64` where the bound matters),
  Go `int` values are `Int`.
* The execution handle is an explicit `Backend` state that is threaded
  through every store operation.  Every statement that reaches the handle is
  appended to `Backend.log`.
-/

set_option autoImplicit false

/-! ## Library types used by the stores -/

/-- Model of Go `time.Time`: an instant counted in nanoseconds from the zero
time (January 1, year 1, 00:00:00 UTC). -/
structure Time where
  nanos : Int
  deriving DecidableEq, Repr

/-- The zero value of `time.Time`. -/
def Time.zero : Time := ⟨0⟩

/-- Go `time.Time.IsZero`. -/
def Time.IsZero (t : Time) : Bool := t.nanos == 0

/-- Model of `null.String` (github.com/aarondl/null): a string with a validity
flag.  The Go field `String` is `StringVal` here (likewise `IntVal`, `BoolVal`,
`TimeVal` below), since a field cannot carry the name of its own type. -/
structure NullString where
  StringVal : String
  Valid : Bool
  deriving DecidableEq, Repr

/-- Model of `null.Int`. -/
structure NullInt where
  IntVal : Int
  Valid : Bool
  deriving DecidableEq, Repr

/-- Model of `null.Bool`. -/
structure NullBool where
  BoolVal : Bool
  Valid : Bool
  deriving DecidableEq, Repr

/-- Model of `null.Time`. -/
structure NullTime where
  TimeVal : Time
  Valid : Bool
  deriving DecidableEq, Repr

/-- Go `null.StringFrom`. -/
def NullString.From (s : String) : NullString := ⟨s, true⟩

/-- The zero value of `null.String` (an absent field). -/
def NullString.unset : NullString := ⟨"", false⟩

/-- Go `null.IntFrom`. -/
def NullInt.From (n : Int) : NullInt := ⟨n, true⟩

/-- The zero value of `null.Int`. -/
def NullInt.unset : NullInt := ⟨0, false⟩

/-- Go `null.BoolFrom`. -/
def NullBool.From (b : Bool) : NullBool := ⟨b, true⟩

/-- The zero value of `null.Bool`. -/
def NullBool.unset : NullBool := ⟨false, false⟩

/-- Go `null.TimeFrom`. -/
def NullTime.From (t : Time) : NullTime := ⟨t, true⟩

/-- The zero value of `null.Time`. -/
def NullTime.unset : NullTime := ⟨Time.zero, false⟩

/-! ## Errors -/

deriving instance DecidableEq for Except


/-- The two failure kinds of `strconv.ParseUint`: `strconv.ErrSyntax` and
`strconv.ErrRange`. -/
inductive NumErrKind where
  | ErrSyntax
  | ErrRange
  deriving DecidableEq, Repr

/-- Go error values as the stores build them.

* `numError` is a `*strconv.NumError` (function name, offending input, kind);
* `driver` is an error reported by the execution handle;
* `errorf text` is `fmt.Errorf` with the fully formatted message `text`;
* `wrapf text cause` is `fmt.Errorf("<text>: %w", cause)`, where `text` is the
  formatted prefix in front of the colon. -/
inductive GoError where
  | numError (Func : String) (Num : String) (Err : NumErrKind)
  | driver (msg : String)
  | errorf (text : String)
  | wrapf (text : String) (cause : GoError)
  deriving DecidableEq, Repr

/-! ## `strconv.ParseUint(s, 10, 64)` -/

/-- The constant `maxUint64`. -/
def maxUint64 : Nat := 2 ^ 64 - 1

/-- The digit loop of `strconv.ParseUint` for base 10 and bit size 64, run on
the remaining characters with accumulator `n`.  The error value is the kind of
`NumError` the loop exits with. -/
def parseUintLoop : List Char → Nat → Except NumErrKind Nat
  | [], n => .ok n
  | c :: cs, n =>
    -- case '0' <= c && c <= '9': d = c - '0'; letters give d >= 10 = base
    if '0' ≤ c ∧ c ≤ '9' then
      let d := c.toNat - '0'.toNat
      -- cutoff = maxUint64/10 + 1
      if n ≥ maxUint64 / 10 + 1 then
        .error .ErrRange
      else
        let n10 := n * 10
        let n1 := (n10 + d) % 2 ^ 64
        if n1 < n10 ∨ n1 > maxUint64 then
          .error .ErrRange
        else
          parseUintLoop cs n1
    else
      .error .ErrSyntax

/-- Model of `strconv.ParseUint(s, 10, 64)`. -/
def ParseUint (s : String) : Except GoError Nat :=
  if s = "" then
    .error (.numError "ParseUint" s .ErrSyntax)
  else
    match parseUintLoop s.toList 0 with
    | .ok n => .ok n
    | .error k => .error (.numError "ParseUint" s k)

/-- Go `fmt.Sprintf("%d", n)` for a non-negative integer. -/
def formatUint (n : Nat) : String := Nat.repr n

/-! ## Query modifiers and statements -/

/-- A bound argument (`interface{}`) handed to the query builder or to the
execution handle: a plain value, one of the nullable column values, or a
whole slice of identifiers passed as one argument (`slice ns` is a
`[]interface{}` whose elements are the `uint64` values `ns`). -/
inductive Value where
  | uint64 (n : Nat)
  | string (s : String)
  | bool (b : Bool)
  | time (t : Time)
  | nullString (v : NullString)
  | nullBool (v : NullBool)
  | nullTime (v : NullTime)
  | slice (ns : List Nat)
  deriving DecidableEq, Repr

/-- The query modifiers (`qm.QueryMod`) the stores build: clause text plus
bound arguments. -/
inductive QueryMod where
  | WhereIn (clause : String) (args : List Value)
  | Where (clause : String) (arg : Value)
  | OrderBy (clause : String)
  | Limit (limit : Int)
  | Offset (offset : Int)
  deriving DecidableEq, Repr

/-- A Go `map[string]interface{}` of update columns, as an association list
with at most one entry per key. -/
abbrev Cols := List (String × Value)

/-- The map assignment `cols[k] = v`. -/
def Cols.set (cols : Cols) (k : String) (v : Value) : Cols :=
  if cols.any (fun p => p.1 == k) then
    cols.map (fun p => if p.1 == k then (k, v) else p)
  else
    cols ++ [(k, v)]

/-- The map lookup `cols[k]`. -/
def Cols.get (cols : Cols) (k : String) : Option Value :=
  (cols.find? (fun p => p.1 == k)).map Prod.snd

/-- A statement handed to the execution handle: through the generated models,
or as raw text with bound arguments (`exec.ExecContext(ctx, query, args...)`). -/
inductive Statement where
  | UsersAll (mods : List QueryMod)
  | UsersUpdateAll (mods : List QueryMod) (cols : Cols)
  | RoomsAll (mods : List QueryMod)
  | RoomsUpdateAll (mods : List QueryMod) (cols : Cols)
  | ExecContext (query : String) (args : List Value)
  | RoomMembersAll (mods : List QueryMod)
  deriving DecidableEq, Repr

/-- The loop `for i, id := range IDs { idNum, err := strconv.ParseUint(id, 10, 64) ... }`
shared by `Users`, `Rooms` and both `Update`s: it converts the identifiers in
list order and stops at the first one that does not parse, returning
`fmt.Errorf(what + "%s: %w", id, err)`. -/
def parseIDs (what : String) : List String → Except GoError (List Value)
  | [] => .ok []
  | id :: rest =>
    match ParseUint id with
    | .error err => .error (.wrapf (what ++ id) err)
    | .ok idNum =>
      match parseIDs what rest with
      | .error e => .error e
      | .ok ids => .ok (Value.uint64 idNum :: ids)

/-! ## Domain models (`lib/users/models.go`, `lib/rooms/models.go`) -/

namespace users

/-- Go `type Gender string`. -/
abbrev Gender := String

/-- The constant `GenderMale`. -/
def GenderMale : Gender := "male"

/-- The constant `GenderFemale`. -/
def GenderFemale : Gender := "female"

/-- The constant `GenderOther`. -/
def GenderOther : Gender := "other"

/-- Clean domain model of a user. -/
structure User where
  ID : String
  Username : String
  Email : String
  DisplayName : String
  Gender : Gender
  CreatedAt : Time
  deriving DecidableEq, Repr

/-- Optional filters of a user query.  The Go field `Sort` is `SortDir` here
(`Sort` is reserved). -/
structure UserQueryFilter where
  IDs : List String
  Username : NullString
  Email : NullString
  Gender : NullString
  OrderBy : NullString
  SortDir : NullString
  Limit : NullInt
  Offset : NullInt
  deriving DecidableEq, Repr

/-- Nullable fields of a partial user update. -/
structure UpdateUser where
  IDs : List String
  Username : NullString
  DisplayName : NullString
  Gender : NullString
  deriving DecidableEq, Repr

/-- The Go zero value `users.UserQueryFilter{}`. -/
def UserQueryFilter.zero : UserQueryFilter :=
  ⟨[], .unset, .unset, .unset, .unset, .unset, .unset, .unset⟩

end users

namespace rooms

/-- Clean domain model of a room. -/
structure Room where
  ID : String
  Name : String
  CreatedBy : String
  IsActive : Bool
  CreatedAt : Time
  deriving DecidableEq, Repr

/-- Optional filters of a room query.  The Go field `Sort` is `SortDir` here. -/
structure RoomQueryFilter where
  IDs : List String
  Name : NullString
  CreatedBy : NullString
  IsActive : NullBool
  CreatedAt : NullTime
  OrderBy : NullString
  SortDir : NullString
  Limit : NullInt
  Offset : NullInt
  deriving DecidableEq, Repr

/-- Nullable fields of a partial room update. -/
structure UpdateRoom where
  IDs : List String
  Name : NullString
  IsActive : NullBool
  CreatedAt : NullTime
  CreatedBy : NullString
  deriving DecidableEq, Repr

/-- The Go zero value `rooms.RoomQueryFilter{}`. -/
def RoomQueryFilter.zero : RoomQueryFilter :=
  ⟨[], .unset, .unset, .unset, .unset, .unset, .unset, .unset, .unset⟩

end rooms

namespace room_members

/-- Domain model of a room membership (`lib/room_members/models.go`). -/
structure RoomMembers where
  ID : String
  RoomID : String
  UserID : String
  JoinedAt : Time
  LeftAt : Time
  deriving DecidableEq, Repr

/-- Optional filters of a room-member query. -/
structure RoomMemberQueryFilter where
  IDs : List String
  RoomID : NullString
  UserID : NullString
  JoinedAt : NullTime
  LeftAt : NullTime
  deriving DecidableEq, Repr

/-- Nullable fields of a partial room-member update. -/
structure UpdateRoomMember where
  IDs : List String
  RoomID : NullString
  UserID : NullString
  JoinedAt : NullTime
  LeftAt : NullTime
  deriving DecidableEq, Repr

/-- The Go zero value `room_members.RoomMemberQueryFilter{}`. -/
def RoomMemberQueryFilter.zero : RoomMemberQueryFilter :=
  ⟨[], .unset, .unset, .unset, .unset⟩

end room_members

/-! ## Storage models -/

namespace models

/-- The generated storage model of a `users` row.  The generated package is
not part of the sources at hand: the fields are the ones the stores, the
repository and the factory read and write (`ID`, `Username`, `DisplayName`,
`Gender`, `CreatedAt`).  No source reads or writes an e-mail of a row. -/
structure User where
  ID : Nat
  Username : String
  DisplayName : NullString
  Gender : NullString
  CreatedAt : NullTime
  deriving DecidableEq, Repr

/-- The generated storage model of a `rooms` row (fields as used by the room
store). -/
structure Room where
  ID : Nat
  Name : String
  CreatedBy : Nat
  IsActive : NullBool
  CreatedAt : NullTime
  deriving DecidableEq, Repr

/-- The generated storage model of a `room_members` row (fields as used by the
room-member store and repository). -/
structure RoomMember where
  ID : Nat
  RoomID : Nat
  UserID : Nat
  JoinedAt : NullTime
  LeftAt : NullTime
  deriving DecidableEq, Repr

end models

/-! ## Query construction (`Store.Users`, `Store.Rooms`) -/

namespace users

/-- The first half of `Store.Users`: the modifiers appended to `mods`, in
program order, up to the point where the query is executed. -/
def Store.queryMods (filter : UserQueryFilter) : Except GoError (List QueryMod) := do
  let mut mods : List QueryMod := []
  -- IDs filter
  if filter.IDs.length > 0 then
    let ids ← parseIDs "invalid user ID " filter.IDs
    mods := mods ++ [QueryMod.WhereIn "id IN ?" ids]
  -- Username filter
  if filter.Username.Valid then
    mods := mods ++ [QueryMod.Where "username = ?" (.string filter.Username.StringVal)]
  -- Email filter
  if filter.Email.Valid then
    mods := mods ++ [QueryMod.Where "email = ?" (.string filter.Email.StringVal)]
  -- Gender filter
  if filter.Gender.Valid then
    mods := mods ++ [QueryMod.Where "gender = ?" (.string filter.Gender.StringVal)]
  -- Sorting
  if filter.OrderBy.Valid then
    let mut sortDir := "ASC"
    if filter.SortDir.Valid then
      sortDir := filter.SortDir.StringVal
    mods := mods ++ [QueryMod.OrderBy (filter.OrderBy.StringVal ++ " " ++ sortDir)]
  -- Pagination
  if filter.Limit.Valid then
    mods := mods ++ [QueryMod.Limit filter.Limit.IntVal]
  if filter.Offset.Valid then
    mods := mods ++ [QueryMod.Offset filter.Offset.IntVal]
  return mods

/-- Go `dbUsersToUsers`: storage rows to domain users. -/
def dbUsersToUsers (dbUsers : List models.User) : List User :=
  dbUsers.map fun db =>
    let displayName := if db.DisplayName.Valid then db.DisplayName.StringVal else ""
    let gender : Gender := if db.Gender.Valid then db.Gender.StringVal else ""
    let createdAt := if db.CreatedAt.Valid then db.CreatedAt.TimeVal else Time.zero
    { ID := formatUint db.ID
      Username := db.Username
      Email := ""
      DisplayName := displayName
      Gender := gender
      CreatedAt := createdAt }

end users

namespace rooms

/-- The first half of `Store.Rooms`: the modifiers appended to `mods`, in
program order, up to the point where the query is executed. -/
def Store.queryMods (filter : RoomQueryFilter) : Except GoError (List QueryMod) := do
  let mut mods : List QueryMod := []
  -- IDs filter
  if filter.IDs.length > 0 then
    let ids ← parseIDs "invalid room ID " filter.IDs
    mods := mods ++ [QueryMod.WhereIn "id IN ?" ids]
  -- Name filter
  if filter.Name.Valid then
    mods := mods ++ [QueryMod.Where "name = ?" (.string filter.Name.StringVal)]
  -- CreatedBy filter
  if filter.CreatedBy.Valid then
    match ParseUint filter.CreatedBy.StringVal with
    | .error err =>
      throw (GoError.wrapf ("invalid created_by ID " ++ filter.CreatedBy.StringVal) err)
    | .ok createdByNum =>
      mods := mods ++ [QueryMod.Where "created_by = ?" (.uint64 createdByNum)]
  -- IsActive filter
  if filter.IsActive.Valid then
    mods := mods ++ [QueryMod.Where "is_active = ?" (.bool filter.IsActive.BoolVal)]
  -- CreatedAt filter
  if filter.CreatedAt.Valid then
    mods := mods ++ [QueryMod.Where "created_at = ?" (.time filter.CreatedAt.TimeVal)]
  -- Sorting
  if filter.OrderBy.Valid then
    let mut sortDir := "ASC"
    if filter.SortDir.Valid then
      sortDir := filter.SortDir.StringVal
    mods := mods ++ [QueryMod.OrderBy (filter.OrderBy.StringVal ++ " " ++ sortDir)]
  -- Pagination
  if filter.Limit.Valid then
    mods := mods ++ [QueryMod.Limit filter.Limit.IntVal]
  if filter.Offset.Valid then
    mods := mods ++ [QueryMod.Offset filter.Offset.IntVal]
  return mods

/-- Go `dbRoomsToRooms`: storage rows to domain rooms. -/
def dbRoomsToRooms (dbRooms : List models.Room) : List Room :=
  dbRooms.map fun db =>
    let isActive := if db.IsActive.Valid then db.IsActive.BoolVal else false
    let createdAt := if db.CreatedAt.Valid then db.CreatedAt.TimeVal else Time.zero
    { ID := formatUint db.ID
      Name := db.Name
      CreatedBy := formatUint db.CreatedBy
      IsActive := isActive
      CreatedAt := createdAt }

end rooms

/-! ## The execution handle -/

/-- Whether a modifier contributes a `WHERE` predicate. -/
def QueryMod.isWhere : QueryMod → Bool
  | .WhereIn _ _ => true
  | .Where _ _ => true
  | _ => false

/-- Modelled from the spec: the conjunction of the `WHERE` predicates among
`mods` ("all present predicates are combined with logical AND"), given the
meaning `wh` of one predicate on a row of the table.  A predicate the table
does not understand makes the statement fail. -/
def compileWhere {α : Type} (wh : QueryMod → Option (α → Bool)) :
    List QueryMod → Except GoError (α → Bool)
  | [] => .ok fun _ => true
  | m :: ms =>
    if m.isWhere then
      match wh m with
      | none => .error (.driver "unknown predicate")
      | some p =>
        match compileWhere wh ms with
        | .error e => .error e
        | .ok q => .ok fun r => p r && q r
    else
      compileWhere wh ms

/-- Modelled from the spec: the `ORDER BY` step.  The clauses are applied as
stable sorts, the last clause first, so that the first clause is the primary
sort key; without a clause the rows keep the order of the table.  An
unknown sort clause makes the statement fail. -/
def compileOrder {α : Type} (ord : String → Option (α → α → Bool)) :
    List QueryMod → List α → Except GoError (List α)
  | [], rows => .ok rows
  | .OrderBy clause :: ms, rows =>
    match ord clause with
    | none => .error (.driver "unknown sort clause")
    | some le =>
      match compileOrder ord ms rows with
      | .error e => .error e
      | .ok sorted => .ok (sorted.insertionSort fun a b => le a b = true)
  | _ :: ms, rows => compileOrder ord ms rows

/-- The value of the last `LIMIT` modifier, if any. -/
def limitOf : List QueryMod → Option Int
  | [] => none
  | .Limit n :: ms => (limitOf ms).orElse fun _ => some n
  | _ :: ms => limitOf ms

/-- The value of the last `OFFSET` modifier, if any. -/
def offsetOf : List QueryMod → Option Int
  | [] => none
  | .Offset n :: ms => (offsetOf ms).orElse fun _ => some n
  | _ :: ms => offsetOf ms

/-- Modelled from the spec: pagination, applied after ordering.  `OFFSET n`
skips `n` rows and `LIMIT n` keeps at most `n` of the rest; each is
independent of the other.  A negative count makes the statement fail. -/
def paginate {α : Type} (mods : List QueryMod) (rows : List α) : Except GoError (List α) :=
  match offsetOf mods, limitOf mods with
  | none, none => .ok rows
  | some off, none =>
    if off < 0 then .error (.driver "negative OFFSET") else .ok (rows.drop off.toNat)
  | none, some lim =>
    if lim < 0 then .error (.driver "negative LIMIT") else .ok (rows.take lim.toNat)
  | some off, some lim =>
    if off < 0 then .error (.driver "negative OFFSET")
    else if lim < 0 then .error (.driver "negative LIMIT")
    else .ok ((rows.drop off.toNat).take lim.toNat)

/-- Modelled from the spec: a filtered read of a table (what the generated
`All` returns for the built query): filter by the conjunction of the
predicates, then order, then paginate. -/
def selectRows {α : Type} (wh : QueryMod → Option (α → Bool))
    (ord : String → Option (α → α → Bool)) (mods : List QueryMod) (rows : List α) :
    Except GoError (List α) :=
  match compileWhere wh mods with
  | .error e => .error e
  | .ok p =>
    match compileOrder ord mods (rows.filter p) with
    | .error e => .error e
    | .ok sorted => paginate mods sorted

/-- Modelled from the spec: the `SET` part of an update, the composition of
the column assignments of `cols`.  An unknown column, or a value of the wrong
kind, makes the statement fail. -/
def compileSet {α : Type} (setCol : String × Value → Option (α → α)) :
    Cols → Except GoError (α → α)
  | [] => .ok id
  | c :: cs =>
    match setCol c with
    | none => .error (.driver "unknown column")
    | some f =>
      match compileSet setCol cs with
      | .error e => .error e
      | .ok g => .ok fun r => g (f r)

/-- Modelled from the spec: a bulk `UPDATE ... WHERE ...` of a table (what the
generated `UpdateAll` does): every row that satisfies the predicates gets the
columns of `cols` overwritten, every other row is kept as it is.  The result
carries the number of rows matched. -/
def updateRows {α : Type} (wh : QueryMod → Option (α → Bool))
    (setCol : String × Value → Option (α → α)) (mods : List QueryMod) (cols : Cols)
    (rows : List α) : Except GoError (Int × List α) :=
  match compileWhere wh mods with
  | .error e => .error e
  | .ok p =>
    match compileSet setCol cols with
    | .error e => .error e
    | .ok f => .ok ((rows.filter p).length, rows.map fun r => if p r then f r else r)

/-- Lexicographic order of strings, character by character. -/
def strLE (a b : String) : Bool := decide (¬ b.toList < a.toList)

/-- Comparison of nullable keys for `ORDER BY`: an unset value sorts first. -/
def nullLE {β : Type} (le : β → β → Bool) (va : Bool) (a : β) (vb : Bool) (b : β) : Bool :=
  if !va then true else if !vb then false else le a b

/-- The words of a clause: its maximal runs of characters other than a space. -/
def clauseWords (clause : String) : List String :=
  ((clause.toList.splitOn ' ').filter fun w => w ≠ []).map String.mk

/-- Upper-casing of an ASCII keyword. -/
def upperWord (w : String) : String := String.mk (w.toList.map Char.toUpper)

/-- The sort clause `"<column>"` or `"<column> <direction>"` split into its
column and whether the direction is descending (`ASC`/`DESC`, in either
case). -/
def parseOrderBy (clause : String) : Option (String × Bool) :=
  match clauseWords clause with
  | [col] => some (col, false)
  | [col, dir] =>
    if upperWord dir = "ASC" then some (col, false)
    else if upperWord dir = "DESC" then some (col, true)
    else none
  | _ => none

/-- Turns an ascending comparison into the comparison of a sort clause. -/
def directed {α : Type} (le : α → α → Bool) (desc : Bool) : α → α → Bool :=
  if desc then fun a b => le b a else le

namespace models

/-- Modelled from the spec: the predicates of the `users` table ("equality
predicates are exact-match only"; `IDs` is a set-membership test).  A `NULL`
gender equals no value.  The `email` column, which the data model names and
`Store.Users` addresses, is written by none of the sources (converter,
factory, bulk insert): it is unset in every row and so equals no value. -/
def User.whereClause : QueryMod → Option (User → Bool)
  | .WhereIn "id IN ?" args => some fun r => args.contains (Value.uint64 r.ID)
  | .Where "id = ?" (.uint64 v) => some fun r => r.ID == v
  | .Where "username = ?" (.string v) => some fun r => r.Username == v
  | .Where "email = ?" (.string _) => some fun _ => false
  | .Where "display_name = ?" (.string v) =>
    some fun r => r.DisplayName.Valid && r.DisplayName.StringVal == v
  | .Where "gender = ?" (.string v) => some fun r => r.Gender.Valid && r.Gender.StringVal == v
  | .Where "created_at = ?" (.time v) =>
    some fun r => r.CreatedAt.Valid && r.CreatedAt.TimeVal == v
  | _ => none

/-- Modelled from the spec: ascending order of `users` rows by a column.  The
`email` column is unset in every row, so it orders no row before another. -/
def User.columnLE : String → Option (User → User → Bool)
  | "id" => some fun a b => a.ID ≤ b.ID
  | "username" => some fun a b => strLE a.Username b.Username
  | "email" => some fun _ _ => true
  | "display_name" => some fun a b =>
    nullLE strLE a.DisplayName.Valid a.DisplayName.StringVal
      b.DisplayName.Valid b.DisplayName.StringVal
  | "gender" => some fun a b =>
    nullLE strLE a.Gender.Valid a.Gender.StringVal
      b.Gender.Valid b.Gender.StringVal
  | "created_at" => some fun a b =>
    nullLE (fun x y : Time => x.nanos ≤ y.nanos) a.CreatedAt.Valid a.CreatedAt.TimeVal
      b.CreatedAt.Valid b.CreatedAt.TimeVal
  | _ => none

/-- Modelled from the spec: the meaning of a sort clause on the `users` table
("sort by the named column"). -/
def User.order (clause : String) : Option (User → User → Bool) :=
  match parseOrderBy clause with
  | none => none
  | some (col, desc) =>
    match User.columnLE col with
    | none => none
    | some le => some (directed le desc)

/-- Modelled from the spec: a column assignment on a `users` row. -/
def User.setCol : String × Value → Option (User → User)
  | ("id", .uint64 v) => some fun r => { r with ID := v }
  | ("username", .string v) => some fun r => { r with Username := v }
  | ("display_name", .string v) => some fun r => { r with DisplayName := ⟨v, true⟩ }
  | ("gender", .string v) => some fun r => { r with Gender := ⟨v, true⟩ }
  | ("created_at", .time v) => some fun r => { r with CreatedAt := ⟨v, true⟩ }
  | _ => none

/-- Modelled from the spec: the predicates of the `rooms` table. -/
def Room.whereClause : QueryMod → Option (Room → Bool)
  | .WhereIn "id IN ?" args => some fun r => args.contains (Value.uint64 r.ID)
  | .Where "id = ?" (.uint64 v) => some fun r => r.ID == v
  | .Where "name = ?" (.string v) => some fun r => r.Name == v
  | .Where "created_by = ?" (.uint64 v) => some fun r => r.CreatedBy == v
  | .Where "is_active = ?" (.bool v) => some fun r => r.IsActive.Valid && r.IsActive.BoolVal == v
  | .Where "created_at = ?" (.time v) =>
    some fun r => r.CreatedAt.Valid && r.CreatedAt.TimeVal == v
  | _ => none

/-- Modelled from the spec: ascending order of `rooms` rows by a column. -/
def Room.columnLE : String → Option (Room → Room → Bool)
  | "id" => some fun a b => a.ID ≤ b.ID
  | "name" => some fun a b => strLE a.Name b.Name
  | "created_by" => some fun a b => a.CreatedBy ≤ b.CreatedBy
  | "is_active" => some fun a b =>
    nullLE (fun x y : Bool => !x || y) a.IsActive.Valid a.IsActive.BoolVal
      b.IsActive.Valid b.IsActive.BoolVal
  | "created_at" => some fun a b =>
    nullLE (fun x y : Time => x.nanos ≤ y.nanos) a.CreatedAt.Valid a.CreatedAt.TimeVal
      b.CreatedAt.Valid b.CreatedAt.TimeVal
  | _ => none

/-- Modelled from the spec: the meaning of a sort clause on the `rooms` table. -/
def Room.order (clause : String) : Option (Room → Room → Bool) :=
  match parseOrderBy clause with
  | none => none
  | some (col, desc) =>
    match Room.columnLE col with
    | none => none
    | some le => some (directed le desc)

/-- Modelled from the spec: a column assignment on a `rooms` row. -/
def Room.setCol : String × Value → Option (Room → Room)
  | ("id", .uint64 v) => some fun r => { r with ID := v }
  | ("name", .string v) => some fun r => { r with Name := v }
  | ("created_by", .uint64 v) => some fun r => { r with CreatedBy := v }
  | ("is_active", .bool v) => some fun r => { r with IsActive := ⟨v, true⟩ }
  | ("created_at", .time v) => some fun r => { r with CreatedAt := ⟨v, true⟩ }
  | _ => none

/-- Modelled from the spec: the predicates of the `room_members` table:
membership of the id among numeric arguments, and exact equality of a column
with a bound value of the column's kind (a numeric key for `room_id` and
`user_id`, a time for `joined_at` and `left_at`).  A predicate in any other
form is not understood by the table. -/
def RoomMember.whereClause : QueryMod → Option (RoomMember → Bool)
  | .WhereIn "id IN ?" args => some fun r => args.contains (Value.uint64 r.ID)
  | .Where "id = ?" (.uint64 v) => some fun r => r.ID == v
  | .Where "room_id = ?" (.uint64 v) => some fun r => r.RoomID == v
  | .Where "user_id = ?" (.uint64 v) => some fun r => r.UserID == v
  | .Where "joined_at = ?" (.time v) =>
    some fun r => r.JoinedAt.Valid && r.JoinedAt.TimeVal == v
  | .Where "left_at = ?" (.time v) => some fun r => r.LeftAt.Valid && r.LeftAt.TimeVal == v
  | _ => none

end models

/-- The rows of the three tables of the schema. -/
structure Tables where
  users : List models.User
  rooms : List models.Room
  roomMembers : List models.RoomMember

/-- Modelled from the spec: the execution handle (`boil.ContextExecutor`)
together with the backing tables it serves.  The handle and the generated
query layer are external collaborators of the stores.

* `users`, `rooms`, `roomMembers`: the rows of the tables;
* `fault`: the failure, if any, with which the backing store answers a
  statement for a reason of its own (connectivity, constraint, ...);
* `log`: every statement issued to the handle so far, oldest first;
* `raw`: what a successful raw-text statement does to the tables.  The text
  of a raw statement is not interpreted here, so its effect is left to the
  backing store. -/
structure Backend where
  users : List models.User
  rooms : List models.Room
  fault : Statement → Option GoError
  log : List Statement
  roomMembers : List models.RoomMember
  raw : String → List Value → Tables → Tables

/-- Modelled from the spec: `models.Users(mods...).All(ctx, exec)`. -/
def Backend.UsersAll (exec : Backend) (mods : List QueryMod) :
    Except GoError (List models.User) × Backend :=
  let exec1 := { exec with log := exec.log ++ [Statement.UsersAll mods] }
  match exec.fault (.UsersAll mods) with
  | some e => (.error e, exec1)
  | none => (selectRows models.User.whereClause models.User.order mods exec.users, exec1)

/-- Modelled from the spec: `models.Users(mods...).UpdateAll(ctx, exec, cols)`. -/
def Backend.UsersUpdateAll (exec : Backend) (mods : List QueryMod) (cols : Cols) :
    Except GoError Int × Backend :=
  let exec1 := { exec with log := exec.log ++ [Statement.UsersUpdateAll mods cols] }
  match exec.fault (.UsersUpdateAll mods cols) with
  | some e => (.error e, exec1)
  | none =>
    match updateRows models.User.whereClause models.User.setCol mods cols exec.users with
    | .error e => (.error e, exec1)
    | .ok (n, rows) => (.ok n, { exec1 with users := rows })

/-- Modelled from the spec: `models.Rooms(mods...).All(ctx, exec)`. -/
def Backend.RoomsAll (exec : Backend) (mods : List QueryMod) :
    Except GoError (List models.Room) × Backend :=
  let exec1 := { exec with log := exec.log ++ [Statement.RoomsAll mods] }
  match exec.fault (.RoomsAll mods) with
  | some e => (.error e, exec1)
  | none => (selectRows models.Room.whereClause models.Room.order mods exec.rooms, exec1)

/-- Modelled from the spec: `models.Rooms(mods...).UpdateAll(ctx, exec, cols)`. -/
def Backend.RoomsUpdateAll (exec : Backend) (mods : List QueryMod) (cols : Cols) :
    Except GoError Int × Backend :=
  let exec1 := { exec with log := exec.log ++ [Statement.RoomsUpdateAll mods cols] }
  match exec.fault (.RoomsUpdateAll mods cols) with
  | some e => (.error e, exec1)
  | none =>
    match updateRows models.Room.whereClause models.Room.setCol mods cols exec.rooms with
    | .error e => (.error e, exec1)
    | .ok (n, rows) => (.ok n, { exec1 with rooms := rows })

/-- Modelled from the spec: `exec.ExecContext(ctx, query, args...)`, the
execution of a parameterized statement with its argument list.  The statement
is logged; it fails when the backing store reports a failure and otherwise
has the effect the backing store gives it. -/
def Backend.ExecContext (exec : Backend) (query : String) (args : List Value) :
    Except GoError Unit × Backend :=
  let exec1 := { exec with log := exec.log ++ [Statement.ExecContext query args] }
  match exec.fault (.ExecContext query args) with
  | some e => (.error e, exec1)
  | none =>
    let t := exec.raw query args ⟨exec.users, exec.rooms, exec.roomMembers⟩
    (.ok (), { exec1 with users := t.users, rooms := t.rooms, roomMembers := t.roomMembers })

/-- Modelled from the spec: `models.RoomMembers(mods...).All(ctx, exec)`.  The
room-member filter has no ordering, so no sort clause is understood. -/
def Backend.RoomMembersAll (exec : Backend) (mods : List QueryMod) :
    Except GoError (List models.RoomMember) × Backend :=
  let exec1 := { exec with log := exec.log ++ [Statement.RoomMembersAll mods] }
  match exec.fault (.RoomMembersAll mods) with
  | some e => (.error e, exec1)
  | none =>
    (selectRows models.RoomMember.whereClause (fun _ => none) mods exec.roomMembers, exec1)

/-- A backend without faults and with an empty log, holding the given tables
(no room members; raw statements leave the tables as they are). -/
def Backend.mk0 (us : List models.User) (rs : List models.Room) : Backend :=
  ⟨us, rs, fun _ => none, [], [], fun _ _ t => t⟩

/-! ## The stores -/

namespace users

/-- Go `(*Store).Users`: returns 0 or more users matching the filter. -/
def Store.Users (exec : Backend) (filter : UserQueryFilter) :
    Except GoError (List User) × Backend :=
  match Store.queryMods filter with
  | .error err => (.error err, exec)
  | .ok mods =>
    -- Execute query
    match exec.UsersAll mods with
    | (.error err, exec1) => (.error (.wrapf "query users" err), exec1)
    | (.ok dbUsers, exec1) => (.ok (dbUsersToUsers dbUsers), exec1)

/-- Go `(*Store).User`: returns exactly 1 user, errors if 0 or more than 1 found. -/
def Store.User (exec : Backend) (filter : UserQueryFilter) : Except GoError User × Backend :=
  match Store.Users exec filter with
  | (.error err, exec1) => (.error err, exec1)
  | (.ok results, exec1) =>
    if h0 : results.length = 0 then
      (.error (.errorf "no user found"), exec1)
    else if results.length > 1 then
      (.error (.errorf ("expected 1 user, got " ++ formatUint results.length)), exec1)
    else
      (.ok results[0], exec1)

/-- The update columns `cols` that `Store.Update` builds from the present
fields. -/
def Store.updateCols (update : UpdateUser) : Cols := Id.run do
  let mut cols : Cols := []
  if update.Username.Valid then
    cols := cols.set "username" (.string update.Username.StringVal)
  if update.DisplayName.Valid then
    cols := cols.set "display_name" (.string update.DisplayName.StringVal)
  if update.Gender.Valid then
    cols := cols.set "gender" (.string update.Gender.StringVal)
  return cols

/-- Go `(*Store).Update`: generic update with nullable fields. -/
def Store.Update (exec : Backend) (update : UpdateUser) : Option GoError × Backend :=
  if update.IDs.length = 0 then
    (some (.errorf "no user IDs provided"), exec)
  else
    -- Build update columns
    let cols := Store.updateCols update
    if cols.length = 0 then
      (none, exec) -- Nothing to update
    else
      -- Convert string IDs to uint64
      match parseIDs "invalid user ID " update.IDs with
      | .error err => (some err, exec)
      | .ok ids =>
        -- Execute update
        match exec.UsersUpdateAll [QueryMod.WhereIn "id IN ?" ids] cols with
        | (.error err, exec1) => (some err, exec1)
        | (.ok _, exec1) => (none, exec1)

end users

namespace rooms

/-- Go `(*Store).Rooms`: returns 0 or more rooms matching the filter. -/
def Store.Rooms (exec : Backend) (filter : RoomQueryFilter) :
    Except GoError (List Room) × Backend :=
  match Store.queryMods filter with
  | .error err => (.error err, exec)
  | .ok mods =>
    -- Execute query
    match exec.RoomsAll mods with
    | (.error err, exec1) => (.error (.wrapf "query rooms" err), exec1)
    | (.ok dbRooms, exec1) => (.ok (dbRoomsToRooms dbRooms), exec1)

/-- Go `(*Store).Room`: returns exactly 1 room, errors if 0 or more than 1 found. -/
def Store.Room (exec : Backend) (filter : RoomQueryFilter) : Except GoError Room × Backend :=
  match Store.Rooms exec filter with
  | (.error err, exec1) => (.error err, exec1)
  | (.ok results, exec1) =>
    if h0 : results.length = 0 then
      (.error (.errorf "no room found"), exec1)
    else if results.length > 1 then
      (.error (.errorf ("expected 1 room, got " ++ formatUint results.length)), exec1)
    else
      (.ok results[0], exec1)

/-- The update columns `cols` that `Store.Update` builds from the present
fields; building them fails when `CreatedBy` is present and does not parse. -/
def Store.updateCols (update : UpdateRoom) : Except GoError Cols := do
  let mut cols : Cols := []
  if update.Name.Valid then
    cols := cols.set "name" (.string update.Name.StringVal)
  if update.IsActive.Valid then
    cols := cols.set "is_active" (.bool update.IsActive.BoolVal)
  if update.CreatedAt.Valid then
    cols := cols.set "created_at" (.time update.CreatedAt.TimeVal)
  if update.CreatedBy.Valid then
    match ParseUint update.CreatedBy.StringVal with
    | .error err =>
      throw (GoError.wrapf ("invalid created_by ID " ++ update.CreatedBy.StringVal) err)
    | .ok createdByNum =>
      cols := cols.set "created_by" (.uint64 createdByNum)
  return cols

/-- Go `(*Store).Update`: generic update with nullable fields. -/
def Store.Update (exec : Backend) (update : UpdateRoom) : Option GoError × Backend :=
  if update.IDs.length = 0 then
    (some (.errorf "no room IDs provided"), exec)
  else
    -- Build update columns
    match Store.updateCols update with
    | .error err => (some err, exec)
    | .ok cols =>
      if cols.length = 0 then
        (none, exec) -- Nothing to update
      else
        -- Convert string IDs to uint64
        match parseIDs "invalid room ID " update.IDs with
        | .error err => (some err, exec)
        | .ok ids =>
          -- Execute update
          match exec.RoomsUpdateAll [QueryMod.WhereIn "id IN ?" ids] cols with
          | (.error err, exec1) => (some err, exec1)
          | (.ok _, exec1) => (none, exec1)

end rooms

/-! ## Conversions into the storage models -/

namespace users

/-- Go `userToDBUser`: domain user to storage row. -/
def userToDBUser (user : User) : Except GoError models.User :=
  match ParseUint user.ID with
  | .error err => .error (.wrapf "invalid user ID" err)
  | .ok id =>
    .ok
      { ID := id
        Username := user.Username
        DisplayName := { StringVal := user.DisplayName, Valid := user.DisplayName != "" }
        Gender := { StringVal := user.Gender, Valid := user.Gender != "" }
        CreatedAt := { TimeVal := user.CreatedAt, Valid := !user.CreatedAt.IsZero } }

end users

namespace rooms

/-- Go `roomToDBRoom`: domain room to storage row. -/
def roomToDBRoom (room : Room) : Except GoError models.Room :=
  match ParseUint room.ID with
  | .error err => .error (.wrapf "invalid room ID" err)
  | .ok id =>
    match ParseUint room.CreatedBy with
    | .error err => .error (.wrapf "invalid created_by ID" err)
    | .ok createdBy =>
      .ok
        { ID := id
          Name := room.Name
          CreatedBy := createdBy
          IsActive := { BoolVal := room.IsActive, Valid := true }
          CreatedAt := { TimeVal := room.CreatedAt, Valid := !room.CreatedAt.IsZero } }

end rooms

namespace room_members

/-- Go `dbRoomMembersToRoomMembers`: storage rows to domain room members.
`joinedAt` starts as the zero `null.Time` and is overwritten only when the
column is valid; `LeftAt` is read from the column as it is. -/
def dbRoomMembersToRoomMembers (dbRoomMembers : List models.RoomMember) : List RoomMembers :=
  dbRoomMembers.map fun db =>
    let joinedAt : NullTime :=
      if db.JoinedAt.Valid then NullTime.From db.JoinedAt.TimeVal else NullTime.unset
    { ID := formatUint db.ID
      RoomID := formatUint db.RoomID
      UserID := formatUint db.UserID
      JoinedAt := joinedAt.TimeVal
      LeftAt := db.LeftAt.TimeVal }

/-- The slice `ids` that `RoomMembers` fills with the parsed identifiers, as
the single value it is handed on as. -/
def idsSlice (ids : List Value) : Value :=
  Value.slice (ids.filterMap fun v =>
    match v with
    | .uint64 n => some n
    | _ => none)

/-- The first half of `Store.RoomMembers`: the modifiers appended to `mods`,
in program order, up to the point where the query is executed.  The parsed
`ids` are passed to `qm.WhereIn` as one argument (not spread), `RoomID` and
`UserID` are passed as the strings they are, and the two time predicates are
built with `qm.WhereIn`. -/
def Store.queryMods (filter : RoomMemberQueryFilter) : Except GoError (List QueryMod) := do
  let mut mods : List QueryMod := []
  if filter.IDs.length > 0 then
    let ids ← parseIDs "invalid room member ID " filter.IDs
    mods := mods ++ [QueryMod.WhereIn "id IN (?)" [idsSlice ids]]
  if filter.RoomID.Valid then
    mods := mods ++ [QueryMod.Where "room_id = ?" (.string filter.RoomID.StringVal)]
  if filter.UserID.Valid then
    mods := mods ++ [QueryMod.Where "user_id = ?" (.string filter.UserID.StringVal)]
  if filter.JoinedAt.Valid then
    mods := mods ++ [QueryMod.WhereIn "joined_at = ?" [.time filter.JoinedAt.TimeVal]]
  if filter.LeftAt.Valid then
    mods := mods ++ [QueryMod.WhereIn "left_at = ?" [.time filter.LeftAt.TimeVal]]
  return mods

/-- Go `(*Store).RoomMembers`: returns 0 or more room members matching the
filter. -/
def Store.RoomMembers (exec : Backend) (filter : RoomMemberQueryFilter) :
    Except GoError (List RoomMembers) × Backend :=
  match Store.queryMods filter with
  | .error err => (.error err, exec)
  | .ok mods =>
    match exec.RoomMembersAll mods with
    | (.error err, exec1) => (.error (.wrapf "query room members" err), exec1)
    | (.ok dbRoomMembers, exec1) => (.ok (dbRoomMembersToRoomMembers dbRoomMembers), exec1)

end room_members

/-! ## Bulk inserts (`db/repo`) -/

/-- Go `strings.Join(elems, sep)`. -/
def strings.Join (elems : List String) (sep : String) : String := sep.intercalate elems

namespace repo

/-- The text and the arguments of the statement `UserRepo.BulkInsert` builds:
one placeholder group and five arguments per user, in input order. -/
def UserRepo.bulkInsertStatement (users : List models.User) : String × List Value :=
  -- Build placeholders for values
  let placeholders := users.map fun _ => "(?, ?, ?, ?, ?)"
  let args : List Value := users.foldl (fun args user =>
    args ++ [.uint64 user.ID, .string user.Username, .nullString user.DisplayName,
      .nullString user.Gender, .nullTime user.CreatedAt]) []
  let query := "\n\t\tINSERT INTO users (id, username, display_name, gender, created_at)\n\t\tVALUES "
    ++ strings.Join placeholders ", " ++ "\n\t"
  (query, args)

/-- Go `(*UserRepo).BulkInsert`: inserts multiple users in a single query. -/
def UserRepo.BulkInsert (exec : Backend) (users : List models.User) :
    Option GoError × Backend :=
  if users.length = 0 then
    (none, exec)
  else
    let (query, args) := UserRepo.bulkInsertStatement users
    match exec.ExecContext query args with
    | (.error err, exec1) => (some (.wrapf "bulk insert users" err), exec1)
    | (.ok _, exec1) => (none, exec1)

/-- The text and the arguments of the statement `RoomRepo.BulkInsert` builds. -/
def RoomRepo.bulkInsertStatement (rooms : List models.Room) : String × List Value :=
  let placeholders := rooms.map fun _ => "(?, ?, ?, ?, ?)"
  let args : List Value := rooms.foldl (fun args room =>
    args ++ [.uint64 room.ID, .string room.Name, .uint64 room.CreatedBy,
      .nullBool room.IsActive, .nullTime room.CreatedAt]) []
  let query := "INSERT INTO rooms (id, name, created_by, is_active, created_at) VALUES "
    ++ strings.Join placeholders ", "
  (query, args)

/-- Go `(*RoomRepo).BulkInsert`. -/
def RoomRepo.BulkInsert (exec : Backend) (rooms : List models.Room) :
    Option GoError × Backend :=
  if rooms.length = 0 then
    (none, exec)
  else
    let (query, args) := RoomRepo.bulkInsertStatement rooms
    match exec.ExecContext query args with
    | (.error err, exec1) => (some (.wrapf "bulk insert rooms" err), exec1)
    | (.ok _, exec1) => (none, exec1)

/-- The text and the arguments of the statement `RoomMemberRepo.BulkInsert`
builds. -/
def RoomMemberRepo.bulkInsertStatement (roomMembers : List models.RoomMember) :
    String × List Value :=
  let placeholders := roomMembers.map fun _ => "(?, ?, ?, ?, ?, ?)"
  let args : List Value := roomMembers.foldl (fun args roomMember =>
    args ++ [.uint64 roomMember.ID, .uint64 roomMember.RoomID, .uint64 roomMember.UserID,
      .nullTime roomMember.JoinedAt, .nullTime roomMember.LeftAt]) []
  let query := "INSERT INTO room_member (id, room_id, user_id, joined_at, left_at) VALUES "
    ++ strings.Join placeholders ","
  (query, args)

/-- Go `(*RoomMemberRepo).BulkInsert`. -/
def RoomMemberRepo.BulkInsert (exec : Backend) (roomMembers : List models.RoomMember) :
    Option GoError × Backend :=
  if roomMembers.length = 0 then
    (none, exec)
  else
    let (query, args) := RoomMemberRepo.bulkInsertStatement roomMembers
    match exec.ExecContext query args with
    | (.error err, exec1) => (some (.wrapf "insert room member" err), exec1)
    | (.ok _, exec1) => (none, exec1)

end repo

/-! ## Reading raw statements -/

/-- The number of `?` placeholders in a statement text. -/
def placeholderCount (query : String) : Nat := query.toList.count '?'

/-- The characters of a statement text after its leading white space. -/
def skipSpace (cs : List Char) : List Char := cs.dropWhile Char.isWhitespace

/-- Removes the keyword `kw` from the front of `cs`, if it is there. -/
def dropKeyword (kw : List Char) (cs : List Char) : Option (List Char) :=
  if kw.isPrefixOf cs then some (cs.drop kw.length) else none

/-- The table an `INSERT INTO <table> (...)` statement writes to: the word
after the two keywords, up to white space or the opening bracket. -/
def insertTable (query : String) : Option String :=
  match dropKeyword "INSERT".toList (skipSpace query.toList) with
  | none => none
  | some r1 =>
    match dropKeyword "INTO".toList (skipSpace r1) with
    | none => none
    | some r2 =>
      some (String.mk ((skipSpace r2).takeWhile fun c => !c.isWhitespace && c != '('))

/-- The column names of an `INSERT INTO <table> (<columns>) ...` statement:
the comma-separated words between the first pair of brackets. -/
def insertColumns (query : String) : List String :=
  let inner := ((query.toList.dropWhile fun c => c != '(').drop 1).takeWhile fun c => c != ')'
  (inner.splitOn ',').map fun w => String.mk (w.filter fun c => !c.isWhitespace)

/-- The text after the keyword `VALUES` of an `INSERT` statement built with a
column list: what follows the first closing bracket, the white space around the
keyword skipped. -/
def insertValues (query : String) : Option String :=
  match dropKeyword "VALUES".toList
      (skipSpace ((query.toList.dropWhile fun c => c != ')').drop 1)) with
  | none => none
  | some r => some (String.mk (skipSpace r))

/-! ## Migrations (`cmd/mlm/cmd/migrate.go`) -/

namespace cmd

/-- The collaborators of the migration runner as the runner sees them: the
migration directory and the database handle.

* `entries`: the names of the files in the migration directory;
* `readFile`: `os.ReadFile` on a path;
* `exec`: the failure, if any, of `db.Exec(content)`, given the contents that
  were executed before it in this run. -/
structure MigrationEnv where
  entries : List String
  readFile : String → Except GoError String
  exec : List String → String → Option GoError

/-- What a run of the migration runner did: the files whose content the
database accepted, in order, and the file at which `log.Fatalf` ended the
process, if any. -/
structure MigrationRun where
  applied : List String
  fatal : Option String
  deriving DecidableEq, Repr

/-- Go `strings.HasSuffix`. -/
def HasSuffix (s suffix : String) : Bool := suffix.toList.isSuffixOf s.toList

/-- Model of `filepath.Glob(filepath.Join(dir, "*" + suffix))`: the paths of
the entries of the directory whose name ends in `suffix`. -/
def Glob (env : MigrationEnv) (dir suffix : String) : List String :=
  (env.entries.filter fun name => HasSuffix name suffix).map fun name => dir ++ "/" ++ name

/-- Go `sort.Strings`: ascending order.  Go compares strings byte by byte,
which for UTF-8 text is the order of the code points; strings that compare
equal are identical, so the result does not depend on the sorting method. -/
def sortStrings (files : List String) : List String :=
  files.insertionSort fun a b => strLE a b = true

/-- Go `sort.Sort(sort.Reverse(sort.StringSlice(files)))`: descending order. -/
def sortStringsReverse (files : List String) : List String :=
  files.insertionSort fun a b => strLE b a = true

/-- The loop of `runUpMigrations` over the remaining `files`, with the counter
`count`, the files applied so far and the contents executed so far. -/
def upLoop (env : MigrationEnv) (migrateStep : Int) :
    List String → Int → List String → List String → MigrationRun
  | [], _, applied, _ => ⟨applied, none⟩
  | file :: rest, count, applied, done =>
    if migrateStep > 0 ∧ count ≥ migrateStep then
      ⟨applied, none⟩
    else
      match env.readFile file with
      | .error _ => ⟨applied, some file⟩
      | .ok content =>
        -- Execute migration
        match env.exec done content with
        | some _ => ⟨applied, some file⟩
        | none => upLoop env migrateStep rest (count + 1) (applied ++ [file]) (done ++ [content])

/-- Go `runUpMigrations`. -/
def runUpMigrations (env : MigrationEnv) (dir : String) (migrateStep : Int) : MigrationRun :=
  let files := sortStrings (Glob env dir ".up.sql")
  if files.length = 0 then
    ⟨[], none⟩
  else
    upLoop env migrateStep files 0 [] []

/-- The loop of `runDownMigrations` over the remaining `files`. -/
def downLoop (env : MigrationEnv) (limit : Int) :
    List String → Int → List String → List String → MigrationRun
  | [], _, applied, _ => ⟨applied, none⟩
  | file :: rest, count, applied, done =>
    if count ≥ limit then
      ⟨applied, none⟩
    else
      match env.readFile file with
      | .error _ => ⟨applied, some file⟩
      | .ok content =>
        -- Execute rollback
        match env.exec done content with
        | some _ => ⟨applied, some file⟩
        | none => downLoop env limit rest (count + 1) (applied ++ [file]) (done ++ [content])

/-- Go `runDownMigrations`. -/
def runDownMigrations (env : MigrationEnv) (dir : String) (migrateStep : Int) : MigrationRun :=
  -- Sort in reverse order for rollback
  let files := sortStringsReverse (Glob env dir ".down.sql")
  if files.length = 0 then
    ⟨[], none⟩
  else
    -- Default: rollback only last migration
    let limit := if migrateStep = 0 then 1 else migrateStep
    downLoop env limit files 0 [] []

end cmd

/-! ## Environment files (`internal/util/osenv/load.go`) -/

namespace osenv

/-- Model of Go `unicode.IsSpace`. -/
def isSpace (c : Char) : Bool :=
  c == '\t' || c == '\n' || c == Char.ofNat 0x0B || c == Char.ofNat 0x0C || c == '\r' ||
  c == ' ' || c == Char.ofNat 0x85 || c == Char.ofNat 0xA0 || c == Char.ofNat 0x1680 ||
  (0x2000 ≤ c.toNat && c.toNat ≤ 0x200A) || c == Char.ofNat 0x2028 ||
  c == Char.ofNat 0x2029 || c == Char.ofNat 0x202F || c == Char.ofNat 0x205F ||
  c == Char.ofNat 0x3000

/-- White space removed from both ends of a list of characters. -/
def trimChars (cs : List Char) : List Char :=
  ((cs.dropWhile isSpace).reverse.dropWhile isSpace).reverse

/-- Model of Go `strings.TrimSpace`. -/
def TrimSpace (s : String) : String := String.mk (trimChars s.toList)

/-- Go `strings.HasPrefix`. -/
def HasPrefix (s p : String) : Bool := p.toList.isPrefixOf s.toList

/-- The length of a text in bytes (UTF-8), Go `len(s)`. -/
def byteLen (cs : List Char) : Nat := (cs.map fun c => c.utf8Size).sum

/-- The loop of Go `strings.genSplit` for a one-character separator: at most
`k` further cuts, each at the first separator of what is left. -/
def genSplit (sep : Char) : Nat → List Char → List (List Char)
  | 0, s => [s]
  | k + 1, s =>
    match s.findIdx? (fun c => c == sep) with
    | none => [s]
    | some m => s.take m :: genSplit sep k (s.drop (m + 1))

/-- Model of Go `strings.SplitN(s, sep, n)` for a one-character separator and
`n ≥ 0`. -/
def SplitN (s : String) (sep : Char) (n : Nat) : List String :=
  if n = 0 then []
  else
    let n1 := if n > byteLen s.toList + 1 then byteLen s.toList + 1 else n
    (genSplit sep (n1 - 1) s.toList).map String.mk

/-- The process environment: the variables that are set, with their values. -/
abbrev Environ := List (String × String)

/-- The value of a variable, if it is set. -/
def Environ.get (env : Environ) (key : String) : Option String :=
  (env.find? fun p => p.1 == key).map Prod.snd

/-- Overwrites or adds a variable. -/
def Environ.set (env : Environ) (key value : String) : Environ :=
  if env.any (fun p => p.1 == key) then
    env.map fun p => if p.1 == key then (key, value) else p
  else
    env ++ [(key, value)]

/-- Whether `os.Setenv` accepts the pair: the key is not empty and holds
neither `=` nor a NUL character, and the value holds no NUL character. -/
def setenvAccepts (key value : String) : Bool :=
  key != "" && key.toList.all (fun c => c != '=' && c != Char.ofNat 0) &&
    value.toList.all fun c => c != Char.ofNat 0

/-- Model of Go `os.Setenv`. -/
def Setenv (env : Environ) (key value : String) : Except GoError Environ :=
  if setenvAccepts key value then .ok (env.set key value)
  else .error (.errorf "setenv: invalid argument")

/-- The constant `bufio.MaxScanTokenSize`. -/
def MaxScanTokenSize : Nat := 64 * 1024

/-- The lines of a text as `bufio.ScanLines` cuts them: the text is cut at
every newline, and what follows the last newline is a line only when it is
not empty.  `acc` holds the current line, reversed. -/
def rawLines : List Char → List Char → List (List Char)
  | [], acc => if acc = [] then [] else [acc.reverse]
  | c :: cs, acc => if c = '\n' then acc.reverse :: rawLines cs [] else rawLines cs (c :: acc)

/-- Go `dropCR`: a line without its trailing carriage return. -/
def dropCR (line : List Char) : List Char :=
  if line.getLast? = some '\r' then line.dropLast else line

/-- The tokens the scanner yields for the raw lines, and the error it ends
with: a raw line that does not fit the buffer ends the scan with
`bufio.ErrTooLong`. -/
def scanTokens : List (List Char) → List String × Option GoError
  | [] => ([], none)
  | line :: rest =>
    if byteLen line ≥ MaxScanTokenSize then
      ([], some (.errorf "bufio.Scanner: token too long"))
    else
      let (tokens, err) := scanTokens rest
      (String.mk (dropCR line) :: tokens, err)

/-- Model of `bufio.NewScanner(file)` with `scanner.Scan()` / `scanner.Text()`
run to the end: the lines yielded, and `scanner.Err()`. -/
def scanLines (content : String) : List String × Option GoError :=
  scanTokens (rawLines content.toList [])

/-- The body of the loop of `Load` over the scanned lines. -/
def loadLines : List String → Environ → Option GoError × Environ
  | [], env => (none, env)
  | text :: rest, env =>
    let line := TrimSpace text
    if line = "" ∨ HasPrefix line "#" then
      loadLines rest env
    else
      let parts := SplitN line '=' 2
      match parts with
      | [k, v] =>
        let key := TrimSpace k
        let val := TrimSpace v
        match Setenv env key val with
        | .error err => (some (.wrapf ("error setting env variable " ++ key) err), env)
        | .ok env1 => loadLines rest env1
      | _ => loadLines rest env

/-- Go `Load`: loads environment variables from a source file.  `file` is the
outcome of `os.Open(source)` with the content of the file. -/
def Load (file : Except GoError String) (env : Environ) : Option GoError × Environ :=
  match file with
  | .error err => (some (.wrapf "error opening env file" err), env)
  | .ok content =>
    match loadLines (scanLines content).1 env with
    | (some err, env1) => (some err, env1)
    | (none, env1) =>
      match (scanLines content).2 with
      | some err => (some (.wrapf "error reading env file" err), env1)
      | none => (none, env1)

end osenv

/-! ## Reading of the claims: valid identifiers, row predicates, fixtures -/
/-- Whether a character is one of the decimal digits `0` to `9`. -/
def isDecimalDigit (c : Char) : Bool := decide ('0' ≤ c ∧ c ≤ '9')

/-- The number a string of decimal digits denotes, continuing from `n`. -/
def decimalValue (cs : List Char) (n : Nat) : Nat :=
  cs.foldl (fun acc c => acc * 10 + (c.toNat - '0'.toNat)) n

/-- An unsigned 64-bit decimal number: non-empty, digits only, value below `2^64`. -/
def isUint64Decimal (s : String) : Bool :=
  decide (s ≠ "") && s.toList.all isDecimalDigit && decide (decimalValue s.toList 0 < 2 ^ 64)

/-- The numeric key an identifier denotes. -/
def idValue (s : String) : Nat := decimalValue s.toList 0

namespace users

/-- Whether the numeric id of a row is the parsed value of one of the target
identifiers of an update. -/
def UpdateUser.targets (update : UpdateUser) (r : models.User) : Bool :=
  update.IDs.any fun s => decide (ParseUint s = .ok r.ID)

end users

/-- Whether a row satisfies every `WHERE` predicate among `mods`, each read by
`wh`; a predicate without a meaning is satisfied by no row. -/
def holdsAll {α : Type} (wh : QueryMod → Option (α → Bool)) (mods : List QueryMod) (r : α) :
    Bool :=
  mods.all fun m => !m.isWhere || (match wh m with
    | some q => q r
    | none => false)

namespace users

/-- The filter read as a predicate on rows, in the words of the data model:
the conjunction of the present predicates, where `IDs` (when non-empty) is
membership of the row's numeric id among the parsed identifiers and
`Username`, `Email`, `Gender` (when present) are exact equality on their
column.  An absent field contributes nothing.  No row stores an e-mail, so a
present `Email` is equal to the e-mail of no row. -/
def UserQueryFilter.matchesRow (filter : UserQueryFilter) (r : models.User) : Bool :=
  (filter.IDs.isEmpty || filter.IDs.any fun s => decide (ParseUint s = .ok r.ID)) &&
  (!filter.Username.Valid || r.Username == filter.Username.StringVal) &&
  !filter.Email.Valid &&
  (!filter.Gender.Valid || (r.Gender.Valid && r.Gender.StringVal == filter.Gender.StringVal))

/-- The domain user a `users` row is returned as, in the words of the data
model: the identifier as a decimal string, the columns as they are, the zero
value for an unset column, and no e-mail. -/
def User.ofRow (r : models.User) : User :=
  { ID := formatUint r.ID
    Username := r.Username
    Email := ""
    DisplayName := if r.DisplayName.Valid then r.DisplayName.StringVal else ""
    Gender := if r.Gender.Valid then r.Gender.StringVal else ""
    CreatedAt := if r.CreatedAt.Valid then r.CreatedAt.TimeVal else Time.zero }

end users

/-- A `users` row as the test factory creates it: display name and creation
time set, the gender as given. -/
def fixtureUser (id : Nat) (username gender : String) : models.User :=
  { ID := id
    Username := username
    DisplayName := .From ("User " ++ username)
    Gender := .From gender
    CreatedAt := .From ⟨id⟩ }

/-- A backend without faults and with an empty log that holds the users
alice/male, bob/male, charlie/female and one room. -/
def fixtureBackend : Backend :=
  Backend.mk0
    [fixtureUser 1 "alice" "male", fixtureUser 2 "bob" "male", fixtureUser 3 "charlie" "female"]
    [{ ID := 1, Name := "lobby", CreatedBy := 1, IsActive := .From true, CreatedAt := .From ⟨7⟩ }]

/-- Whether a modifier is an `ORDER BY` clause. -/
def QueryMod.isOrderBy : QueryMod → Bool
  | .OrderBy _ => true
  | _ => false

namespace users

/-- The `ORDER BY` modifiers of a filter, in the words of the spec: none when
`OrderBy` is absent, otherwise the named column followed by the direction,
which is `ASC` when `Sort` is absent. -/
def UserQueryFilter.orderMods (filter : UserQueryFilter) : List QueryMod :=
  if filter.OrderBy.Valid then
    [QueryMod.OrderBy (filter.OrderBy.StringVal ++ " " ++
      (if filter.SortDir.Valid then filter.SortDir.StringVal else "ASC"))]
  else []

/-- The `LIMIT` and `OFFSET` modifiers of a filter, one for each that is
present. -/
def UserQueryFilter.pageMods (filter : UserQueryFilter) : List QueryMod :=
  (if filter.Limit.Valid then [QueryMod.Limit filter.Limit.IntVal] else []) ++
  (if filter.Offset.Valid then [QueryMod.Offset filter.Offset.IntVal] else [])

/-- Pagination in the words of the spec: the first `Offset` rows are dropped
when `Offset` is present, then at most `Limit` rows are kept when `Limit` is
present. -/
def UserQueryFilter.page {α : Type} (filter : UserQueryFilter) (rows : List α) : List α :=
  let rest := if filter.Offset.Valid then rows.drop filter.Offset.IntVal.toNat else rows
  if filter.Limit.Valid then rest.take filter.Limit.IntVal.toNat else rest

end users

/-- A `room_members` row: member 1 of room 2 is user 3, joined at time 5 and
has not left. -/
def fixtureRoomMember : models.RoomMember :=
  { ID := 1, RoomID := 2, UserID := 3, JoinedAt := .From ⟨5⟩, LeftAt := .unset }

/-- A backend without faults whose `users` table holds five users, stored in
an order that is neither that of their ids nor that of their names. -/
def fixtureFive : Backend :=
  Backend.mk0
    [fixtureUser 4 "dave" "male", fixtureUser 2 "bob" "male", fixtureUser 5 "erin" "female",
      fixtureUser 1 "alice" "male", fixtureUser 3 "charlie" "female"]
    []

namespace cmd

/-- The plan "execute these files in this order and stop at the first one
that fails", started with the files applied and the contents executed so
far. -/
def runPlan (env : MigrationEnv) : List String → List String → List String → MigrationRun
  | [], applied, _ => ⟨applied, none⟩
  | file :: rest, applied, done =>
    match env.readFile file with
    | .error _ => ⟨applied, some file⟩
    | .ok content =>
      match env.exec done content with
      | some _ => ⟨applied, some file⟩
      | none => runPlan env rest (applied ++ [file]) (done ++ [content])

end cmd

namespace osenv

/-- The variable a line sets, in the words of the claim: nothing for a line
that is blank after trimming, starts with `#` after trimming or holds no `=`;
otherwise the trimmed text before the first `=` as key and the trimmed text
after it as value. -/
def lineBinding (text : String) : Option (String × String) :=
  let line := trimChars text.toList
  if line = [] ∨ line.head? = some '#' ∨ '=' ∉ line then none
  else
    some (String.mk (trimChars (line.takeWhile fun c => c != '=')),
      String.mk (trimChars ((line.dropWhile fun c => c != '=').drop 1)))

/-- The lines of a content that `Load` gets to read: the lines of the content
up to the first one of `MaxScanTokenSize` bytes or more (all of them when
there is none), each without its trailing carriage return. -/
def linesRead (content : String) : List String :=
  ((rawLines content.toList []).takeWhile fun l => decide (byteLen l < MaxScanTokenSize)).map
    fun l => String.mk (dropCR l)

/-- The environment after setting the given variables one after the other. -/
def applyBindings (env : Environ) (bs : List (String × String)) : Environ :=
  bs.foldl (fun e b => e.set b.1 b.2) env

end osenv

/-- The text a modifier carries: the clause of a `WHERE`, `IN` or `ORDER BY`
modifier; `LIMIT` and `OFFSET` carry a number and no text. -/
def QueryMod.clauseText : QueryMod → Option String
  | .WhereIn clause _ => some clause
  | .Where clause _ => some clause
  | .OrderBy clause => some clause
  | .Limit _ => none
  | .Offset _ => none

/-- The fixture backend when the backing store is unreachable: every
statement is answered with a connection failure. -/
def fixtureDown : Backend :=
  { fixtureBackend with fault := fun _ => some (.driver "connection refused") }

/-- The fixture backend with the one room member of `fixtureRoomMember`. -/
def fixtureMembers : Backend :=
  { fixtureBackend with roomMembers := [fixtureRoomMember] }

namespace users

/-- The texts of the clauses of a user query, in the words of the claim: one
fixed text for each present field, in the order of the fields; the sort clause
is the text made of the `OrderBy` and `Sort` values; `LIMIT` and `OFFSET`
carry no text. -/
def UserQueryFilter.clauseTexts (filter : UserQueryFilter) : List (Option String) :=
  (if filter.IDs = [] then [] else [some "id IN ?"])
  ++ (if filter.Username.Valid then [some "username = ?"] else [])
  ++ (if filter.Email.Valid then [some "email = ?"] else [])
  ++ (if filter.Gender.Valid then [some "gender = ?"] else [])
  ++ (if filter.OrderBy.Valid then
        [some (filter.OrderBy.StringVal ++ " " ++
          (if filter.SortDir.Valid then filter.SortDir.StringVal else "ASC"))] else [])
  ++ (if filter.Limit.Valid then [none] else [])
  ++ (if filter.Offset.Valid then [none] else [])

end users

namespace rooms

/-- The texts of the clauses of a room query, in the words of the claim: one
fixed text for each present field, in the order of the fields; the sort clause
is the text made of the `OrderBy` and `Sort` values; `LIMIT` and `OFFSET`
carry no text. -/
def RoomQueryFilter.clauseTexts (filter : RoomQueryFilter) : List (Option String) :=
  (if filter.IDs = [] then [] else [some "id IN ?"])
  ++ (if filter.Name.Valid then [some "name = ?"] else [])
  ++ (if filter.CreatedBy.Valid then [some "created_by = ?"] else [])
  ++ (if filter.IsActive.Valid then [some "is_active = ?"] else [])
  ++ (if filter.CreatedAt.Valid then [some "created_at = ?"] else [])
  ++ (if filter.OrderBy.Valid then
        [some (filter.OrderBy.StringVal ++ " " ++
          (if filter.SortDir.Valid then filter.SortDir.StringVal else "ASC"))] else [])
  ++ (if filter.Limit.Valid then [none] else [])
  ++ (if filter.Offset.Valid then [none] else [])

end rooms

/-- A migration directory with two migrations, a third whose `up` file the
database rejects, and a file that is no migration.  The content of a file is
its path. -/
def fixtureMigrations : cmd.MigrationEnv :=
  { entries := ["002_rooms.up.sql", "001_users.down.sql", "003_bad.up.sql", "README.md",
      "001_users.up.sql", "002_rooms.down.sql", "003_bad.down.sql"]
    readFile := fun path => .ok path
    exec := fun _ content =>
      if content = "db/003_bad.up.sql" then some (.driver "syntax error") else none }

/-! ## Auxiliary lemmas -/

theorem digit_le_nine (c : Char) (h : '0' ≤ c ∧ c ≤ '9') : c.toNat - '0'.toNat ≤ 9 := by
  obtain ⟨h1, h2⟩ := h
  have h2' : c.toNat ≤ '9'.toNat := h2
  have : '9'.toNat = 57 := by decide
  have : '0'.toNat = 48 := by decide
  omega

theorem decimalValue_ge (cs : List Char) (n : Nat) : n ≤ decimalValue cs n := by
  induction cs generalizing n with
  | nil => simp [decimalValue]
  | cons c cs ih =>
    have := ih (n * 10 + (c.toNat - '0'.toNat))
    simp only [decimalValue, List.foldl_cons] at this ⊢
    omega

theorem parseUintLoop_ok_iff (cs : List Char) (n m : Nat) (hn : n < 2 ^ 64) :
    parseUintLoop cs n = .ok m ↔
      (∀ c ∈ cs, isDecimalDigit c = true) ∧ decimalValue cs n < 2 ^ 64 ∧ m = decimalValue cs n := by
  induction cs generalizing n with
  | nil =>
    simp [parseUintLoop, decimalValue]
    constructor
    · rintro rfl; exact ⟨hn, rfl⟩
    · rintro ⟨_, rfl⟩; rfl
  | cons c cs ih =>
    unfold parseUintLoop
    by_cases hd : '0' ≤ c ∧ c ≤ '9'
    · have hd9 := digit_le_nine c hd
      have hdig : isDecimalDigit c = true := by simp [isDecimalDigit, hd]
      have hval : decimalValue (c :: cs) n = decimalValue cs (n * 10 + (c.toNat - '0'.toNat)) := rfl
      have hge := decimalValue_ge cs (n * 10 + (c.toNat - '0'.toNat))
      simp only [hd, and_self, if_true, List.mem_cons, forall_eq_or_imp, hdig, true_and, hval]
      generalize (c.toNat - '0'.toNat) = d at *
      simp only [maxUint64] at *
      norm_num at *
      by_cases hc : 1844674407370955162 ≤ n
      · simp only [hc, if_true]
        constructor
        · intro h; cases h
        · rintro ⟨_, h, _⟩; omega
      · simp only [hc, if_false]
        by_cases hov : n * 10 + d < 18446744073709551616
        · have hmod : (n * 10 + d) % 18446744073709551616 = n * 10 + d := Nat.mod_eq_of_lt hov
          have hcond : ¬ (n * 10 + d < n * 10 ∨ 18446744073709551615 < n * 10 + d) := by
            omega
          simp only [hmod, hcond, if_false]
          exact ih (n * 10 + d) hov
        · have hcond : ((n * 10 + d) % 18446744073709551616 < n * 10 ∨
              18446744073709551615 < (n * 10 + d) % 18446744073709551616) := by
            left; omega
          simp only [hcond, if_true]
          constructor
          · intro h; cases h
          · rintro ⟨_, h, _⟩; omega
    · have hdig : isDecimalDigit c = false := by simp [isDecimalDigit, hd]
      simp [hd, hdig]

theorem ParseUint_ok_iff (s : String) (m : Nat) :
    ParseUint s = .ok m ↔ isUint64Decimal s = true ∧ m = decimalValue s.toList 0 := by
  unfold ParseUint isUint64Decimal
  by_cases hs : s = ""
  · simp [hs]
  · have h := parseUintLoop_ok_iff s.toList 0 m (by norm_num)
    simp only [hs, if_false]
    cases hl : parseUintLoop s.toList 0 with
    | error k =>
      rw [hl] at h
      simp only [false_iff, reduceCtorEq] at h ⊢
      intro hh
      apply h
      simp only [Bool.and_eq_true, decide_eq_true_eq, List.all_eq_true] at hh
      exact ⟨hh.1.1.2, hh.1.2, hh.2⟩
    | ok n =>
      rw [hl] at h
      simp only [Except.ok.injEq] at h ⊢
      rw [h]
      simp only [Bool.and_eq_true, decide_eq_true_eq, List.all_eq_true, ne_eq, hs,
        not_false_eq_true, true_and]
      tauto

theorem ParseUint_error (s : String) (h : isUint64Decimal s = false) :
    ∃ k, ParseUint s = .error (.numError "ParseUint" s k) := by
  by_cases hs : s = ""
  · exact ⟨.ErrSyntax, by simp [ParseUint, hs]⟩
  · cases hl : parseUintLoop s.toList 0 with
    | error k => exact ⟨k, by simp only [ParseUint, hs, if_false, hl]⟩
    | ok n =>
      have : ParseUint s = .ok n := by simp only [ParseUint, hs, if_false, hl]
      rw [ParseUint_ok_iff] at this
      rw [this.1] at h
      cases h

theorem parseIDs_ok (what : String) (l : List String)
    (h : ∀ s ∈ l, isUint64Decimal s = true) :
    parseIDs what l = .ok (l.map fun s => Value.uint64 (idValue s)) := by
  induction l with
  | nil => rfl
  | cons s l ih =>
    have hs : ParseUint s = .ok (idValue s) := (ParseUint_ok_iff s _).2 ⟨h s (by simp), rfl⟩
    simp [parseIDs, hs, ih (fun t ht => h t (by simp [ht]))]

theorem parseIDs_error (what : String) (l : List String) (bad : String)
    (h : l.find? (fun s => !isUint64Decimal s) = some bad) :
    ∃ k, parseIDs what l = .error (.wrapf (what ++ bad) (.numError "ParseUint" bad k)) := by
  induction l with
  | nil => simp at h
  | cons s l ih =>
    by_cases hs : isUint64Decimal s = true
    · have hp : ParseUint s = .ok (idValue s) := (ParseUint_ok_iff s _).2 ⟨hs, rfl⟩
      simp only [List.find?_cons, hs, Bool.not_true] at h
      obtain ⟨k, hk⟩ := ih h
      exact ⟨k, by simp [parseIDs, hp, hk]⟩
    · simp only [Bool.not_eq_true] at hs
      simp only [List.find?_cons, hs, Bool.not_false, Option.some.injEq] at h
      subst h
      obtain ⟨k, hk⟩ := ParseUint_error s hs
      exact ⟨k, by simp [parseIDs, hk]⟩

namespace users

theorem Store.queryMods_eq (filter : UserQueryFilter) :
    Store.queryMods filter =
      match (if filter.IDs.length > 0 then
          (match parseIDs "invalid user ID " filter.IDs with
            | .error e => .error e
            | .ok ids => .ok [QueryMod.WhereIn "id IN ?" ids])
          else (.ok [] : Except GoError (List QueryMod))) with
      | .error e => .error e
      | .ok idMods => .ok (idMods
          ++ (if filter.Username.Valid then
                [QueryMod.Where "username = ?" (.string filter.Username.StringVal)] else [])
          ++ (if filter.Email.Valid then
                [QueryMod.Where "email = ?" (.string filter.Email.StringVal)] else [])
          ++ (if filter.Gender.Valid then
                [QueryMod.Where "gender = ?" (.string filter.Gender.StringVal)] else [])
          ++ (if filter.OrderBy.Valid then
                [QueryMod.OrderBy (filter.OrderBy.StringVal ++ " " ++
                  (if filter.SortDir.Valid then filter.SortDir.StringVal else "ASC"))] else [])
          ++ (if filter.Limit.Valid then [QueryMod.Limit filter.Limit.IntVal] else [])
          ++ (if filter.Offset.Valid then [QueryMod.Offset filter.Offset.IntVal] else [])) := by
  unfold Store.queryMods
  by_cases h0 : filter.IDs.length > 0 <;> simp only [h0, if_true, if_false]
  · cases parseIDs "invalid user ID " filter.IDs with
    | error e => rfl
    | ok ids =>
      cases filter.Username.Valid <;> cases filter.Email.Valid <;> cases filter.Gender.Valid <;>
      cases filter.OrderBy.Valid <;> cases filter.SortDir.Valid <;> cases filter.Limit.Valid <;>
      cases filter.Offset.Valid <;> rfl
  · cases filter.Username.Valid <;> cases filter.Email.Valid <;> cases filter.Gender.Valid <;>
      cases filter.OrderBy.Valid <;> cases filter.SortDir.Valid <;> cases filter.Limit.Valid <;>
      cases filter.Offset.Valid <;> rfl

end users

theorem find_bad_of_exists (l : List String) (h : ∃ s ∈ l, isUint64Decimal s = false) :
    ∃ bad, l.find? (fun s => !isUint64Decimal s) = some bad := by
  have : (l.find? (fun s => !isUint64Decimal s)).isSome = true := by
    rw [List.find?_isSome]
    obtain ⟨s, hs, hv⟩ := h
    exact ⟨s, hs, by simp [hv]⟩
  exact Option.isSome_iff_exists.mp this

theorem length_pos_of_find {α : Type} (l : List α) (p : α → Bool) (a : α)
    (h : l.find? p = some a) : l.length > 0 := by
  cases l with
  | nil => simp at h
  | cons x xs => simp

namespace users

theorem Store.queryMods_error (filter : UserQueryFilter) (bad : String)
    (h : filter.IDs.find? (fun s => !isUint64Decimal s) = some bad) :
    ∃ k, Store.queryMods filter =
      .error (.wrapf ("invalid user ID " ++ bad) (.numError "ParseUint" bad k)) := by
  obtain ⟨k, hk⟩ := parseIDs_error "invalid user ID " filter.IDs bad h
  refine ⟨k, ?_⟩
  rw [Store.queryMods_eq]
  simp only [length_pos_of_find _ _ _ h, if_true, hk]

theorem Store.queryMods_ok (filter : UserQueryFilter)
    (h : ∀ s ∈ filter.IDs, isUint64Decimal s = true) :
    ∃ mods, Store.queryMods filter = .ok mods := by
  rw [Store.queryMods_eq, parseIDs_ok _ _ h]
  by_cases h0 : filter.IDs.length > 0 <;> simp only [h0, if_true, if_false] <;> exact ⟨_, rfl⟩

theorem Store.updateCols_length (update : UpdateUser)
    (h : update.Username.Valid = true ∨ update.DisplayName.Valid = true ∨
      update.Gender.Valid = true) : (Store.updateCols update).length ≠ 0 := by
  unfold Store.updateCols
  cases hu : update.Username.Valid <;> cases hd : update.DisplayName.Valid <;>
    cases hg : update.Gender.Valid <;> simp_all [Cols.set, Id.run]

end users

theorem parseIDs_ok_inv (what : String) (l : List String) (ids : List Value)
    (h : parseIDs what l = .ok ids) :
    (∀ s ∈ l, isUint64Decimal s = true) ∧ ids = l.map fun s => Value.uint64 (idValue s) := by
  have hall : ∀ s ∈ l, isUint64Decimal s = true := by
    intro s hs
    by_contra hv
    simp only [Bool.not_eq_true] at hv
    obtain ⟨bad, hb⟩ := find_bad_of_exists l ⟨s, hs, hv⟩
    obtain ⟨k, hk⟩ := parseIDs_error what l bad hb
    rw [hk] at h
    cases h
  refine ⟨hall, ?_⟩
  rw [parseIDs_ok what l hall] at h
  cases h
  rfl

theorem contains_ids_iff (l : List String) (h : ∀ s ∈ l, isUint64Decimal s = true) (n : Nat) :
    (l.map fun s => Value.uint64 (idValue s)).contains (Value.uint64 n) =
      l.any (fun s => decide (ParseUint s = .ok n)) := by
  induction l with
  | nil => rfl
  | cons s l ih =>
    have hs := h s (by simp)
    have ih' := ih (fun t ht => h t (by simp [ht]))
    have hiff : (ParseUint s = .ok n) ↔ n = idValue s := by
      rw [ParseUint_ok_iff]; simp [hs, idValue]
    simp only [List.map_cons, List.contains_cons, List.any_cons, ih']
    congr 1
    by_cases hn : n = idValue s
    · have hp := hiff.2 hn
      simp [hp, hn]
    · have hp : ¬ ParseUint s = .ok n := fun hp => hn (hiff.1 hp)
      simp [hp, hn]

theorem compileWhere_idIn (ids : List Value) :
    compileWhere models.User.whereClause [QueryMod.WhereIn "id IN ?" ids] =
      .ok fun r => ids.contains (Value.uint64 r.ID) && true := by
  simp [compileWhere, QueryMod.isWhere, models.User.whereClause]

namespace users

theorem Store.updateCols_spec (update : UpdateUser) :
    (Store.updateCols update).get "username" =
        (if update.Username.Valid then some (Value.string update.Username.StringVal) else none) ∧
    (Store.updateCols update).get "display_name" =
        (if update.DisplayName.Valid then some (Value.string update.DisplayName.StringVal)
          else none) ∧
    (Store.updateCols update).get "gender" =
        (if update.Gender.Valid then some (Value.string update.Gender.StringVal) else none) ∧
    (∀ k, k ≠ "username" → k ≠ "display_name" → k ≠ "gender" →
        (Store.updateCols update).get k = none) ∧
    ((Store.updateCols update).map Prod.fst).Nodup := by
  unfold Store.updateCols
  cases hu : update.Username.Valid <;> cases hd : update.DisplayName.Valid <;>
    cases hg : update.Gender.Valid <;>
    refine ⟨?_, ?_, ?_, ?_, ?_⟩ <;>
    simp [Cols.set, Cols.get, Id.run, List.find?_cons] <;>
    (intro k h1 h2 h3
     simp [beq_eq_false_iff_ne.2 (Ne.symm h1), beq_eq_false_iff_ne.2 (Ne.symm h2),
       beq_eq_false_iff_ne.2 (Ne.symm h3)])

end users

theorem Backend.UsersUpdateAll_log (exec : Backend) (mods : List QueryMod) (cols : Cols) :
    (exec.UsersUpdateAll mods cols).2.log = exec.log ++ [Statement.UsersUpdateAll mods cols] := by
  unfold Backend.UsersUpdateAll
  cases exec.fault (Statement.UsersUpdateAll mods cols) with
  | some e => rfl
  | none =>
    cases updateRows models.User.whereClause models.User.setCol mods cols exec.users with
    | error e => rfl
    | ok r => rfl

theorem users_update_effect (exec exec1 : Backend) (update : users.UpdateUser)
    (hvalid : ∀ s ∈ update.IDs, isUint64Decimal s = true)
    (hfield : update.Username.Valid = true ∨ update.DisplayName.Valid = true ∨
      update.Gender.Valid = true)
    (hok : users.Store.Update exec update = (none, exec1)) :
    ∃ f, compileSet models.User.setCol (users.Store.updateCols update) = .ok f ∧
      exec1.users = exec.users.map (fun r => if update.targets r then f r else r) ∧
      exec1.rooms = exec.rooms ∧
      exec1.log = exec.log ++ [Statement.UsersUpdateAll
        [QueryMod.WhereIn "id IN ?" (update.IDs.map fun s => Value.uint64 (idValue s))]
        (users.Store.updateCols update)] := by
  unfold users.Store.Update at hok
  by_cases hlen : update.IDs.length = 0
  · simp [hlen] at hok
  · have hc := users.Store.updateCols_length update hfield
    simp only [hlen, hc, if_false, parseIDs_ok _ _ hvalid, Backend.UsersUpdateAll] at hok
    cases hf : exec.fault (Statement.UsersUpdateAll
        [QueryMod.WhereIn "id IN ?" (update.IDs.map fun s => Value.uint64 (idValue s))]
        (users.Store.updateCols update)) with
    | some e => simp [hf] at hok
    | none =>
      simp only [hf, updateRows, compileWhere_idIn] at hok
      cases hs : compileSet models.User.setCol (users.Store.updateCols update) with
      | error e => simp [hs] at hok
      | ok f =>
        simp only [hs, Prod.mk.injEq, true_and] at hok
        subst hok
        refine ⟨f, rfl, ?_, rfl, rfl⟩
        simp only
        apply List.map_congr_left
        intro r _
        simp only [Bool.and_true, contains_ids_iff _ hvalid, users.UpdateUser.targets]

theorem compileWhere_holds {α : Type} (wh : QueryMod → Option (α → Bool))
    (mods : List QueryMod) (p : α → Bool) (h : compileWhere wh mods = .ok p) (r : α) :
    p r = holdsAll wh mods r := by
  induction mods generalizing p with
  | nil =>
    simp only [compileWhere, Except.ok.injEq] at h
    subst h
    rfl
  | cons m ms ih =>
    unfold compileWhere at h
    by_cases hw : m.isWhere = true
    · simp only [hw, if_true] at h
      cases hm : wh m with
      | none => simp [hm] at h
      | some q =>
        cases hc : compileWhere wh ms with
        | error e => simp [hm, hc] at h
        | ok q2 =>
          simp only [hm, hc, Except.ok.injEq] at h
          subst h
          simp [holdsAll, hw, hm, ih q2 hc]
    · simp only [hw] at h
      simp only [Bool.not_eq_true] at hw
      simp [holdsAll, hw, ih p h]

theorem compileOrder_perm {α : Type} (ord : String → Option (α → α → Bool))
    (mods : List QueryMod) (rows out : List α) (h : compileOrder ord mods rows = .ok out) :
    out.Perm rows := by
  induction mods generalizing out with
  | nil =>
    simp only [compileOrder, Except.ok.injEq] at h
    subst h
    exact List.Perm.refl _
  | cons m ms ih =>
    cases m with
    | OrderBy clause =>
      simp only [compileOrder] at h
      cases ho : ord clause with
      | none => simp [ho] at h
      | some le =>
        cases hc : compileOrder ord ms rows with
        | error e => simp [ho, hc] at h
        | ok sorted =>
          simp only [ho, hc, Except.ok.injEq] at h
          subst h
          exact (List.perm_insertionSort _ _).trans (ih sorted hc)
    | WhereIn c a => exact ih out (by simpa [compileOrder] using h)
    | Where c a => exact ih out (by simpa [compileOrder] using h)
    | Limit n => exact ih out (by simpa [compileOrder] using h)
    | Offset n => exact ih out (by simpa [compileOrder] using h)

theorem models.User.whereClause_idIn (ids : List Value) :
    models.User.whereClause (QueryMod.WhereIn "id IN ?" ids) =
      some fun r => ids.contains (Value.uint64 r.ID) := rfl

theorem models.User.whereClause_username (v : String) :
    models.User.whereClause (QueryMod.Where "username = ?" (.string v)) =
      some fun r => r.Username == v := rfl

theorem models.User.whereClause_email (v : String) :
    models.User.whereClause (QueryMod.Where "email = ?" (.string v)) =
      some fun _ => false := rfl

theorem models.User.whereClause_gender (v : String) :
    models.User.whereClause (QueryMod.Where "gender = ?" (.string v)) =
      some fun r => r.Gender.Valid && r.Gender.StringVal == v := rfl

namespace users

theorem Store.queryMods_facts (filter : UserQueryFilter) (mods : List QueryMod)
    (hl : filter.Limit.Valid = false) (ho : filter.Offset.Valid = false)
    (h : Store.queryMods filter = .ok mods) :
    (∀ r, holdsAll models.User.whereClause mods r = filter.matchesRow r) ∧
    limitOf mods = none ∧ offsetOf mods = none ∧
    (filter.OrderBy.Valid = false →
      ∀ rows, compileOrder models.User.order mods rows = .ok rows) ∧
    (∀ m ∈ mods, m.isWhere = true → (models.User.whereClause m).isSome = true) := by
  rw [Store.queryMods_eq] at h
  by_cases h0 : filter.IDs.length > 0
  · simp only [h0, if_true] at h
    cases hp : parseIDs "invalid user ID " filter.IDs with
    | error e => simp [hp] at h
    | ok ids =>
      obtain ⟨hall, hids⟩ := parseIDs_ok_inv _ _ _ hp
      have hne : filter.IDs.isEmpty = false := by
        cases hI : filter.IDs with
        | nil => simp [hI] at h0
        | cons a l => rfl
      simp only [hp, hl, ho, Except.ok.injEq] at h
      subst h
      have hcont : ∀ r : models.User, ids.contains (Value.uint64 r.ID) =
          filter.IDs.any fun s => decide (ParseUint s = .ok r.ID) := by
        intro r; rw [hids]; exact contains_ids_iff _ hall _
      have hmem : ∀ r : models.User, decide (Value.uint64 r.ID ∈ ids) =
          filter.IDs.any fun s => decide (ParseUint s = .ok r.ID) := by
        intro r; rw [← hcont r]; simp
      cases hU : filter.Username.Valid <;> cases hE : filter.Email.Valid <;>
        cases hG : filter.Gender.Valid <;> cases hO : filter.OrderBy.Valid <;>
        simp [holdsAll, UserQueryFilter.matchesRow, QueryMod.isWhere, models.User.whereClause_idIn,
          models.User.whereClause_username, models.User.whereClause_email,
          models.User.whereClause_gender,
          limitOf, offsetOf, compileOrder, hU, hE, hG, hO, hne, hmem, Bool.and_assoc]
  · simp only [h0, if_false, hl, ho, Except.ok.injEq] at h
    have hne : filter.IDs.isEmpty = true := by
      cases hI : filter.IDs with
      | nil => rfl
      | cons a l => simp [hI] at h0
    subst h
    cases hU : filter.Username.Valid <;> cases hE : filter.Email.Valid <;>
      cases hG : filter.Gender.Valid <;> cases hO : filter.OrderBy.Valid <;>
      simp [holdsAll, UserQueryFilter.matchesRow, QueryMod.isWhere, models.User.whereClause_idIn,
          models.User.whereClause_username, models.User.whereClause_email,
          models.User.whereClause_gender,
        limitOf, offsetOf, compileOrder, hU, hE, hG, hO, hne, Bool.and_assoc]

end users

theorem compileWhere_ok {α : Type} (wh : QueryMod → Option (α → Bool)) (mods : List QueryMod)
    (h : ∀ m ∈ mods, m.isWhere = true → (wh m).isSome = true) :
    ∃ p, compileWhere wh mods = .ok p := by
  induction mods with
  | nil => exact ⟨_, rfl⟩
  | cons m ms ih =>
    obtain ⟨q, hq⟩ := ih (fun x hx => h x (List.mem_cons_of_mem _ hx))
    unfold compileWhere
    by_cases hw : m.isWhere = true
    · obtain ⟨p, hp⟩ := Option.isSome_iff_exists.mp (h m (List.mem_cons_self _ _) hw)
      exact ⟨fun r => p r && q r, by simp only [hw, if_true, hp, hq]⟩
    · exact ⟨q, by simp [hw, hq]⟩

theorem paginate_none {α : Type} (mods : List QueryMod) (rows : List α)
    (hl : limitOf mods = none) (ho : offsetOf mods = none) : paginate mods rows = .ok rows := by
  simp [paginate, hl, ho]

theorem users_select (exec exec1 : Backend) (filter : users.UserQueryFilter)
    (rs : List users.User)
    (hl : filter.Limit.Valid = false) (ho : filter.Offset.Valid = false)
    (h : users.Store.Users exec filter = (.ok rs, exec1)) :
    ∃ rows, rs = users.dbUsersToUsers rows ∧
      rows.Perm (exec.users.filter filter.matchesRow) ∧
      (filter.OrderBy.Valid = false → rows = exec.users.filter filter.matchesRow) := by
  unfold users.Store.Users at h
  cases hq : users.Store.queryMods filter with
  | error e => simp [hq] at h
  | ok mods =>
    obtain ⟨hwhere, hlim, hoff, hord, _⟩ := users.Store.queryMods_facts filter mods hl ho hq
    simp only [hq, Backend.UsersAll] at h
    cases hf : exec.fault (Statement.UsersAll mods) with
    | some e => simp [hf] at h
    | none =>
      simp only [hf, selectRows] at h
      cases hw : compileWhere models.User.whereClause mods with
      | error e => simp [hw] at h
      | ok p =>
        have hp : exec.users.filter p = exec.users.filter filter.matchesRow :=
          List.filter_congr (fun r _ => by rw [compileWhere_holds _ _ _ hw r, hwhere r])
        simp only [hw, hp] at h
        cases hc : compileOrder models.User.order mods
            (exec.users.filter filter.matchesRow) with
        | error e => simp [hc] at h
        | ok sorted =>
          simp only [hc, paginate_none _ _ hlim hoff, Prod.mk.injEq, Except.ok.injEq] at h
          refine ⟨sorted, h.1.symm, compileOrder_perm _ _ _ _ hc, ?_⟩
          intro hO
          rw [hord hO] at hc
          cases hc
          rfl

theorem users_select_ok (exec : Backend) (filter : users.UserQueryFilter)
    (hids : ∀ s ∈ filter.IDs, isUint64Decimal s = true)
    (hO : filter.OrderBy.Valid = false)
    (hl : filter.Limit.Valid = false) (ho : filter.Offset.Valid = false)
    (hfault : ∀ st, exec.fault st = none) :
    (users.Store.Users exec filter).1 =
      .ok (users.dbUsersToUsers (exec.users.filter filter.matchesRow)) := by
  obtain ⟨mods, hq⟩ := users.Store.queryMods_ok filter hids
  obtain ⟨hwhere, hlim, hoff, hord, hsome⟩ := users.Store.queryMods_facts filter mods hl ho hq
  obtain ⟨p, hw⟩ := compileWhere_ok models.User.whereClause mods hsome
  have hp : exec.users.filter p = exec.users.filter filter.matchesRow :=
    List.filter_congr (fun r _ => by rw [compileWhere_holds _ _ _ hw r, hwhere r])
  simp only [users.Store.Users, hq, Backend.UsersAll, hfault, selectRows, hw, hp, hord hO,
    paginate_none _ _ hlim hoff]

theorem models.User.setCol_username (v : String) :
    models.User.setCol ("username", .string v) = some fun r => { r with Username := v } := rfl

theorem models.User.setCol_display_name (v : String) :
    models.User.setCol ("display_name", .string v) =
      some fun r => { r with DisplayName := ⟨v, true⟩ } := rfl

theorem models.User.setCol_gender (v : String) :
    models.User.setCol ("gender", .string v) = some fun r => { r with Gender := ⟨v, true⟩ } := rfl

/-! ### Decimal printing and parsing -/

theorem digitChar_digit (k : Nat) (hk : k < 10) :
    isDecimalDigit (Nat.digitChar k) = true ∧ (Nat.digitChar k).toNat - '0'.toNat = k := by
  interval_cases k <;> exact ⟨by decide, by decide⟩

theorem decimalValue_append (xs ys : List Char) (acc : Nat) :
    decimalValue (xs ++ ys) acc = decimalValue ys (decimalValue xs acc) := by
  simp [decimalValue, List.foldl_append]

theorem toDigitsCore_spec (fuel n : Nat) (ds : List Char) (h : n < fuel) :
    ∃ xs, Nat.toDigitsCore 10 fuel n ds = xs ++ ds ∧ xs ≠ [] ∧
      (∀ c ∈ xs, isDecimalDigit c = true) ∧
      ∀ acc, decimalValue xs acc = acc * 10 ^ xs.length + n := by
  induction fuel generalizing n ds with
  | zero => omega
  | succ fuel ih =>
    have hd := digitChar_digit (n % 10) (Nat.mod_lt _ (by norm_num))
    unfold Nat.toDigitsCore
    by_cases h0 : n / 10 = 0
    · refine ⟨[Nat.digitChar (n % 10)], by simp [h0], by simp, by simpa using hd.1, ?_⟩
      intro acc
      have hn : n % 10 = n := Nat.mod_eq_of_lt (by omega)
      have hd2 := hd.2
      rw [hn] at hd2
      simp only [decimalValue, List.foldl_cons, List.foldl_nil, List.length_singleton, pow_one,
        hn, hd2]
    · have hlt : n / 10 < fuel := by omega
      obtain ⟨xs, hxs, hne, hdig, hval⟩ := ih (n / 10) (Nat.digitChar (n % 10) :: ds) hlt
      refine ⟨xs ++ [Nat.digitChar (n % 10)], by simp [h0, hxs], by simp, ?_, ?_⟩
      · intro c hc
        rcases List.mem_append.mp hc with hc | hc
        · exact hdig c hc
        · simp only [List.mem_singleton] at hc
          rw [hc]; exact hd.1
      · intro acc
        rw [decimalValue_append, hval acc]
        simp only [decimalValue, List.foldl_cons, List.foldl_nil, hd.2, List.length_append,
          List.length_singleton, pow_succ]
        have := Nat.div_add_mod n 10
        nlinarith [this]

theorem formatUint_spec (n : Nat) :
    (formatUint n).toList ≠ [] ∧ (∀ c ∈ (formatUint n).toList, isDecimalDigit c = true) ∧
      decimalValue (formatUint n).toList 0 = n := by
  obtain ⟨xs, hxs, hne, hdig, hval⟩ := toDigitsCore_spec (n + 1) n [] (by omega)
  have hl : (formatUint n).toList = xs := by
    simp [formatUint, Nat.repr, Nat.toDigits, hxs, List.asString]
  rw [hl]
  exact ⟨hne, hdig, by simpa using hval 0⟩

theorem ParseUint_formatUint (n : Nat) (h : n < 2 ^ 64) : ParseUint (formatUint n) = .ok n := by
  obtain ⟨hne, hdig, hval⟩ := formatUint_spec n
  rw [ParseUint_ok_iff]
  refine ⟨?_, hval.symm⟩
  have hs : formatUint n ≠ "" := by
    intro hs; rw [hs] at hne; exact hne rfl
  simp only [isUint64Decimal, Bool.and_eq_true, decide_eq_true_eq, List.all_eq_true]
  exact ⟨⟨hs, hdig⟩, by rw [hval]; exact h⟩

/-! ### Statement texts -/

theorem intercalate_go_toList (acc s : String) (l : List String) :
    (String.intercalate.go acc s l).toList =
      acc.toList ++ (l.map fun a => s.toList ++ a.toList).flatten := by
  induction l generalizing acc with
  | nil => simp [String.intercalate.go]
  | cons a l ih =>
    rw [String.intercalate.go, ih]
    simp [String.toList, String.data_append]

theorem join_toList (g sep : String) {α : Type} (l : List α) :
    (strings.Join (l.map fun _ => g) sep).toList =
      match l with
      | [] => []
      | _ :: rest => g.toList ++ (rest.map fun _ => sep.toList ++ g.toList).flatten := by
  cases l with
  | nil => rfl
  | cons a rest =>
    simp only [strings.Join, List.map_cons, String.intercalate, intercalate_go_toList,
      List.map_map]
    rfl

theorem join_count (c : Char) (g sep : String) {α : Type} (l : List α)
    (hsep : sep.toList.count c = 0) :
    (strings.Join (l.map fun _ => g) sep).toList.count c = l.length * g.toList.count c := by
  rw [join_toList]
  cases l with
  | nil => simp
  | cons a rest =>
    simp only [List.count_append, List.length_cons]
    have : ((rest.map fun _ => sep.toList ++ g.toList).flatten).count c =
        rest.length * g.toList.count c := by
      induction rest with
      | nil => simp
      | cons b rest ih =>
        simp only [List.map_cons, List.flatten_cons, List.count_append, ih, hsep,
          List.length_cons]
        ring
    rw [this]
    ring

theorem foldl_append_eq {α β : Type} (f : α → List β) (l : List α) (acc : List β) :
    l.foldl (fun args x => args ++ f x) acc = acc ++ (l.map f).flatten := by
  induction l generalizing acc with
  | nil => simp
  | cons a l ih => simp [ih]

theorem join_length_const {α β : Type} (f : α → List β) (l : List α) (k : Nat)
    (h : ∀ x, (f x).length = k) : ((l.map f).flatten).length = k * l.length := by
  induction l with
  | nil => simp
  | cons a l ih =>
    simp only [List.map_cons, List.flatten_cons, List.length_append, ih, h, List.length_cons]
    ring

theorem count_skipSpace (c : Char) (cs : List Char) (hc : c.isWhitespace = false) :
    (skipSpace cs).count c = cs.count c := by
  induction cs with
  | nil => rfl
  | cons x xs ih =>
    unfold skipSpace at ih ⊢
    by_cases hx : x.isWhitespace = true
    · have hne : x ≠ c := by
        intro h; rw [h, hc] at hx; cases hx
      simp only [List.dropWhile_cons, hx, if_true, ih]
      simp [List.count_cons, hne]
    · simp [List.dropWhile_cons, hx]

namespace repo

theorem UserRepo.users_query_toList (users : List models.User) :
    (UserRepo.bulkInsertStatement users).1.toList =
      "\n\t\tINSERT INTO users (id, username, display_name, gender, created_at)\n\t\tVALUES ".toList
        ++ ((strings.Join (users.map fun _ => "(?, ?, ?, ?, ?)") ", ").toList ++ "\n\t".toList) := by
  simp only [UserRepo.bulkInsertStatement, String.toList, String.data_append, List.append_assoc]

theorem RoomRepo.rooms_query_toList (rooms : List models.Room) :
    (RoomRepo.bulkInsertStatement rooms).1.toList =
      "INSERT INTO rooms (id, name, created_by, is_active, created_at) VALUES ".toList
        ++ (strings.Join (rooms.map fun _ => "(?, ?, ?, ?, ?)") ", ").toList := by
  simp only [RoomRepo.bulkInsertStatement, String.toList, String.data_append]

theorem RoomMemberRepo.members_query_toList (roomMembers : List models.RoomMember) :
    (RoomMemberRepo.bulkInsertStatement roomMembers).1.toList =
      "INSERT INTO room_member (id, room_id, user_id, joined_at, left_at) VALUES ".toList
        ++ (strings.Join (roomMembers.map fun _ => "(?, ?, ?, ?, ?, ?)") ",").toList := by
  simp only [RoomMemberRepo.bulkInsertStatement, String.toList, String.data_append]

theorem UserRepo.users_insertTable_eq (users : List models.User) :
    insertTable (UserRepo.bulkInsertStatement users).1 = some "users" := by
  unfold insertTable
  rw [UserRepo.users_query_toList]
  rfl

theorem RoomRepo.rooms_insertTable_eq (rooms : List models.Room) :
    insertTable (RoomRepo.bulkInsertStatement rooms).1 = some "rooms" := by
  unfold insertTable
  rw [RoomRepo.rooms_query_toList]
  rfl

theorem RoomMemberRepo.members_insertTable_eq (roomMembers : List models.RoomMember) :
    insertTable (RoomMemberRepo.bulkInsertStatement roomMembers).1 = some "room_member" := by
  unfold insertTable
  rw [RoomMemberRepo.members_query_toList]
  rfl

theorem UserRepo.users_insertColumns_eq (users : List models.User) :
    insertColumns (UserRepo.bulkInsertStatement users).1 =
      ["id", "username", "display_name", "gender", "created_at"] := by
  unfold insertColumns
  rw [UserRepo.users_query_toList]
  rfl

theorem RoomRepo.rooms_insertColumns_eq (rooms : List models.Room) :
    insertColumns (RoomRepo.bulkInsertStatement rooms).1 =
      ["id", "name", "created_by", "is_active", "created_at"] := by
  unfold insertColumns
  rw [RoomRepo.rooms_query_toList]
  rfl

theorem RoomMemberRepo.members_insertColumns_eq (roomMembers : List models.RoomMember) :
    insertColumns (RoomMemberRepo.bulkInsertStatement roomMembers).1 =
      ["id", "room_id", "user_id", "joined_at", "left_at"] := by
  unfold insertColumns
  rw [RoomMemberRepo.members_query_toList]
  rfl

end repo

theorem Backend.ExecContext_log (exec : Backend) (query : String) (args : List Value) :
    (exec.ExecContext query args).2.log = exec.log ++ [Statement.ExecContext query args] := by
  unfold Backend.ExecContext
  cases exec.fault (Statement.ExecContext query args) <;> rfl

namespace repo

theorem UserRepo.users_insertValues_eq (users : List models.User) :
    insertValues (UserRepo.bulkInsertStatement users).1 =
      some (String.mk (skipSpace
        ((strings.Join (users.map fun _ => "(?, ?, ?, ?, ?)") ", ").toList ++ "\n\t".toList))) := by
  unfold insertValues
  rw [UserRepo.users_query_toList]
  rfl

theorem RoomRepo.rooms_insertValues_eq (rooms : List models.Room) :
    insertValues (RoomRepo.bulkInsertStatement rooms).1 =
      some (String.mk (skipSpace
        (strings.Join (rooms.map fun _ => "(?, ?, ?, ?, ?)") ", ").toList)) := by
  unfold insertValues
  rw [RoomRepo.rooms_query_toList]
  rfl

theorem RoomMemberRepo.members_insertValues_eq (roomMembers : List models.RoomMember) :
    insertValues (RoomMemberRepo.bulkInsertStatement roomMembers).1 =
      some (String.mk (skipSpace
        (strings.Join (roomMembers.map fun _ => "(?, ?, ?, ?, ?, ?)") ",").toList)) := by
  unfold insertValues
  rw [RoomMemberRepo.members_query_toList]
  rfl

theorem UserRepo.users_statement_facts (users : List models.User) :
    (insertValues (UserRepo.bulkInsertStatement users).1).map (fun v => v.toList.count '(') =
      some users.length ∧
    placeholderCount (UserRepo.bulkInsertStatement users).1 = 5 * users.length ∧
    (UserRepo.bulkInsertStatement users).2.length = 5 * users.length ∧
    (UserRepo.bulkInsertStatement users).2 = (users.map fun user =>
      [Value.uint64 user.ID, .string user.Username, .nullString user.DisplayName,
        .nullString user.Gender, .nullTime user.CreatedAt]).flatten := by
  have hargs : (UserRepo.bulkInsertStatement users).2 = (users.map fun user =>
      [Value.uint64 user.ID, .string user.Username, .nullString user.DisplayName,
        .nullString user.Gender, .nullTime user.CreatedAt]).flatten := by
    simp only [UserRepo.bulkInsertStatement, foldl_append_eq, List.nil_append]
  refine ⟨?_, ?_, ?_, hargs⟩
  · rw [UserRepo.users_insertValues_eq]
    simp only [Option.map_some', String.toList, count_skipSpace _ _ (by decide : '('.isWhitespace = false),
      List.count_append]
    have := join_count '(' "(?, ?, ?, ?, ?)" ", " users (by decide)
    simp only [String.toList] at this
    rw [this]
    have h1 : List.count '(' "(?, ?, ?, ?, ?)".data = 1 := by decide
    have h2 : List.count '(' "\n\t".data = 0 := by decide
    rw [h1, h2]
    simp
  · unfold placeholderCount
    rw [UserRepo.users_query_toList]
    simp only [List.count_append, join_count '?' "(?, ?, ?, ?, ?)" ", " users (by decide)]
    have h0 : List.count '?' "\n\t\tINSERT INTO users (id, username, display_name, gender, created_at)\n\t\tVALUES ".toList = 0 := by decide
    have h1 : List.count '?' "(?, ?, ?, ?, ?)".toList = 5 := by decide
    have h2 : List.count '?' "\n\t".toList = 0 := by decide
    rw [h0, h1, h2]
    ring
  · rw [hargs]
    exact join_length_const _ _ 5 (fun _ => rfl)

theorem RoomRepo.rooms_statement_facts (rooms : List models.Room) :
    (insertValues (RoomRepo.bulkInsertStatement rooms).1).map (fun v => v.toList.count '(') =
      some rooms.length ∧
    placeholderCount (RoomRepo.bulkInsertStatement rooms).1 = 5 * rooms.length ∧
    (RoomRepo.bulkInsertStatement rooms).2.length = 5 * rooms.length ∧
    (RoomRepo.bulkInsertStatement rooms).2 = (rooms.map fun room =>
      [Value.uint64 room.ID, .string room.Name, .uint64 room.CreatedBy,
        .nullBool room.IsActive, .nullTime room.CreatedAt]).flatten := by
  have hargs : (RoomRepo.bulkInsertStatement rooms).2 = (rooms.map fun room =>
      [Value.uint64 room.ID, .string room.Name, .uint64 room.CreatedBy,
        .nullBool room.IsActive, .nullTime room.CreatedAt]).flatten := by
    simp only [RoomRepo.bulkInsertStatement, foldl_append_eq, List.nil_append]
  refine ⟨?_, ?_, ?_, hargs⟩
  · rw [RoomRepo.rooms_insertValues_eq]
    simp only [Option.map_some', String.toList, count_skipSpace _ _ (by decide : '('.isWhitespace = false)]
    have := join_count '(' "(?, ?, ?, ?, ?)" ", " rooms (by decide)
    simp only [String.toList] at this
    rw [this]
    have h1 : List.count '(' "(?, ?, ?, ?, ?)".data = 1 := by decide
    rw [h1]
    simp
  · unfold placeholderCount
    rw [RoomRepo.rooms_query_toList]
    simp only [List.count_append, join_count '?' "(?, ?, ?, ?, ?)" ", " rooms (by decide)]
    have h0 : List.count '?' "INSERT INTO rooms (id, name, created_by, is_active, created_at) VALUES ".toList = 0 := by decide
    have h1 : List.count '?' "(?, ?, ?, ?, ?)".toList = 5 := by decide
    rw [h0, h1]
    ring
  · rw [hargs]
    exact join_length_const _ _ 5 (fun _ => rfl)

theorem RoomMemberRepo.members_statement_facts (roomMembers : List models.RoomMember) :
    (insertValues (RoomMemberRepo.bulkInsertStatement roomMembers).1).map
        (fun v => v.toList.count '(') = some roomMembers.length ∧
    placeholderCount (RoomMemberRepo.bulkInsertStatement roomMembers).1 =
      6 * roomMembers.length ∧
    (RoomMemberRepo.bulkInsertStatement roomMembers).2.length = 5 * roomMembers.length ∧
    (RoomMemberRepo.bulkInsertStatement roomMembers).2 = (roomMembers.map fun roomMember =>
      [Value.uint64 roomMember.ID, .uint64 roomMember.RoomID, .uint64 roomMember.UserID,
        .nullTime roomMember.JoinedAt, .nullTime roomMember.LeftAt]).flatten := by
  have hargs : (RoomMemberRepo.bulkInsertStatement roomMembers).2 =
      (roomMembers.map fun roomMember =>
        [Value.uint64 roomMember.ID, .uint64 roomMember.RoomID, .uint64 roomMember.UserID,
          .nullTime roomMember.JoinedAt, .nullTime roomMember.LeftAt]).flatten := by
    simp only [RoomMemberRepo.bulkInsertStatement, foldl_append_eq, List.nil_append]
  refine ⟨?_, ?_, ?_, hargs⟩
  · rw [RoomMemberRepo.members_insertValues_eq]
    simp only [Option.map_some', String.toList, count_skipSpace _ _ (by decide : '('.isWhitespace = false)]
    have := join_count '(' "(?, ?, ?, ?, ?, ?)" "," roomMembers (by decide)
    simp only [String.toList] at this
    rw [this]
    have h1 : List.count '(' "(?, ?, ?, ?, ?, ?)".data = 1 := by decide
    rw [h1]
    simp
  · unfold placeholderCount
    rw [RoomMemberRepo.members_query_toList]
    simp only [List.count_append, join_count '?' "(?, ?, ?, ?, ?, ?)" "," roomMembers (by decide)]
    have h0 : List.count '?' "INSERT INTO room_member (id, room_id, user_id, joined_at, left_at) VALUES ".toList = 0 := by decide
    have h1 : List.count '?' "(?, ?, ?, ?, ?, ?)".toList = 6 := by decide
    rw [h0, h1]
    ring
  · rw [hargs]
    exact join_length_const _ _ 5 (fun _ => rfl)

end repo

/-! ### Ordering and pagination -/

theorem compileWhere_nowhere {α : Type} (wh : QueryMod → Option (α → Bool))
    (b : List QueryMod) (hb : ∀ m ∈ b, m.isWhere = false) :
    compileWhere wh b = .ok fun _ => true := by
  induction b with
  | nil => rfl
  | cons m ms ih =>
    have hm := hb m (List.mem_cons_self _ _)
    simp only [compileWhere, hm, Bool.false_eq_true, if_false]
    exact ih (fun x hx => hb x (List.mem_cons_of_mem _ hx))

theorem holdsAll_append_nowhere {α : Type} (wh : QueryMod → Option (α → Bool))
    (a b : List QueryMod) (hb : ∀ m ∈ b, m.isWhere = false) (r : α) :
    holdsAll wh (a ++ b) r = holdsAll wh a r := by
  have hb1 : holdsAll wh b r = true := by
    unfold holdsAll
    rw [List.all_eq_true]
    intro m hm
    simp [hb m hm]
  unfold holdsAll at hb1 ⊢
  rw [List.all_append, hb1, Bool.and_true]

theorem compileWhere_isSome_append {α : Type} (wh : QueryMod → Option (α → Bool))
    (a b : List QueryMod) (hb : ∀ m ∈ b, m.isWhere = false)
    (ha : ∀ m ∈ a, m.isWhere = true → (wh m).isSome = true) :
    ∀ m ∈ a ++ b, m.isWhere = true → (wh m).isSome = true := by
  intro m hm hw
  rcases List.mem_append.mp hm with h | h
  · exact ha m h hw
  · rw [hb m h] at hw; cases hw

theorem compileOrder_filter {α : Type} (ord : String → Option (α → α → Bool))
    (mods : List QueryMod) (rows : List α) :
    compileOrder ord mods rows = compileOrder ord (mods.filter QueryMod.isOrderBy) rows := by
  induction mods with
  | nil => rfl
  | cons m ms ih =>
    cases m with
    | OrderBy clause =>
      simp only [List.filter_cons, QueryMod.isOrderBy, if_true, compileOrder, ih]
    | WhereIn c a => simpa [compileOrder, QueryMod.isOrderBy] using ih
    | Where c a => simpa [compileOrder, QueryMod.isOrderBy] using ih
    | Limit n => simpa [compileOrder, QueryMod.isOrderBy] using ih
    | Offset n => simpa [compileOrder, QueryMod.isOrderBy] using ih

theorem limitOf_append (a b : List QueryMod) :
    limitOf (a ++ b) = (limitOf b).orElse fun _ => limitOf a := by
  induction a with
  | nil =>
    show limitOf b = _
    cases limitOf b <;> rfl
  | cons m ms ih =>
    cases m with
    | Limit n =>
      show (limitOf (ms ++ b)).orElse (fun _ => some n) =
        (limitOf b).orElse fun _ => (limitOf ms).orElse fun _ => some n
      rw [ih]
      cases limitOf b <;> rfl
    | WhereIn c x => exact ih
    | Where c x => exact ih
    | OrderBy c => exact ih
    | Offset n => exact ih

theorem offsetOf_append (a b : List QueryMod) :
    offsetOf (a ++ b) = (offsetOf b).orElse fun _ => offsetOf a := by
  induction a with
  | nil =>
    show offsetOf b = _
    cases offsetOf b <;> rfl
  | cons m ms ih =>
    cases m with
    | Offset n =>
      show (offsetOf (ms ++ b)).orElse (fun _ => some n) =
        (offsetOf b).orElse fun _ => (offsetOf ms).orElse fun _ => some n
      rw [ih]
      cases offsetOf b <;> rfl
    | WhereIn c x => exact ih
    | Where c x => exact ih
    | OrderBy c => exact ih
    | Limit n => exact ih

theorem paginate_append {α : Type} (a b : List QueryMod) (rows : List α)
    (hl : limitOf a = none) (ho : offsetOf a = none) :
    paginate (a ++ b) rows = paginate b rows := by
  have h1 : limitOf (a ++ b) = limitOf b := by
    rw [limitOf_append, hl]; cases limitOf b <;> rfl
  have h2 : offsetOf (a ++ b) = offsetOf b := by
    rw [offsetOf_append, ho]; cases offsetOf b <;> rfl
  simp only [paginate, h1, h2]

namespace users

theorem Store.queryMods_split (filter : UserQueryFilter) (mods : List QueryMod)
    (h : Store.queryMods filter = .ok mods) :
    ∃ mods0, Store.queryMods { filter with Limit := .unset, Offset := .unset } = .ok mods0 ∧
      mods = mods0 ++ filter.pageMods := by
  rw [Store.queryMods_eq] at h ⊢
  simp only at h ⊢
  by_cases hl : filter.IDs.length > 0
  · simp only [hl, if_true] at h ⊢
    cases hp : parseIDs "invalid user ID " filter.IDs with
    | error e => rw [hp] at h; cases h
    | ok ids =>
      simp only [hp, Except.ok.injEq] at h ⊢
      refine ⟨_, rfl, ?_⟩
      rw [← h]
      simp [UserQueryFilter.pageMods, NullInt.unset]
  · simp only [hl, if_false, Except.ok.injEq] at h ⊢
    refine ⟨_, rfl, ?_⟩
    rw [← h]
    simp [UserQueryFilter.pageMods, NullInt.unset]

theorem Store.queryMods_orderBy (filter : UserQueryFilter) (mods : List QueryMod)
    (h : Store.queryMods filter = .ok mods) :
    mods.filter QueryMod.isOrderBy = filter.orderMods := by
  rw [Store.queryMods_eq] at h
  by_cases hl : filter.IDs.length > 0
  · simp only [hl, if_true] at h
    cases hp : parseIDs "invalid user ID " filter.IDs with
    | error e => rw [hp] at h; cases h
    | ok ids =>
      simp only [hp, Except.ok.injEq] at h
      rw [← h]
      simp only [List.filter_append, apply_ite (List.filter QueryMod.isOrderBy),
        List.filter_cons, List.filter_nil, QueryMod.isOrderBy, ite_self, List.nil_append,
        List.append_nil, Bool.false_eq_true, if_false, if_true, UserQueryFilter.orderMods]
  · simp only [hl, if_false, Except.ok.injEq] at h
    rw [← h]
    simp only [List.filter_append, apply_ite (List.filter QueryMod.isOrderBy),
      List.filter_cons, List.filter_nil, QueryMod.isOrderBy, ite_self, List.nil_append,
      List.append_nil, Bool.false_eq_true, if_false, if_true, UserQueryFilter.orderMods]

end users

theorem users_pageMods_nowhere (filter : users.UserQueryFilter) :
    ∀ m ∈ filter.pageMods, m.isWhere = false := by
  intro m hm
  unfold users.UserQueryFilter.pageMods at hm
  cases hl : filter.Limit.Valid <;> cases ho : filter.Offset.Valid <;>
    simp only [hl, ho, Bool.false_eq_true, if_false, if_true, List.append_nil, List.nil_append,
      List.singleton_append, List.mem_cons, List.mem_singleton, List.not_mem_nil,
      or_false] at hm
  · subst hm; rfl
  · subst hm; rfl
  · rcases hm with hm | hm <;> subst hm <;> rfl

theorem paginate_pageMods_iff {α : Type} (filter : users.UserQueryFilter) (rows paged : List α) :
    paginate filter.pageMods rows = .ok paged ↔
      (filter.Limit.Valid = true → 0 ≤ filter.Limit.IntVal) ∧
      (filter.Offset.Valid = true → 0 ≤ filter.Offset.IntVal) ∧
      paged = filter.page rows := by
  unfold users.UserQueryFilter.pageMods users.UserQueryFilter.page
  cases hl : filter.Limit.Valid <;> cases ho : filter.Offset.Valid <;>
    simp only [paginate, limitOf, offsetOf, Option.orElse, List.nil_append, List.append_nil,
      List.singleton_append, Bool.false_eq_true, if_false, if_true, false_implies, true_implies,
      true_and, Except.ok.injEq]
  · exact eq_comm
  · by_cases h : filter.Offset.IntVal < 0
    · simp [h, not_le.mpr h]
    · simp [h, not_lt.mp h, eq_comm]
  · by_cases h : filter.Limit.IntVal < 0
    · simp [h, not_le.mpr h]
    · simp [h, not_lt.mp h, eq_comm]
  · by_cases h : filter.Offset.IntVal < 0
    · simp [h, not_le.mpr h]
    · by_cases h2 : filter.Limit.IntVal < 0
      · simp [h, h2, not_le.mpr h2]
      · simp [h, h2, not_lt.mp h, not_lt.mp h2, eq_comm]

theorem users_select_page (exec exec1 : Backend) (filter : users.UserQueryFilter)
    (rs : List users.User) (h : users.Store.Users exec filter = (.ok rs, exec1)) :
    ∃ ordered paged,
      compileOrder models.User.order filter.orderMods
        (exec.users.filter filter.matchesRow) = .ok ordered ∧
      paginate filter.pageMods ordered = .ok paged ∧
      rs = users.dbUsersToUsers paged := by
  unfold users.Store.Users at h
  cases hq : users.Store.queryMods filter with
  | error e => simp [hq] at h
  | ok mods =>
    obtain ⟨mods0, hq0, hsplit⟩ := users.Store.queryMods_split filter mods hq
    obtain ⟨hwhere, hlim, hoff, _, _⟩ :=
      users.Store.queryMods_facts { filter with Limit := .unset, Offset := .unset } mods0
        rfl rfl hq0
    simp only [hq, Backend.UsersAll] at h
    cases hf : exec.fault (Statement.UsersAll mods) with
    | some e => simp [hf] at h
    | none =>
      simp only [hf, selectRows] at h
      cases hw : compileWhere models.User.whereClause mods with
      | error e => simp [hw] at h
      | ok p =>
        have hp : exec.users.filter p = exec.users.filter filter.matchesRow :=
          List.filter_congr (fun r _ => by
            rw [compileWhere_holds _ _ _ hw r, hsplit,
              holdsAll_append_nowhere _ _ _ (users_pageMods_nowhere filter), hwhere r]
            rfl)
        simp only [hw, hp] at h
        rw [compileOrder_filter, users.Store.queryMods_orderBy filter mods hq] at h
        cases hc : compileOrder models.User.order filter.orderMods
            (exec.users.filter filter.matchesRow) with
        | error e => simp [hc] at h
        | ok ordered =>
          simp only [hc] at h
          rw [hsplit, paginate_append _ _ _ hlim hoff] at h
          cases hpg : paginate filter.pageMods ordered with
          | error e => simp [hpg] at h
          | ok paged =>
            simp only [hpg, Prod.mk.injEq, Except.ok.injEq] at h
            exact ⟨ordered, paged, rfl, hpg, h.1.symm⟩

theorem users_select_page_ok (exec : Backend) (filter : users.UserQueryFilter)
    (hids : ∀ s ∈ filter.IDs, isUint64Decimal s = true)
    (hfault : ∀ st, exec.fault st = none) (ordered paged : List models.User)
    (hc : compileOrder models.User.order filter.orderMods
      (exec.users.filter filter.matchesRow) = .ok ordered)
    (hpg : paginate filter.pageMods ordered = .ok paged) :
    (users.Store.Users exec filter).1 = .ok (users.dbUsersToUsers paged) := by
  obtain ⟨mods, hq⟩ := users.Store.queryMods_ok filter hids
  obtain ⟨mods0, hq0, hsplit⟩ := users.Store.queryMods_split filter mods hq
  obtain ⟨hwhere, hlim, hoff, _, hsome⟩ :=
    users.Store.queryMods_facts { filter with Limit := .unset, Offset := .unset } mods0
      rfl rfl hq0
  have hsome1 : ∀ m ∈ mods, m.isWhere = true → (models.User.whereClause m).isSome = true := by
    rw [hsplit]
    exact compileWhere_isSome_append _ _ _ (users_pageMods_nowhere filter) hsome
  obtain ⟨p, hw⟩ := compileWhere_ok models.User.whereClause mods hsome1
  have hp : exec.users.filter p = exec.users.filter filter.matchesRow :=
    List.filter_congr (fun r _ => by
      rw [compileWhere_holds _ _ _ hw r, hsplit,
        holdsAll_append_nowhere _ _ _ (users_pageMods_nowhere filter), hwhere r]
      rfl)
  have hord : compileOrder models.User.order mods (exec.users.filter filter.matchesRow) =
      .ok ordered := by
    rw [compileOrder_filter, users.Store.queryMods_orderBy filter mods hq, hc]
  have hpage : paginate mods ordered = .ok paged := by
    rw [hsplit, paginate_append _ _ _ hlim hoff, hpg]
  simp only [users.Store.Users, hq, Backend.UsersAll, hfault, selectRows, hw, hp, hord, hpage]

theorem strLE_iff (a b : String) : strLE a b = true ↔ a.toList ≤ b.toList := by
  simp only [strLE, decide_eq_true_eq, not_lt]

theorem username_order :
    models.User.order "username ASC" = some fun a b => strLE a.Username b.Username := by
  have h : parseOrderBy "username ASC" = some ("username", false) := by decide
  simp only [models.User.order, h]
  rfl

theorem created_at_order :
    models.User.order "created_at DESC" = some fun a b =>
      nullLE (fun x y : Time => decide (x.nanos ≤ y.nanos)) b.CreatedAt.Valid b.CreatedAt.TimeVal
        a.CreatedAt.Valid a.CreatedAt.TimeVal := by
  have h : parseOrderBy "created_at DESC" = some ("created_at", true) := by decide
  simp only [models.User.order, h]
  rfl

theorem sorted_by_username (rows : List models.User) :
    (rows.insertionSort fun a b => strLE a.Username b.Username = true).Sorted
      fun a b => a.Username.toList ≤ b.Username.toList := by
  haveI : IsTotal models.User (fun a b => strLE a.Username b.Username = true) :=
    ⟨fun a b => by simp only [strLE_iff]; exact le_total _ _⟩
  haveI : IsTrans models.User (fun a b => strLE a.Username b.Username = true) :=
    ⟨fun a b c => by simp only [strLE_iff]; exact le_trans⟩
  exact (List.sorted_insertionSort (fun a b : models.User => strLE a.Username b.Username = true)
    rows).imp (fun h => (strLE_iff _ _).1 h)

theorem newest_first_iff (a b : models.User) :
    nullLE (fun x y : Time => decide (x.nanos ≤ y.nanos)) b.CreatedAt.Valid b.CreatedAt.TimeVal
        a.CreatedAt.Valid a.CreatedAt.TimeVal = true ↔
      (b.CreatedAt.Valid = false ∨ (a.CreatedAt.Valid = true ∧
        b.CreatedAt.TimeVal.nanos ≤ a.CreatedAt.TimeVal.nanos)) := by
  unfold nullLE
  cases b.CreatedAt.Valid <;> cases a.CreatedAt.Valid <;> simp

theorem sorted_newest_first (rows : List models.User) :
    (rows.insertionSort fun a b =>
      nullLE (fun x y : Time => decide (x.nanos ≤ y.nanos)) b.CreatedAt.Valid
        b.CreatedAt.TimeVal a.CreatedAt.Valid a.CreatedAt.TimeVal = true).Sorted
      fun a b => b.CreatedAt.Valid = false ∨ (a.CreatedAt.Valid = true ∧
        b.CreatedAt.TimeVal.nanos ≤ a.CreatedAt.TimeVal.nanos) := by
  haveI : IsTotal models.User (fun a b =>
      nullLE (fun x y : Time => decide (x.nanos ≤ y.nanos)) b.CreatedAt.Valid
        b.CreatedAt.TimeVal a.CreatedAt.Valid a.CreatedAt.TimeVal = true) :=
    ⟨fun a b => by
      simp only [newest_first_iff]
      cases a.CreatedAt.Valid <;> cases b.CreatedAt.Valid <;> simp
      exact le_total _ _⟩
  haveI : IsTrans models.User (fun a b =>
      nullLE (fun x y : Time => decide (x.nanos ≤ y.nanos)) b.CreatedAt.Valid
        b.CreatedAt.TimeVal a.CreatedAt.Valid a.CreatedAt.TimeVal = true) :=
    ⟨fun a b c => by
      simp only [newest_first_iff]
      rintro (h1 | ⟨h1, h1'⟩) (h2 | ⟨h2, h2'⟩)
      · exact Or.inl h2
      · rw [h1] at h2; cases h2
      · exact Or.inl h2
      · exact Or.inr ⟨h1, le_trans h2' h1'⟩⟩
  exact (List.sorted_insertionSort _ rows).imp (fun h => (newest_first_iff _ _).1 h)

theorem users_sorted_select (exec exec1 : Backend) (filter : users.UserQueryFilter)
    (rs : List users.User) (clause : String) (le : models.User → models.User → Bool)
    (hl : filter.Limit.Valid = false) (ho : filter.Offset.Valid = false)
    (hmods : filter.orderMods = [QueryMod.OrderBy clause])
    (hle : models.User.order clause = some le)
    (h : users.Store.Users exec filter = (.ok rs, exec1)) :
    rs = users.dbUsersToUsers
      ((exec.users.filter filter.matchesRow).insertionSort fun a b => le a b = true) := by
  obtain ⟨ordered, paged, hc, hpg, hrs⟩ := users_select_page exec exec1 filter rs h
  rw [paginate_pageMods_iff] at hpg
  simp only [hmods, compileOrder, hle, Except.ok.injEq] at hc
  rw [hrs, hpg.2.2, ← hc]
  simp [users.UserQueryFilter.page, hl, ho]

theorem users_sorted_select_ok (exec : Backend) (filter : users.UserQueryFilter)
    (clause : String) (le : models.User → models.User → Bool)
    (hids : ∀ s ∈ filter.IDs, isUint64Decimal s = true)
    (hfault : ∀ st, exec.fault st = none)
    (hl : filter.Limit.Valid = false) (ho : filter.Offset.Valid = false)
    (hmods : filter.orderMods = [QueryMod.OrderBy clause])
    (hle : models.User.order clause = some le) :
    (users.Store.Users exec filter).1 = .ok (users.dbUsersToUsers
      ((exec.users.filter filter.matchesRow).insertionSort fun a b => le a b = true)) := by
  apply users_select_page_ok exec filter hids hfault
    ((exec.users.filter filter.matchesRow).insertionSort fun a b => le a b = true)
  · simp only [hmods, compileOrder, hle]
  · rw [paginate_pageMods_iff]
    simp [users.UserQueryFilter.page, hl, ho]

theorem Time.eq_zero_of_IsZero (t : Time) (h : t.IsZero = true) : t = Time.zero := by
  cases t with
  | mk n =>
    simp only [Time.IsZero, beq_iff_eq] at h
    simp [Time.zero, h]

theorem users_round_trip (u : users.User) (h : isUint64Decimal u.ID = true) :
    (users.userToDBUser u).map (fun db => users.dbUsersToUsers [db]) =
      .ok [{ u with ID := formatUint (idValue u.ID), Email := "" }] := by
  have hp : ParseUint u.ID = .ok (idValue u.ID) := (ParseUint_ok_iff _ _).2 ⟨h, rfl⟩
  simp only [users.userToDBUser, hp, Except.map, users.dbUsersToUsers, List.map_cons,
    List.map_nil]
  congr 2
  cases u with
  | mk ID Username Email DisplayName Gender CreatedAt =>
    simp only [users.User.mk.injEq, true_and]
    refine ⟨?_, ?_, ?_⟩
    · by_cases hd : DisplayName = "" <;> simp [hd]
    · by_cases hg : Gender = "" <;> simp [hg]
    · by_cases hz : CreatedAt.IsZero = true
      · simp [hz, Time.eq_zero_of_IsZero _ hz]
      · simp [hz]

set_option maxHeartbeats 4000000 in
theorem rooms_queryMods_closed (filter : rooms.RoomQueryFilter)
    (hids : ∀ s ∈ filter.IDs, isUint64Decimal s = true)
    (hcb : filter.CreatedBy.Valid = true → isUint64Decimal filter.CreatedBy.StringVal = true) :
    rooms.Store.queryMods filter = .ok (
      (if filter.IDs = [] then []
        else [QueryMod.WhereIn "id IN ?" (filter.IDs.map fun s => Value.uint64 (idValue s))])
      ++ (if filter.Name.Valid then
            [QueryMod.Where "name = ?" (.string filter.Name.StringVal)] else [])
      ++ (if filter.CreatedBy.Valid then
            [QueryMod.Where "created_by = ?" (.uint64 (idValue filter.CreatedBy.StringVal))]
          else [])
      ++ (if filter.IsActive.Valid then
            [QueryMod.Where "is_active = ?" (.bool filter.IsActive.BoolVal)] else [])
      ++ (if filter.CreatedAt.Valid then
            [QueryMod.Where "created_at = ?" (.time filter.CreatedAt.TimeVal)] else [])
      ++ (if filter.OrderBy.Valid then
            [QueryMod.OrderBy (filter.OrderBy.StringVal ++ " " ++
              (if filter.SortDir.Valid then filter.SortDir.StringVal else "ASC"))] else [])
      ++ (if filter.Limit.Valid then [QueryMod.Limit filter.Limit.IntVal] else [])
      ++ (if filter.Offset.Valid then [QueryMod.Offset filter.Offset.IntVal] else [])) := by
  unfold rooms.Store.queryMods
  rw [parseIDs_ok _ _ hids]
  cases hC : filter.CreatedBy.Valid with
  | false =>
    cases hI : filter.IDs <;>
      simp only [List.cons_ne_nil, if_false, if_true, List.length_nil, List.length_cons,
        gt_iff_lt, Nat.zero_lt_succ, Nat.lt_irrefl] <;>
      cases filter.Name.Valid <;> cases filter.IsActive.Valid <;>
      cases filter.CreatedAt.Valid <;> cases filter.OrderBy.Valid <;>
      cases filter.SortDir.Valid <;> cases filter.Limit.Valid <;>
      cases filter.Offset.Valid <;> rfl
  | true =>
    have hp : ParseUint filter.CreatedBy.StringVal = .ok (idValue filter.CreatedBy.StringVal) :=
      (ParseUint_ok_iff _ _).2 ⟨hcb hC, rfl⟩
    simp only [hp]
    cases hI : filter.IDs <;>
      simp only [List.cons_ne_nil, if_false, if_true, List.length_nil, List.length_cons,
        gt_iff_lt, Nat.zero_lt_succ, Nat.lt_irrefl] <;>
      cases filter.Name.Valid <;> cases filter.IsActive.Valid <;>
      cases filter.CreatedAt.Valid <;> cases filter.OrderBy.Valid <;>
      cases filter.SortDir.Valid <;> cases filter.Limit.Valid <;>
      cases filter.Offset.Valid <;> rfl

/-! ### Room and room-member queries, clause texts -/

theorem room_members_queryMods_eq (filter : room_members.RoomMemberQueryFilter) :
    room_members.Store.queryMods filter =
      match (if filter.IDs.length > 0 then
          (match parseIDs "invalid room member ID " filter.IDs with
            | .error e => .error e
            | .ok ids => .ok [QueryMod.WhereIn "id IN (?)" [room_members.idsSlice ids]])
          else (.ok [] : Except GoError (List QueryMod))) with
      | .error e => .error e
      | .ok idMods => .ok (idMods
          ++ (if filter.RoomID.Valid then
                [QueryMod.Where "room_id = ?" (.string filter.RoomID.StringVal)] else [])
          ++ (if filter.UserID.Valid then
                [QueryMod.Where "user_id = ?" (.string filter.UserID.StringVal)] else [])
          ++ (if filter.JoinedAt.Valid then
                [QueryMod.WhereIn "joined_at = ?" [.time filter.JoinedAt.TimeVal]] else [])
          ++ (if filter.LeftAt.Valid then
                [QueryMod.WhereIn "left_at = ?" [.time filter.LeftAt.TimeVal]] else [])) := by
  unfold room_members.Store.queryMods
  by_cases h0 : filter.IDs.length > 0 <;> simp only [h0, if_true, if_false]
  · cases parseIDs "invalid room member ID " filter.IDs with
    | error e => rfl
    | ok ids =>
      cases filter.RoomID.Valid <;> cases filter.UserID.Valid <;>
      cases filter.JoinedAt.Valid <;> cases filter.LeftAt.Valid <;> rfl
  · cases filter.RoomID.Valid <;> cases filter.UserID.Valid <;>
      cases filter.JoinedAt.Valid <;> cases filter.LeftAt.Valid <;> rfl

theorem idsSlice_map {α : Type} (f : α → Nat) (l : List α) :
    room_members.idsSlice (l.map fun a => Value.uint64 (f a)) = Value.slice (l.map f) := by
  unfold room_members.idsSlice
  congr 1
  induction l with
  | nil => rfl
  | cons n l ih => simp only [List.map_cons, List.filterMap_cons, ih]

theorem parseIDs_formatUint (what : String) (ns : List Nat) :
    parseIDs what (ns.map fun k => formatUint (k % 2 ^ 64)) =
      .ok (ns.map fun k => Value.uint64 (k % 2 ^ 64)) := by
  induction ns with
  | nil => rfl
  | cons n ns ih =>
    have hp := ParseUint_formatUint (n % 2 ^ 64) (Nat.mod_lt _ (by norm_num))
    simp only [List.map_cons, parseIDs, hp, ih]

set_option maxHeartbeats 4000000 in
theorem rooms_queryMods_eq (filter : rooms.RoomQueryFilter) :
    rooms.Store.queryMods filter =
      match (if filter.IDs.length > 0 then
          (match parseIDs "invalid room ID " filter.IDs with
            | .error e => .error e
            | .ok ids => .ok [QueryMod.WhereIn "id IN ?" ids])
          else (.ok [] : Except GoError (List QueryMod))) with
      | .error e => .error e
      | .ok idMods =>
        match (if filter.CreatedBy.Valid then
            (match ParseUint filter.CreatedBy.StringVal with
              | .error err =>
                .error (GoError.wrapf ("invalid created_by ID " ++ filter.CreatedBy.StringVal) err)
              | .ok createdByNum =>
                .ok [QueryMod.Where "created_by = ?" (.uint64 createdByNum)])
            else (.ok [] : Except GoError (List QueryMod))) with
        | .error e => .error e
        | .ok ownerMods => .ok (idMods
            ++ (if filter.Name.Valid then
                  [QueryMod.Where "name = ?" (.string filter.Name.StringVal)] else [])
            ++ ownerMods
            ++ (if filter.IsActive.Valid then
                  [QueryMod.Where "is_active = ?" (.bool filter.IsActive.BoolVal)] else [])
            ++ (if filter.CreatedAt.Valid then
                  [QueryMod.Where "created_at = ?" (.time filter.CreatedAt.TimeVal)] else [])
            ++ (if filter.OrderBy.Valid then
                  [QueryMod.OrderBy (filter.OrderBy.StringVal ++ " " ++
                    (if filter.SortDir.Valid then filter.SortDir.StringVal else "ASC"))] else [])
            ++ (if filter.Limit.Valid then [QueryMod.Limit filter.Limit.IntVal] else [])
            ++ (if filter.Offset.Valid then [QueryMod.Offset filter.Offset.IntVal] else [])) := by
  unfold rooms.Store.queryMods
  by_cases h0 : filter.IDs.length > 0 <;> simp only [h0, if_true, if_false]
  · cases parseIDs "invalid room ID " filter.IDs with
    | error e => rfl
    | ok ids =>
      cases filter.CreatedBy.Valid <;> simp only [if_true, if_false, Bool.false_eq_true]
      · cases filter.Name.Valid <;> cases filter.IsActive.Valid <;>
        cases filter.CreatedAt.Valid <;> cases filter.OrderBy.Valid <;>
        cases filter.SortDir.Valid <;> cases filter.Limit.Valid <;>
        cases filter.Offset.Valid <;> rfl
      · cases ParseUint filter.CreatedBy.StringVal with
        | error err => cases filter.Name.Valid <;> rfl
        | ok v =>
          cases filter.Name.Valid <;> cases filter.IsActive.Valid <;>
          cases filter.CreatedAt.Valid <;> cases filter.OrderBy.Valid <;>
          cases filter.SortDir.Valid <;> cases filter.Limit.Valid <;>
          cases filter.Offset.Valid <;> rfl
  · cases filter.CreatedBy.Valid <;> simp only [if_true, if_false, Bool.false_eq_true]
    · cases filter.Name.Valid <;> cases filter.IsActive.Valid <;>
      cases filter.CreatedAt.Valid <;> cases filter.OrderBy.Valid <;>
      cases filter.SortDir.Valid <;> cases filter.Limit.Valid <;>
      cases filter.Offset.Valid <;> rfl
    · cases ParseUint filter.CreatedBy.StringVal with
      | error err => cases filter.Name.Valid <;> rfl
      | ok v =>
        cases filter.Name.Valid <;> cases filter.IsActive.Valid <;>
        cases filter.CreatedAt.Valid <;> cases filter.OrderBy.Valid <;>
        cases filter.SortDir.Valid <;> cases filter.Limit.Valid <;>
        cases filter.Offset.Valid <;> rfl

theorem ParseUint_error_of_not_decimal (s : String) (h : isUint64Decimal s = false) :
    ∃ err, ParseUint s = .error err := by
  cases hp : ParseUint s with
  | error err => exact ⟨err, rfl⟩
  | ok m =>
    have := ((ParseUint_ok_iff s m).1 hp).1
    rw [h] at this
    cases this

theorem rooms_queryMods_bad_owner (filter : rooms.RoomQueryFilter)
    (hv : filter.CreatedBy.Valid = true)
    (hbad : isUint64Decimal filter.CreatedBy.StringVal = false) :
    (∃ e, rooms.Store.queryMods filter = .error e) ∧
    ((∀ s ∈ filter.IDs, isUint64Decimal s = true) →
      ∃ err, ParseUint filter.CreatedBy.StringVal = .error err ∧
        rooms.Store.queryMods filter =
          .error (.wrapf ("invalid created_by ID " ++ filter.CreatedBy.StringVal) err)) := by
  obtain ⟨err, hp⟩ := ParseUint_error_of_not_decimal _ hbad
  rw [rooms_queryMods_eq]
  simp only [hv, hp, if_true]
  constructor
  · by_cases h0 : filter.IDs.length > 0 <;> simp only [h0, if_true, if_false]
    · cases parseIDs "invalid room ID " filter.IDs with
      | error e => exact ⟨_, rfl⟩
      | ok ids => exact ⟨_, rfl⟩
    · exact ⟨_, rfl⟩
  · intro hids
    refine ⟨err, rfl, ?_⟩
    rw [parseIDs_ok _ _ hids]
    by_cases h0 : filter.IDs.length > 0 <;> simp only [h0, if_true, if_false]

theorem rooms_queryMods_ok_inv (filter : rooms.RoomQueryFilter) (mods : List QueryMod)
    (h : rooms.Store.queryMods filter = .ok mods) :
    (∀ s ∈ filter.IDs, isUint64Decimal s = true) ∧
    (filter.CreatedBy.Valid = true → isUint64Decimal filter.CreatedBy.StringVal = true) := by
  constructor
  · intro s hs
    by_contra hv
    simp only [Bool.not_eq_true] at hv
    obtain ⟨bad, hb⟩ := find_bad_of_exists filter.IDs ⟨s, hs, hv⟩
    obtain ⟨k, hk⟩ := parseIDs_error "invalid room ID " filter.IDs bad hb
    rw [rooms_queryMods_eq] at h
    simp only [length_pos_of_find _ _ _ hb, if_true, hk] at h
    cases h
  · intro hv
    by_contra hbad
    simp only [Bool.not_eq_true] at hbad
    obtain ⟨e, he⟩ := (rooms_queryMods_bad_owner filter hv hbad).1
    rw [he] at h
    cases h

theorem rooms_updateCols_bad_owner (update : rooms.UpdateRoom)
    (hv : update.CreatedBy.Valid = true) (err : GoError)
    (hp : ParseUint update.CreatedBy.StringVal = .error err) :
    rooms.Store.updateCols update =
      .error (.wrapf ("invalid created_by ID " ++ update.CreatedBy.StringVal) err) := by
  unfold rooms.Store.updateCols
  simp only [hv, hp, if_true]
  cases update.Name.Valid <;> cases update.IsActive.Valid <;> cases update.CreatedAt.Valid <;> rfl

theorem users_clauseTexts_eq (filter : users.UserQueryFilter) (mods : List QueryMod)
    (h : users.Store.queryMods filter = .ok mods) :
    mods.map QueryMod.clauseText = filter.clauseTexts := by
  rw [users.Store.queryMods_eq] at h
  unfold users.UserQueryFilter.clauseTexts
  cases hI : filter.IDs with
  | nil =>
    simp only [hI, List.length_nil, gt_iff_lt, Nat.lt_irrefl, if_false] at h
    cases h
    cases filter.Username.Valid <;> cases filter.Email.Valid <;> cases filter.Gender.Valid <;>
      cases filter.OrderBy.Valid <;> cases filter.Limit.Valid <;>
      cases filter.Offset.Valid <;> rfl
  | cons s l =>
    simp only [hI, List.length_cons, gt_iff_lt, Nat.zero_lt_succ, if_true] at h
    cases hp : parseIDs "invalid user ID " (s :: l) with
    | error e => simp only [hp] at h; cases h
    | ok ids =>
      simp only [hp] at h
      cases h
      cases filter.Username.Valid <;> cases filter.Email.Valid <;> cases filter.Gender.Valid <;>
        cases filter.OrderBy.Valid <;> cases filter.Limit.Valid <;>
        cases filter.Offset.Valid <;> rfl

theorem rooms_clauseTexts_eq (filter : rooms.RoomQueryFilter) (mods : List QueryMod)
    (h : rooms.Store.queryMods filter = .ok mods) :
    mods.map QueryMod.clauseText = filter.clauseTexts := by
  obtain ⟨hids, hcb⟩ := rooms_queryMods_ok_inv filter mods h
  have hclosed := rooms_queryMods_closed filter hids hcb
  rw [h] at hclosed
  rw [Except.ok.inj hclosed]
  unfold rooms.RoomQueryFilter.clauseTexts
  cases hI : filter.IDs <;>
    simp only [List.cons_ne_nil, if_false, if_true] <;>
    cases filter.Name.Valid <;> cases filter.CreatedBy.Valid <;>
    cases filter.IsActive.Valid <;> cases filter.CreatedAt.Valid <;>
    cases filter.OrderBy.Valid <;> cases filter.Limit.Valid <;>
    cases filter.Offset.Valid <;> rfl

theorem users_clause_fixed (filter : users.UserQueryFilter) (mods : List QueryMod)
    (h : users.Store.queryMods filter = .ok mods) (m : QueryMod) (hm : m ∈ mods)
    (ho : m.isOrderBy = false) (t : String) (ht : m.clauseText = some t) :
    t ∈ ["id IN ?", "username = ?", "email = ?", "gender = ?"] := by
  rw [users.Store.queryMods_eq] at h
  have key : ∀ idMods : List QueryMod,
      (∀ x ∈ idMods, ∃ ids, x = QueryMod.WhereIn "id IN ?" ids) →
      mods = idMods
          ++ (if filter.Username.Valid then
                [QueryMod.Where "username = ?" (.string filter.Username.StringVal)] else [])
          ++ (if filter.Email.Valid then
                [QueryMod.Where "email = ?" (.string filter.Email.StringVal)] else [])
          ++ (if filter.Gender.Valid then
                [QueryMod.Where "gender = ?" (.string filter.Gender.StringVal)] else [])
          ++ (if filter.OrderBy.Valid then
                [QueryMod.OrderBy (filter.OrderBy.StringVal ++ " " ++
                  (if filter.SortDir.Valid then filter.SortDir.StringVal else "ASC"))] else [])
          ++ (if filter.Limit.Valid then [QueryMod.Limit filter.Limit.IntVal] else [])
          ++ (if filter.Offset.Valid then [QueryMod.Offset filter.Offset.IntVal] else []) →
      t ∈ ["id IN ?", "username = ?", "email = ?", "gender = ?"] := by
    intro idMods hid hmods
    rw [hmods] at hm
    simp only [List.mem_append, List.mem_singleton, List.mem_ite_nil_right] at hm
    rcases hm with (((((h1 | h1) | h1) | h1) | h1) | h1) | h1
    · obtain ⟨ids, rfl⟩ := hid m h1
      cases ht
      simp
    · obtain ⟨_, rfl⟩ := h1
      cases ht
      simp
    · obtain ⟨_, rfl⟩ := h1
      cases ht
      simp
    · obtain ⟨_, rfl⟩ := h1
      cases ht
      simp
    · obtain ⟨_, rfl⟩ := h1
      cases ho
    · obtain ⟨_, rfl⟩ := h1
      cases ht
    · obtain ⟨_, rfl⟩ := h1
      cases ht
  by_cases h0 : filter.IDs.length > 0
  · simp only [h0, if_true] at h
    cases hp : parseIDs "invalid user ID " filter.IDs with
    | error e => simp only [hp] at h; cases h
    | ok ids =>
      simp only [hp] at h
      exact key [QueryMod.WhereIn "id IN ?" ids]
        (fun x hx => ⟨ids, List.mem_singleton.1 hx⟩) (Except.ok.inj h).symm
  · simp only [h0, if_false] at h
    exact key [] (fun x hx => absurd hx (List.not_mem_nil x)) (Except.ok.inj h).symm

theorem rooms_clause_fixed (filter : rooms.RoomQueryFilter) (mods : List QueryMod)
    (h : rooms.Store.queryMods filter = .ok mods) (m : QueryMod) (hm : m ∈ mods)
    (ho : m.isOrderBy = false) (t : String) (ht : m.clauseText = some t) :
    t ∈ ["id IN ?", "name = ?", "created_by = ?", "is_active = ?", "created_at = ?"] := by
  obtain ⟨hids, hcb⟩ := rooms_queryMods_ok_inv filter mods h
  have hclosed := rooms_queryMods_closed filter hids hcb
  rw [h] at hclosed
  rw [Except.ok.inj hclosed] at hm
  simp only [List.mem_append, List.mem_singleton, List.mem_ite_nil_right,
    List.mem_ite_nil_left] at hm
  rcases hm with ((((((h1 | h1) | h1) | h1) | h1) | h1) | h1) | h1 <;>
    obtain ⟨_, rfl⟩ := h1
  · cases ht; simp
  · cases ht; simp
  · cases ht; simp
  · cases ht; simp
  · cases ht; simp
  · cases ho
  · cases ht
  · cases ht

theorem users_clause_orderBy (filter : users.UserQueryFilter) (mods : List QueryMod)
    (h : users.Store.queryMods filter = .ok mods) (m : QueryMod) (hm : m ∈ mods)
    (ho : m.isOrderBy = true) :
    m = QueryMod.OrderBy (filter.OrderBy.StringVal ++ " " ++
      (if filter.SortDir.Valid then filter.SortDir.StringVal else "ASC")) := by
  rw [users.Store.queryMods_eq] at h
  have key : ∀ idMods : List QueryMod,
      (∀ x ∈ idMods, ∃ ids, x = QueryMod.WhereIn "id IN ?" ids) →
      mods = idMods
          ++ (if filter.Username.Valid then
                [QueryMod.Where "username = ?" (.string filter.Username.StringVal)] else [])
          ++ (if filter.Email.Valid then
                [QueryMod.Where "email = ?" (.string filter.Email.StringVal)] else [])
          ++ (if filter.Gender.Valid then
                [QueryMod.Where "gender = ?" (.string filter.Gender.StringVal)] else [])
          ++ (if filter.OrderBy.Valid then
                [QueryMod.OrderBy (filter.OrderBy.StringVal ++ " " ++
                  (if filter.SortDir.Valid then filter.SortDir.StringVal else "ASC"))] else [])
          ++ (if filter.Limit.Valid then [QueryMod.Limit filter.Limit.IntVal] else [])
          ++ (if filter.Offset.Valid then [QueryMod.Offset filter.Offset.IntVal] else []) →
      m = QueryMod.OrderBy (filter.OrderBy.StringVal ++ " " ++
        (if filter.SortDir.Valid then filter.SortDir.StringVal else "ASC")) := by
    intro idMods hid hmods
    rw [hmods] at hm
    simp only [List.mem_append, List.mem_singleton, List.mem_ite_nil_right] at hm
    rcases hm with (((((h1 | h1) | h1) | h1) | h1) | h1) | h1
    · obtain ⟨ids, rfl⟩ := hid m h1
      cases ho
    · obtain ⟨_, rfl⟩ := h1
      cases ho
    · obtain ⟨_, rfl⟩ := h1
      cases ho
    · obtain ⟨_, rfl⟩ := h1
      cases ho
    · exact h1.2
    · obtain ⟨_, rfl⟩ := h1
      cases ho
    · obtain ⟨_, rfl⟩ := h1
      cases ho
  by_cases h0 : filter.IDs.length > 0
  · simp only [h0, if_true] at h
    cases hp : parseIDs "invalid user ID " filter.IDs with
    | error e => simp only [hp] at h; cases h
    | ok ids =>
      simp only [hp] at h
      exact key [QueryMod.WhereIn "id IN ?" ids]
        (fun x hx => ⟨ids, List.mem_singleton.1 hx⟩) (Except.ok.inj h).symm
  · simp only [h0, if_false] at h
    exact key [] (fun x hx => absurd hx (List.not_mem_nil x)) (Except.ok.inj h).symm

theorem rooms_clause_orderBy (filter : rooms.RoomQueryFilter) (mods : List QueryMod)
    (h : rooms.Store.queryMods filter = .ok mods) (m : QueryMod) (hm : m ∈ mods)
    (ho : m.isOrderBy = true) :
    m = QueryMod.OrderBy (filter.OrderBy.StringVal ++ " " ++
      (if filter.SortDir.Valid then filter.SortDir.StringVal else "ASC")) := by
  obtain ⟨hids, hcb⟩ := rooms_queryMods_ok_inv filter mods h
  have hclosed := rooms_queryMods_closed filter hids hcb
  rw [h] at hclosed
  rw [Except.ok.inj hclosed] at hm
  simp only [List.mem_append, List.mem_singleton, List.mem_ite_nil_right,
    List.mem_ite_nil_left] at hm
  rcases hm with ((((((h1 | h1) | h1) | h1) | h1) | h1) | h1) | h1 <;>
    first
    | exact h1.2
    | (obtain ⟨_, rfl⟩ := h1; cases ho)

theorem users_clauseTexts_congr (f g : users.UserQueryFilter)
    (hI : f.IDs = [] ↔ g.IDs = [])
    (h1 : f.Username.Valid = g.Username.Valid) (h2 : f.Email.Valid = g.Email.Valid)
    (h3 : f.Gender.Valid = g.Gender.Valid) (h4 : f.OrderBy.Valid = g.OrderBy.Valid)
    (h5 : f.SortDir.Valid = g.SortDir.Valid)
    (h6 : f.Limit.Valid = g.Limit.Valid) (h7 : f.Offset.Valid = g.Offset.Valid)
    (h8 : f.OrderBy.Valid = true → f.OrderBy.StringVal = g.OrderBy.StringVal ∧
      (f.SortDir.Valid = true → f.SortDir.StringVal = g.SortDir.StringVal)) :
    f.clauseTexts = g.clauseTexts := by
  unfold users.UserQueryFilter.clauseTexts
  rw [← h1, ← h2, ← h3, ← h4, ← h5, ← h6, ← h7]
  have e1 : (if f.IDs = [] then ([] : List (Option String)) else [some "id IN ?"]) =
      (if g.IDs = [] then [] else [some "id IN ?"]) := by
    by_cases hf : f.IDs = []
    · rw [if_pos hf, if_pos (hI.1 hf)]
    · rw [if_neg hf, if_neg (fun hg => hf (hI.2 hg))]
  have e2 : (if f.OrderBy.Valid = true then
        [some (f.OrderBy.StringVal ++ " " ++
          (if f.SortDir.Valid = true then f.SortDir.StringVal else "ASC"))] else []) =
      (if f.OrderBy.Valid = true then
        [some (g.OrderBy.StringVal ++ " " ++
          (if f.SortDir.Valid = true then g.SortDir.StringVal else "ASC"))] else []) := by
    by_cases hO : f.OrderBy.Valid = true
    · obtain ⟨ha, hb⟩ := h8 hO
      by_cases hS : f.SortDir.Valid = true
      · simp only [hO, hS, if_true, ha, hb hS]
      · simp only [hO, hS, if_true, if_false, ha, Bool.false_eq_true]
    · simp only [hO, if_false, Bool.false_eq_true]
  rw [e1, e2]

theorem rooms_clauseTexts_congr (f g : rooms.RoomQueryFilter)
    (hI : f.IDs = [] ↔ g.IDs = [])
    (h1 : f.Name.Valid = g.Name.Valid) (h2 : f.CreatedBy.Valid = g.CreatedBy.Valid)
    (h3 : f.IsActive.Valid = g.IsActive.Valid) (h3b : f.CreatedAt.Valid = g.CreatedAt.Valid)
    (h4 : f.OrderBy.Valid = g.OrderBy.Valid)
    (h5 : f.SortDir.Valid = g.SortDir.Valid)
    (h6 : f.Limit.Valid = g.Limit.Valid) (h7 : f.Offset.Valid = g.Offset.Valid)
    (h8 : f.OrderBy.Valid = true → f.OrderBy.StringVal = g.OrderBy.StringVal ∧
      (f.SortDir.Valid = true → f.SortDir.StringVal = g.SortDir.StringVal)) :
    f.clauseTexts = g.clauseTexts := by
  unfold rooms.RoomQueryFilter.clauseTexts
  rw [← h1, ← h2, ← h3, ← h3b, ← h4, ← h5, ← h6, ← h7]
  have e1 : (if f.IDs = [] then ([] : List (Option String)) else [some "id IN ?"]) =
      (if g.IDs = [] then [] else [some "id IN ?"]) := by
    by_cases hf : f.IDs = []
    · rw [if_pos hf, if_pos (hI.1 hf)]
    · rw [if_neg hf, if_neg (fun hg => hf (hI.2 hg))]
  have e2 : (if f.OrderBy.Valid = true then
        [some (f.OrderBy.StringVal ++ " " ++
          (if f.SortDir.Valid = true then f.SortDir.StringVal else "ASC"))] else []) =
      (if f.OrderBy.Valid = true then
        [some (g.OrderBy.StringVal ++ " " ++
          (if f.SortDir.Valid = true then g.SortDir.StringVal else "ASC"))] else []) := by
    by_cases hO : f.OrderBy.Valid = true
    · obtain ⟨ha, hb⟩ := h8 hO
      by_cases hS : f.SortDir.Valid = true
      · simp only [hO, hS, if_true, ha, hb hS]
      · simp only [hO, hS, if_true, if_false, ha, Bool.false_eq_true]
    · simp only [hO, if_false, Bool.false_eq_true]
  rw [e1, e2]

/-! ### Migrations -/

theorem upLoop_eq_runPlan (env : cmd.MigrationEnv) (step : Int) (files : List String) :
    ∀ (count : Int) (applied done : List String),
      cmd.upLoop env step files count applied done =
        cmd.runPlan env (if step > 0 then files.take (step - count).toNat else files)
          applied done := by
  induction files with
  | nil => intro count applied done; simp [cmd.upLoop, cmd.runPlan]
  | cons file rest ih =>
    intro count applied done
    by_cases hs : step > 0
    · by_cases hc : count ≥ step
      · have h0 : (step - count).toNat = 0 := by omega
        simp only [cmd.upLoop, hs, hc, and_self, if_true, h0, List.take_zero, cmd.runPlan]
      · have h1 : (step - count).toNat = (step - (count + 1)).toNat + 1 := by omega
        simp only [cmd.upLoop, hs, hc, and_false, if_false, if_true, h1, List.take_succ_cons,
          cmd.runPlan, ih]
    · simp only [cmd.upLoop, hs, false_and, if_false, cmd.runPlan, ih]

theorem downLoop_eq_runPlan (env : cmd.MigrationEnv) (limit : Int) (files : List String) :
    ∀ (count : Int) (applied done : List String),
      cmd.downLoop env limit files count applied done =
        cmd.runPlan env (files.take (limit - count).toNat) applied done := by
  induction files with
  | nil => intro count applied done; simp [cmd.downLoop, cmd.runPlan]
  | cons file rest ih =>
    intro count applied done
    by_cases hc : count ≥ limit
    · have h0 : (limit - count).toNat = 0 := by omega
      simp only [cmd.downLoop, hc, if_true, h0, List.take_zero, cmd.runPlan]
    · have h1 : (limit - count).toNat = (limit - (count + 1)).toNat + 1 := by omega
      simp only [cmd.downLoop, hc, if_false, h1, List.take_succ_cons, cmd.runPlan, ih]

theorem runPlan_spec (env : cmd.MigrationEnv) (plan : List String) :
    ∀ (applied done : List String), ∃ p : List String,
      (cmd.runPlan env plan applied done).applied = applied ++ p ∧ p <+: plan ∧
      ((cmd.runPlan env plan applied done).fatal = none → p = plan) ∧
      (∀ f, (cmd.runPlan env plan applied done).fatal = some f →
        (p ++ [f]) <+: plan ∧
        ((∃ e, env.readFile f = .error e) ∨
          ∃ d c e, env.readFile f = .ok c ∧ env.exec d c = some e)) := by
  induction plan with
  | nil =>
    intro applied done
    exact ⟨[], by simp [cmd.runPlan], List.prefix_refl _, fun _ => rfl,
      fun f hf => by simp [cmd.runPlan] at hf⟩
  | cons file rest ih =>
    intro applied done
    cases hr : env.readFile file with
    | error e =>
      refine ⟨[], by simp [cmd.runPlan, hr], List.nil_prefix, ?_, ?_⟩
      · intro hf; simp [cmd.runPlan, hr] at hf
      · intro f hf
        simp only [cmd.runPlan, hr, Option.some.injEq] at hf
        subst hf
        exact ⟨by simp, Or.inl ⟨e, hr⟩⟩
    | ok content =>
      cases hx : env.exec done content with
      | some e =>
        refine ⟨[], by simp [cmd.runPlan, hr, hx], List.nil_prefix, ?_, ?_⟩
        · intro hf; simp [cmd.runPlan, hr, hx] at hf
        · intro f hf
          simp only [cmd.runPlan, hr, hx, Option.some.injEq] at hf
          subst hf
          exact ⟨by simp, Or.inr ⟨done, content, e, hr, hx⟩⟩
      | none =>
        obtain ⟨p, h1, h2, h3, h4⟩ := ih (applied ++ [file]) (done ++ [content])
        refine ⟨file :: p, ?_, ?_, ?_, ?_⟩
        · simp only [cmd.runPlan, hr, hx, h1, List.append_assoc, List.singleton_append]
        · exact (List.prefix_cons_inj file).2 h2
        · intro hf
          simp only [cmd.runPlan, hr, hx] at hf
          rw [h3 hf]
        · intro f hf
          simp only [cmd.runPlan, hr, hx] at hf
          obtain ⟨h5, h6⟩ := h4 f hf
          exact ⟨by simpa using (List.prefix_cons_inj file).2 h5, h6⟩

theorem runPlan_all (env : cmd.MigrationEnv) (plan : List String)
    (hread : ∀ f ∈ plan, ∃ c, env.readFile f = .ok c)
    (hexec : ∀ d c, env.exec d c = none) :
    ∀ (applied done : List String),
      cmd.runPlan env plan applied done = ⟨applied ++ plan, none⟩ := by
  induction plan with
  | nil => intro applied done; simp [cmd.runPlan]
  | cons file rest ih =>
    intro applied done
    obtain ⟨c, hc⟩ := hread file (by simp)
    simp only [cmd.runPlan, hc, hexec, ih (fun f hf => hread f (by simp [hf])),
      List.append_assoc, List.singleton_append]

theorem path_order (dir a b : String) :
    strLE (dir ++ "/" ++ a) (dir ++ "/" ++ b) = strLE a b := by
  have key : ∀ (p x y : List Char), (p ++ x < p ++ y) ↔ (x < y) := by
    intro p x y
    induction p with
    | nil => simp
    | cons c p ih =>
      show List.Lex (· < ·) (c :: (p ++ x)) (c :: (p ++ y)) ↔ _
      rw [List.Lex.cons_iff]
      exact ih
  have h : (¬ (dir ++ "/" ++ b).toList < (dir ++ "/" ++ a).toList) ↔ ¬ b.toList < a.toList := by
    simp only [String.toList, String.data_append, List.append_assoc]
    rw [key, key]
  exact decide_eq_decide.2 h

theorem glob_sorted (env : cmd.MigrationEnv) (dir suffix : String) :
    cmd.sortStrings (cmd.Glob env dir suffix) =
      (cmd.sortStrings (env.entries.filter fun name => cmd.HasSuffix name suffix)).map
        fun name => dir ++ "/" ++ name := by
  unfold cmd.sortStrings cmd.Glob
  exact (List.map_insertionSort (r := fun a b => strLE a b = true)
    (s := fun a b => strLE a b = true) (fun name => dir ++ "/" ++ name) _
    (fun a _ b _ => by
      show _ ↔ strLE (dir ++ "/" ++ a) (dir ++ "/" ++ b) = true
      rw [path_order])).symm

theorem glob_sorted_reverse (env : cmd.MigrationEnv) (dir suffix : String) :
    cmd.sortStringsReverse (cmd.Glob env dir suffix) =
      (cmd.sortStringsReverse (env.entries.filter fun name => cmd.HasSuffix name suffix)).map
        fun name => dir ++ "/" ++ name := by
  unfold cmd.sortStringsReverse cmd.Glob
  exact (List.map_insertionSort (r := fun a b => strLE b a = true)
    (s := fun a b => strLE b a = true) (fun name => dir ++ "/" ++ name) _
    (fun a _ b _ => by
      show _ ↔ strLE (dir ++ "/" ++ b) (dir ++ "/" ++ a) = true
      rw [path_order])).symm

theorem sortStrings_sorted (files : List String) :
    (cmd.sortStrings files).Sorted (fun a b => a.toList ≤ b.toList) ∧
    (cmd.sortStrings files).Perm files := by
  haveI : IsTotal String (fun a b => strLE a b = true) :=
    ⟨fun a b => by simp only [strLE_iff]; exact le_total _ _⟩
  haveI : IsTrans String (fun a b => strLE a b = true) :=
    ⟨fun a b c => by simp only [strLE_iff]; exact le_trans⟩
  exact ⟨(List.sorted_insertionSort (fun a b : String => strLE a b = true) files).imp
    (fun h => (strLE_iff _ _).1 h), List.perm_insertionSort _ files⟩

theorem sortStringsReverse_sorted (files : List String) :
    (cmd.sortStringsReverse files).Sorted (fun a b => b.toList ≤ a.toList) ∧
    (cmd.sortStringsReverse files).Perm files := by
  haveI : IsTotal String (fun a b => strLE b a = true) :=
    ⟨fun a b => by simp only [strLE_iff]; exact le_total _ _⟩
  haveI : IsTrans String (fun a b => strLE b a = true) :=
    ⟨fun a b c => by simp only [strLE_iff]; exact fun h1 h2 => le_trans h2 h1⟩
  exact ⟨(List.sorted_insertionSort (fun a b : String => strLE b a = true) files).imp
    (fun h => (strLE_iff _ _).1 h), List.perm_insertionSort _ files⟩

theorem runUpMigrations_eq (env : cmd.MigrationEnv) (dir : String) (step : Int) :
    cmd.runUpMigrations env dir step =
      cmd.runPlan env
        (if step > 0 then (cmd.sortStrings (cmd.Glob env dir ".up.sql")).take step.toNat
          else cmd.sortStrings (cmd.Glob env dir ".up.sql")) [] [] := by
  unfold cmd.runUpMigrations
  by_cases h : (cmd.sortStrings (cmd.Glob env dir ".up.sql")).length = 0
  · have h0 := List.length_eq_zero.mp h
    simp only [h0, List.length_nil, if_true, List.take_nil, ite_self, cmd.runPlan]
  · simp only [h, if_false, upLoop_eq_runPlan, sub_zero]

theorem runDownMigrations_eq (env : cmd.MigrationEnv) (dir : String) (step : Int) :
    cmd.runDownMigrations env dir step =
      cmd.runPlan env
        ((cmd.sortStringsReverse (cmd.Glob env dir ".down.sql")).take
          (if step = 0 then 1 else step.toNat)) [] [] := by
  unfold cmd.runDownMigrations
  by_cases h : (cmd.sortStringsReverse (cmd.Glob env dir ".down.sql")).length = 0
  · have h0 := List.length_eq_zero.mp h
    simp only [h0, List.length_nil, if_true, List.take_nil, cmd.runPlan]
  · simp only [h, if_false, downLoop_eq_runPlan, sub_zero]
    by_cases hs : step = 0
    · simp only [hs, if_true]
      rfl
    · simp only [hs, if_false]

/-! ### Environment files -/

theorem genSplit_one (sep : Char) (s : List Char) :
    osenv.genSplit sep 1 s =
      if sep ∈ s then [s.takeWhile fun c => c != sep, (s.dropWhile fun c => c != sep).drop 1]
      else [s] := by
  have key : ∀ s : List Char,
      (match s.findIdx? (fun c => c == sep) with
        | none => [s]
        | some m => [s.take m, s.drop (m + 1)]) =
      if sep ∈ s then [s.takeWhile fun c => c != sep, (s.dropWhile fun c => c != sep).drop 1]
      else [s] := by
    intro s
    induction s with
    | nil => simp
    | cons c cs ih =>
      by_cases hc : c = sep
      · subst hc
        simp [List.findIdx?_cons]
      · have hne : (c == sep) = false := by simpa using hc
        have hmem : (sep ∈ c :: cs) ↔ sep ∈ cs := by
          simp [List.mem_cons, Ne.symm hc]
        simp only [List.findIdx?_cons, hne, Bool.false_eq_true, if_false, zero_add,
          List.findIdx?_succ, hmem]
        cases hf : cs.findIdx? (fun c => c == sep) with
        | none =>
          simp only [hf] at ih
          by_cases hm : sep ∈ cs
          · simp only [hm, if_true] at ih
            simp at ih
          · simp [hm]
        | some m =>
          simp only [hf] at ih
          by_cases hm : sep ∈ cs
          · simp only [hm, if_true, List.cons.injEq, and_true] at ih
            simp [hm, hc, ih.1, ih.2]
          · simp only [hm, if_false] at ih
            simp at ih
  simp only [osenv.genSplit]
  exact key s

theorem byteLen_pos (c : Char) (cs : List Char) : 0 < osenv.byteLen (c :: cs) := by
  have h := Char.utf8Size_pos c
  simp only [osenv.byteLen, List.map_cons, List.sum_cons]
  omega

theorem SplitN_two (l : List Char) (h : l ≠ []) :
    osenv.SplitN (String.mk l) '=' 2 =
      if '=' ∈ l then
        [String.mk (l.takeWhile fun c => c != '='),
          String.mk ((l.dropWhile fun c => c != '=').drop 1)]
      else [String.mk l] := by
  have hpos : 0 < osenv.byteLen l := by
    cases l with
    | nil => exact absurd rfl h
    | cons c cs => exact byteLen_pos c cs
  have hn : ¬ (2 > osenv.byteLen l + 1) := by omega
  simp only [osenv.SplitN, OfNat.ofNat_ne_zero, if_false, hn, Nat.add_one_sub_one, genSplit_one,
    String.toList]
  by_cases hm : '=' ∈ l
  · simp only [hm, if_true, List.map_cons, List.map_nil]
  · simp only [hm, if_false, List.map_cons, List.map_nil]

theorem hasPrefix_hash (l : List Char) :
    osenv.HasPrefix (String.mk l) "#" = decide (l.head? = some '#') := by
  cases l with
  | nil => rfl
  | cons c cs =>
    show List.isPrefixOf ['#'] (c :: cs) = _
    by_cases hc : c = '#'
    · subst hc
      simp [List.isPrefixOf]
    · simp [List.isPrefixOf, hc, Ne.symm hc]

theorem loadLines_cons (text : String) (rest : List String) (env : osenv.Environ) :
    osenv.loadLines (text :: rest) env =
      match osenv.lineBinding text with
      | none => osenv.loadLines rest env
      | some (k, v) =>
        match osenv.Setenv env k v with
        | .error err => (some (.wrapf ("error setting env variable " ++ k) err), env)
        | .ok env1 => osenv.loadLines rest env1 := by
  have hmk : ∀ l : List Char, (String.mk l = "") ↔ l = [] := by
    intro l
    constructor
    · intro h; exact congrArg String.data h
    · intro h; rw [h]
  rw [osenv.loadLines]
  simp only [osenv.lineBinding, osenv.TrimSpace, hasPrefix_hash, hmk, decide_eq_true_eq]
  generalize osenv.trimChars text.toList = l
  by_cases h1 : l = []
  · simp only [h1, true_or, if_true]
  · by_cases h2 : l.head? = some '#'
    · simp only [h2, or_true, true_or, if_true]
    · rw [SplitN_two l h1]
      by_cases h3 : '=' ∈ l
      · simp only [h1, h2, h3, false_or, not_true_eq_false, or_false, if_false, if_true,
          String.toList]
      · simp only [h1, h2, h3, false_or, not_false_eq_true, or_true, if_true, if_false,
          String.toList]

theorem Setenv_eq (env : osenv.Environ) (k v : String) :
    osenv.Setenv env k v =
      if osenv.setenvAccepts k v then .ok (env.set k v)
      else .error (.errorf "setenv: invalid argument") := rfl

theorem loadLines_spec (lines : List String) :
    ∀ env : osenv.Environ,
      (osenv.loadLines lines env).2 =
        osenv.applyBindings env ((lines.filterMap osenv.lineBinding).takeWhile
          fun b => osenv.setenvAccepts b.1 b.2) ∧
      (osenv.loadLines lines env).1 =
        ((lines.filterMap osenv.lineBinding).find? fun b => !osenv.setenvAccepts b.1 b.2).map
          fun b => GoError.wrapf ("error setting env variable " ++ b.1)
            (.errorf "setenv: invalid argument") := by
  induction lines with
  | nil => intro env; exact ⟨rfl, rfl⟩
  | cons text rest ih =>
    intro env
    rw [loadLines_cons]
    cases hb : osenv.lineBinding text with
    | none =>
      simp only [List.filterMap_cons, hb]
      exact ih env
    | some b =>
      obtain ⟨k, v⟩ := b
      simp only [List.filterMap_cons, hb, Setenv_eq]
      by_cases ha : osenv.setenvAccepts k v = true
      · simp only [ha, if_true, List.takeWhile_cons, List.find?_cons, Bool.not_true]
        exact ih (env.set k v)
      · simp only [Bool.not_eq_true] at ha
        simp only [ha, Bool.false_eq_true, if_false, List.takeWhile_cons, List.find?_cons,
          Bool.not_false, Option.map_some']
        trivial

theorem environ_get_set (env : osenv.Environ) (k v k1 : String) :
    (env.set k v).get k1 = if k1 = k then some v else env.get k1 := by
  have hmap : ∀ e : osenv.Environ,
      ((e.map fun p => if p.1 = k then (k, v) else p).find? fun p => p.1 == k1) =
        if k1 = k then (if e.any (fun p => p.1 == k) then some (k, v) else none)
        else e.find? fun p => p.1 == k1 := by
    intro e
    induction e with
    | nil => simp
    | cons p e ih =>
      by_cases hp : p.1 = k
      · by_cases hk : k1 = k
        · simp [-List.find?_map, hp, hk]
        · have hk2 : ¬ k = k1 := fun h => hk h.symm
          simp [-List.find?_map, hp, hk, hk2, ih]
      · by_cases hk : k1 = k
        · subst hk
          have hpb : (p.1 == k1) = false := by simpa using hp
          simp [-List.find?_map, hp, ih]
          simp only [hpb, Bool.false_or]
        · by_cases hp1 : p.1 = k1
          · simp [-List.find?_map, hp, hk, hp1]
          · simp [-List.find?_map, hp, hk, hp1, ih]
  unfold osenv.Environ.set osenv.Environ.get
  by_cases ha : env.any (fun p => p.1 == k) = true
  · simp only [ha, if_true, beq_iff_eq, hmap]
    by_cases hk : k1 = k
    · simp [hk]
    · simp [hk]
  · simp only [ha, Bool.false_eq_true, if_false, List.find?_append]
    by_cases hk : k1 = k
    · subst hk
      have hn : env.find? (fun p => p.1 == k1) = none := by
        rw [List.find?_eq_none]
        intro p hp hpk
        exact ha (List.any_eq_true.2 ⟨p, hp, hpk⟩)
      simp [hn]
    · have hk2 : ¬ k = k1 := fun h => hk h.symm
      simp [hk, hk2]

theorem applyBindings_get (bs : List (String × String)) (env : osenv.Environ) (k : String) :
    (osenv.applyBindings env bs).get k =
      match bs.reverse.find? (fun b => b.1 == k) with
      | some b => some b.2
      | none => env.get k := by
  induction bs using List.reverseRecOn with
  | nil => rfl
  | append_singleton bs b ih =>
    have happ : osenv.applyBindings env (bs ++ [b]) =
        (osenv.applyBindings env bs).set b.1 b.2 := by
      simp [osenv.applyBindings, List.foldl_append]
    rw [happ, environ_get_set, List.reverse_append, List.reverse_singleton, List.singleton_append,
      List.find?_cons]
    by_cases hk : k = b.1
    · simp [hk]
    · have hk2 : (b.1 == k) = false := by simpa using fun h : b.1 = k => hk h.symm
      simp only [hk, if_false, hk2, ih]

theorem replicate_append_cons (n : Nat) (c : Char) (acc : List Char) :
    List.replicate n c ++ c :: acc = c :: (List.replicate n c ++ acc) := by
  induction n with
  | zero => rfl
  | succ m ih => rw [List.replicate_succ, List.cons_append, ih, List.cons_append]

theorem rawLines_replicate (n : Nat) (c : Char) (hc : c ≠ '\n') (rest acc : List Char) :
    osenv.rawLines (List.replicate n c ++ rest) acc =
      osenv.rawLines rest (List.replicate n c ++ acc) := by
  induction n generalizing acc with
  | zero => rfl
  | succ n ih =>
    rw [List.replicate_succ, List.cons_append, osenv.rawLines, if_neg hc, ih,
      replicate_append_cons, List.cons_append]

theorem byteLen_replicate (n : Nat) (c : Char) :
    osenv.byteLen (List.replicate n c) = n * c.utf8Size := by
  simp [osenv.byteLen, List.map_replicate, List.sum_replicate]

theorem Load_scan_error (content : String) (err : GoError) (env : osenv.Environ)
    (h : osenv.scanLines content = ([], some err)) :
    osenv.Load (.ok content) env = (some (.wrapf "error reading env file" err), env) := by
  simp only [osenv.Load, h, osenv.loadLines]

theorem Load_long_line (n : Nat) (hn : n ≥ osenv.MaxScanTokenSize) (rest : List Char)
    (env : osenv.Environ) :
    osenv.Load (.ok (String.mk (List.replicate n 'a' ++ '\n' :: rest))) env =
      (some (.wrapf "error reading env file" (.errorf "bufio.Scanner: token too long")), env) := by
  have hb : osenv.byteLen (List.replicate n 'a') ≥ osenv.MaxScanTokenSize := by
    rw [byteLen_replicate]
    have : 'a'.utf8Size = 1 := by decide
    rw [this, Nat.mul_one]
    exact hn
  apply Load_scan_error
  unfold osenv.scanLines
  show osenv.scanTokens (osenv.rawLines (List.replicate n 'a' ++ '\n' :: rest) []) = _
  rw [rawLines_replicate n 'a' (by decide), osenv.rawLines, if_pos rfl, List.append_nil,
    List.reverse_replicate, osenv.scanTokens, if_pos hb]

theorem scanTokens_spec (ls : List (List Char)) :
    osenv.scanTokens ls =
      ((ls.takeWhile fun l => decide (osenv.byteLen l < osenv.MaxScanTokenSize)).map
          (fun l => String.mk (osenv.dropCR l)),
        if ls.all (fun l => decide (osenv.byteLen l < osenv.MaxScanTokenSize)) then none
        else some (.errorf "bufio.Scanner: token too long")) := by
  induction ls with
  | nil => rfl
  | cons l rest ih =>
    by_cases hl : osenv.byteLen l < osenv.MaxScanTokenSize
    · have hn : ¬ osenv.byteLen l ≥ osenv.MaxScanTokenSize := by omega
      simp only [osenv.scanTokens, hn, if_false, ih, List.takeWhile_cons, hl, decide_True,
        if_true, List.map_cons, List.all_cons, Bool.true_and]
    · have hn : osenv.byteLen l ≥ osenv.MaxScanTokenSize := by omega
      simp only [osenv.scanTokens, hn, if_true, List.takeWhile_cons, hl, decide_False,
        Bool.false_eq_true, if_false, List.map_nil, List.all_cons, Bool.false_and]

theorem Load_spec (content : String) (env : osenv.Environ) :
    (osenv.Load (.ok content) env).2 =
      osenv.applyBindings env
        (((osenv.linesRead content).filterMap osenv.lineBinding).takeWhile
          fun b => osenv.setenvAccepts b.1 b.2) ∧
    (osenv.Load (.ok content) env).1 =
      match ((osenv.linesRead content).filterMap osenv.lineBinding).find?
          (fun b => !osenv.setenvAccepts b.1 b.2) with
      | some b =>
        some (.wrapf ("error setting env variable " ++ b.1) (.errorf "setenv: invalid argument"))
      | none =>
        if (osenv.rawLines content.toList []).all
            (fun l => decide (osenv.byteLen l < osenv.MaxScanTokenSize)) then none
        else some (.wrapf "error reading env file" (.errorf "bufio.Scanner: token too long")) := by
  have hscan : osenv.scanLines content =
      (osenv.linesRead content,
        if (osenv.rawLines content.toList []).all
            (fun l => decide (osenv.byteLen l < osenv.MaxScanTokenSize)) then none
        else some (.errorf "bufio.Scanner: token too long")) :=
    scanTokens_spec _
  obtain ⟨h1, h2⟩ := loadLines_spec (osenv.linesRead content) env
  cases hl : osenv.loadLines (osenv.linesRead content) env with
  | mk e env1 =>
    rw [hl] at h1 h2
    simp only at h1 h2
    cases hf : ((osenv.linesRead content).filterMap osenv.lineBinding).find?
        (fun b => !osenv.setenvAccepts b.1 b.2) with
    | some b =>
      rw [hf] at h2
      simp only [Option.map_some'] at h2
      subst h2
      simp only [osenv.Load, hscan, hl]
      exact ⟨h1, trivial⟩
    | none =>
      rw [hf] at h2
      simp only [Option.map_none'] at h2
      subst h2
      simp only [osenv.Load, hscan, hl]
      by_cases hall : (osenv.rawLines content.toList []).all
          (fun l => decide (osenv.byteLen l < osenv.MaxScanTokenSize)) = true
      · simp only [hall, if_true]
        exact ⟨h1, trivial⟩
      · simp only [hall, Bool.false_eq_true, if_false]
        exact ⟨h1, trivial⟩

theorem linesRead_short (content : String)
    (h : ∀ l ∈ osenv.rawLines content.toList [], osenv.byteLen l < osenv.MaxScanTokenSize) :
    osenv.linesRead content =
        (osenv.rawLines content.toList []).map (fun l => String.mk (osenv.dropCR l)) ∧
      (osenv.rawLines content.toList []).all
        (fun l => decide (osenv.byteLen l < osenv.MaxScanTokenSize)) = true := by
  constructor
  · unfold osenv.linesRead
    rw [List.takeWhile_eq_self_iff.2 (fun l hl => by simpa using h l hl)]
  · rw [List.all_eq_true]
    intro l hl
    simpa using h l hl

/-! ## The claims -/

/-- Claim C1.  Whenever `Store.Users` succeeds with result list `rs`,
`Store.User` fails with "no user found" when `rs` is empty, fails with
"expected 1 user, got N" (N the length of `rs`) when `rs` has more than one
element, and returns the single element otherwise; `Store.Room` does the
same over `Store.Rooms` with the room messages. -/
theorem C1_singular_lookup (exec : Backend) :
    (∀ (filter : users.UserQueryFilter) (rs : List users.User) (exec1 : Backend),
      users.Store.Users exec filter = (.ok rs, exec1) →
        (rs = [] → users.Store.User exec filter = (.error (.errorf "no user found"), exec1)) ∧
        (1 < rs.length → users.Store.User exec filter =
          (.error (.errorf ("expected 1 user, got " ++ formatUint rs.length)), exec1)) ∧
        (∀ r, rs = [r] → users.Store.User exec filter = (.ok r, exec1))) ∧
    (∀ (filter : rooms.RoomQueryFilter) (rs : List rooms.Room) (exec1 : Backend),
      rooms.Store.Rooms exec filter = (.ok rs, exec1) →
        (rs = [] → rooms.Store.Room exec filter = (.error (.errorf "no room found"), exec1)) ∧
        (1 < rs.length → rooms.Store.Room exec filter =
          (.error (.errorf ("expected 1 room, got " ++ formatUint rs.length)), exec1)) ∧
        (∀ r, rs = [r] → rooms.Store.Room exec filter = (.ok r, exec1))) := by
  constructor
  · intro filter rs exec1 h
    refine ⟨?_, ?_, ?_⟩
    · rintro rfl
      simp [users.Store.User, h]
    · intro hlen
      have h0 : rs.length ≠ 0 := by omega
      simp [users.Store.User, h, h0, hlen]
    · rintro r rfl
      simp [users.Store.User, h]
  · intro filter rs exec1 h
    refine ⟨?_, ?_, ?_⟩
    · rintro rfl
      simp [rooms.Store.Room, h]
    · intro hlen
      have h0 : rs.length ≠ 0 := by omega
      simp [rooms.Store.Room, h, h0, hlen]
    · rintro r rfl
      simp [rooms.Store.Room, h]

/-- Witness for C1: the lookup by username "alice" on the fixture backend finds
exactly one row and returns it. -/
theorem C1_singular_lookup_witness :
    (users.Store.Users fixtureBackend
        { users.UserQueryFilter.zero with Username := .From "alice" }).1 =
      .ok [⟨"1", "alice", "", "User alice", "male", ⟨1⟩⟩] ∧
    (users.Store.User fixtureBackend
        { users.UserQueryFilter.zero with Username := .From "alice" }).1 =
      .ok ⟨"1", "alice", "", "User alice", "male", ⟨1⟩⟩ :=
  ⟨by decide,
   congrArg Prod.fst (((C1_singular_lookup fixtureBackend).1
      { users.UserQueryFilter.zero with Username := .From "alice" }
      [⟨"1", "alice", "", "User alice", "male", ⟨1⟩⟩]
      (users.Store.Users fixtureBackend
        { users.UserQueryFilter.zero with Username := .From "alice" }).2 rfl).2.2 _ rfl)⟩

/-- Claim C2.  An update whose `IDs` list is empty fails with "no user IDs
provided" (users) or "no room IDs provided" (rooms), whatever fields are
present, and the execution handle is returned as it was: no statement is
added to its log and no table changes. -/
theorem C2_update_without_ids (exec : Backend) :
    (∀ update : users.UpdateUser, update.IDs = [] →
      users.Store.Update exec update = (some (.errorf "no user IDs provided"), exec)) ∧
    (∀ update : rooms.UpdateRoom, update.IDs = [] →
      rooms.Store.Update exec update = (some (.errorf "no room IDs provided"), exec)) := by
  constructor
  · intro update h
    simp [users.Store.Update, h]
  · intro update h
    simp [rooms.Store.Update, h]

/-- Witness for C2: the update of the test "error-no-ids-provided". -/
theorem C2_update_without_ids_witness :
    users.Store.Update fixtureBackend ⟨[], .From "newname", .unset, .unset⟩ =
      (some (.errorf "no user IDs provided"), fixtureBackend) :=
  (C2_update_without_ids fixtureBackend).1 ⟨[], .From "newname", .unset, .unset⟩ rfl

/-- Claim C3.  A user update with a non-empty `IDs` list and no field present
succeeds and hands the execution handle back unchanged: no statement is
logged and every row of every table is as before. -/
theorem C3_update_without_fields (exec : Backend) (update : users.UpdateUser)
    (hids : update.IDs ≠ [])
    (hu : update.Username.Valid = false) (hd : update.DisplayName.Valid = false)
    (hg : update.Gender.Valid = false) :
    users.Store.Update exec update = (none, exec) := by
  have hlen : update.IDs.length ≠ 0 := by
    intro h; exact hids (List.length_eq_zero.mp h)
  simp [users.Store.Update, users.Store.updateCols, hlen, hu, hd, hg, Id.run]

/-- Witness for C3: the update of the test "success-nothing-to-update". -/
theorem C3_update_without_fields_witness :
    users.Store.Update fixtureBackend ⟨["1"], .unset, .unset, .unset⟩ = (none, fixtureBackend) :=
  C3_update_without_fields fixtureBackend ⟨["1"], .unset, .unset, .unset⟩ (by decide) rfl rfl rfl

/-- Counterexample to C4 as stated: the identifier "abc" does not parse, yet
with no field present the update succeeds (and issues no statement). -/
theorem C4_counterexample :
    (∃ s ∈ (["abc"] : List String), isUint64Decimal s = false) ∧
    (∃ k, ParseUint "abc" = .error k) ∧
    users.Store.Update fixtureBackend ⟨["abc"], .unset, .unset, .unset⟩ =
      (none, fixtureBackend) :=
  ⟨⟨"abc", by simp, by decide⟩, ⟨_, rfl⟩, rfl⟩

/-- Claim C4, as amended.  When at least one update field is present and the
non-empty `IDs` list holds an identifier that is not an unsigned 64-bit
decimal number, `Store.Update` fails with the invalid-identifier error of the
first such identifier and hands the execution handle back unchanged. -/
theorem C4_update_invalid_id (exec : Backend) (update : users.UpdateUser)
    (hfield : update.Username.Valid = true ∨ update.DisplayName.Valid = true ∨
      update.Gender.Valid = true)
    (hbad : ∃ s ∈ update.IDs, isUint64Decimal s = false) :
    ∃ bad k, update.IDs.find? (fun s => !isUint64Decimal s) = some bad ∧
      users.Store.Update exec update =
        (some (.wrapf ("invalid user ID " ++ bad) (.numError "ParseUint" bad k)), exec) := by
  obtain ⟨bad, hfind⟩ := find_bad_of_exists _ hbad
  obtain ⟨k, hk⟩ := parseIDs_error "invalid user ID " update.IDs bad hfind
  refine ⟨bad, k, hfind, ?_⟩
  have hlen : update.IDs.length ≠ 0 := by
    have := length_pos_of_find _ _ _ hfind
    omega
  simp only [users.Store.Update, hlen, if_false, users.Store.updateCols_length update hfield, hk]

/-- Witness for C4 as amended: with `Username` present the identifier "abc" is
rejected. -/
theorem C4_update_invalid_id_witness :
    ∃ bad k, (["1", "abc", "-2"] : List String).find? (fun s => !isUint64Decimal s) = some bad ∧
      users.Store.Update fixtureBackend ⟨["1", "abc", "-2"], .From "newname", .unset, .unset⟩ =
        (some (.wrapf ("invalid user ID " ++ bad) (.numError "ParseUint" bad k)),
          fixtureBackend) :=
  C4_update_invalid_id fixtureBackend ⟨["1", "abc", "-2"], .From "newname", .unset, .unset⟩
    (Or.inl rfl) ⟨"abc", by simp, by decide⟩

/-- Claim C5.  Whenever a user update reaches the execution handle (its log
grows), exactly one statement is issued: an update of the rows with
`id IN ?` bound to the parsed identifiers, whose column map holds `username`
iff `Username` is present, `display_name` iff `DisplayName` is present and
`gender` iff `Gender` is present, each with the given value, and no other
column at all. -/
theorem C5_update_columns (exec : Backend) (update : users.UpdateUser)
    (hreach : (users.Store.Update exec update).2.log ≠ exec.log) :
    ∃ ids cols,
      (users.Store.Update exec update).2.log =
        exec.log ++ [Statement.UsersUpdateAll [QueryMod.WhereIn "id IN ?" ids] cols] ∧
      cols.get "username" =
        (if update.Username.Valid then some (Value.string update.Username.StringVal)
          else none) ∧
      cols.get "display_name" =
        (if update.DisplayName.Valid then some (Value.string update.DisplayName.StringVal)
          else none) ∧
      cols.get "gender" =
        (if update.Gender.Valid then some (Value.string update.Gender.StringVal) else none) ∧
      (∀ k, k ≠ "username" → k ≠ "display_name" → k ≠ "gender" → cols.get k = none) ∧
      (cols.map Prod.fst).Nodup := by
  unfold users.Store.Update at hreach ⊢
  by_cases hlen : update.IDs.length = 0
  · simp [hlen] at hreach
  · by_cases hc : (users.Store.updateCols update).length = 0
    · simp [hlen, hc] at hreach
    · cases hp : parseIDs "invalid user ID " update.IDs with
      | error e => simp [hlen, hc, hp] at hreach
      | ok ids =>
        refine ⟨ids, users.Store.updateCols update, ?_, users.Store.updateCols_spec update⟩
        have hlog := Backend.UsersUpdateAll_log exec [QueryMod.WhereIn "id IN ?" ids]
          (users.Store.updateCols update)
        simp only [hlen, hc, if_false]
        cases hr : exec.UsersUpdateAll [QueryMod.WhereIn "id IN ?" ids]
            (users.Store.updateCols update) with
        | mk res exec1 =>
          rw [hr] at hlog
          cases res with
          | error e => exact hlog
          | ok n => exact hlog

/-- Witness for C5: an update of two fields reaches the handle. -/
theorem C5_update_columns_witness :
    ∃ ids cols,
      (users.Store.Update fixtureBackend ⟨["1"], .From "newname", .unset, .From "female"⟩).2.log =
        fixtureBackend.log ++ [Statement.UsersUpdateAll [QueryMod.WhereIn "id IN ?" ids] cols] ∧
      cols.get "username" = some (Value.string "newname") ∧
      cols.get "display_name" = none ∧
      cols.get "gender" = some (Value.string "female") ∧
      (∀ k, k ≠ "username" → k ≠ "display_name" → k ≠ "gender" → cols.get k = none) ∧
      (cols.map Prod.fst).Nodup :=
  C5_update_columns fixtureBackend ⟨["1"], .From "newname", .unset, .From "female"⟩ (by decide)

/-- Claim C6.  For an update with valid target identifiers that succeeds: when
exactly one field is present, the resulting `users` table is the old one with
that column overwritten on exactly the rows whose numeric id is a parsed
target, every other row and every other column being as before; the `rooms`
table is untouched and the log grows by the single bulk statement whose
`WHERE` clause is `id IN ?` bound to the parsed targets. -/
theorem C6_update_one_field (exec exec1 : Backend) (update : users.UpdateUser)
    (hvalid : ∀ s ∈ update.IDs, isUint64Decimal s = true)
    (hfield : update.Username.Valid = true ∨ update.DisplayName.Valid = true ∨
      update.Gender.Valid = true)
    (hok : users.Store.Update exec update = (none, exec1)) :
    (update.Username.Valid = true → update.DisplayName.Valid = false →
      update.Gender.Valid = false →
      exec1.users = exec.users.map fun r =>
        if update.targets r then { r with Username := update.Username.StringVal } else r) ∧
    (update.Username.Valid = false → update.DisplayName.Valid = true →
      update.Gender.Valid = false →
      exec1.users = exec.users.map fun r =>
        if update.targets r then { r with DisplayName := ⟨update.DisplayName.StringVal, true⟩ }
        else r) ∧
    (update.Username.Valid = false → update.DisplayName.Valid = false →
      update.Gender.Valid = true →
      exec1.users = exec.users.map fun r =>
        if update.targets r then { r with Gender := ⟨update.Gender.StringVal, true⟩ } else r) ∧
    exec1.rooms = exec.rooms ∧
    exec1.log = exec.log ++ [Statement.UsersUpdateAll
      [QueryMod.WhereIn "id IN ?" (update.IDs.map fun s => Value.uint64 (idValue s))]
      (users.Store.updateCols update)] := by
  obtain ⟨f, hf, hu, hr, hlog⟩ := users_update_effect exec exec1 update hvalid hfield hok
  refine ⟨?_, ?_, ?_, hr, hlog⟩
  · intro hU hD hG
    simp only [users.Store.updateCols, hU, hD, hG, Cols.set, Id.run] at hf
    simp [compileSet, models.User.setCol_username] at hf
    subst hf
    exact hu
  · intro hU hD hG
    simp only [users.Store.updateCols, hU, hD, hG, Cols.set, Id.run] at hf
    simp [compileSet, models.User.setCol_display_name] at hf
    subst hf
    exact hu
  · intro hU hD hG
    simp only [users.Store.updateCols, hU, hD, hG, Cols.set, Id.run] at hf
    simp [compileSet, models.User.setCol_gender] at hf
    subst hf
    exact hu

/-- Witness for C6: the update of the test "success-updates-multiple-users". -/
theorem C6_update_one_field_witness :
    (users.Store.Update fixtureBackend ⟨["1", "3"], .unset, .unset, .From "other"⟩).2.users =
      fixtureBackend.users.map fun r =>
        if (⟨["1", "3"], .unset, .unset, .From "other"⟩ : users.UpdateUser).targets r then
          { r with Gender := ⟨"other", true⟩ }
        else r :=
  (C6_update_one_field fixtureBackend _ ⟨["1", "3"], .unset, .unset, .From "other"⟩
    (by decide) (Or.inr (Or.inr rfl)) rfl).2.2.1 rfl rfl rfl

/-- Claim C7.  If some identifier of the filter is not an unsigned 64-bit
decimal number, `Store.Users` returns no result but the error naming the first
such identifier in list order, and the execution handle is handed back
unchanged (no query is issued).  If every identifier is one, the modifiers are
built, exactly one query is issued, and the outcome is a result or a wrapped
"query users" failure of the backing store, never an identifier error. -/
theorem C7_users_invalid_id (exec : Backend) (filter : users.UserQueryFilter) :
    ((∃ s ∈ filter.IDs, isUint64Decimal s = false) →
      ∃ bad k, filter.IDs.find? (fun s => !isUint64Decimal s) = some bad ∧
        users.Store.Users exec filter =
          (.error (.wrapf ("invalid user ID " ++ bad) (.numError "ParseUint" bad k)), exec)) ∧
    ((∀ s ∈ filter.IDs, isUint64Decimal s = true) →
      ∃ mods, users.Store.queryMods filter = .ok mods ∧
        (users.Store.Users exec filter).2.log = exec.log ++ [Statement.UsersAll mods] ∧
        ((∃ rs, (users.Store.Users exec filter).1 = .ok rs) ∨
          ∃ err, (users.Store.Users exec filter).1 = .error (.wrapf "query users" err))) := by
  constructor
  · intro hbad
    obtain ⟨bad, hfind⟩ := find_bad_of_exists _ hbad
    obtain ⟨k, hk⟩ := users.Store.queryMods_error filter bad hfind
    exact ⟨bad, k, hfind, by simp only [users.Store.Users, hk]⟩
  · intro hall
    obtain ⟨mods, hm⟩ := users.Store.queryMods_ok filter hall
    refine ⟨mods, hm, ?_⟩
    simp only [users.Store.Users, hm, Backend.UsersAll]
    cases exec.fault (Statement.UsersAll mods) with
    | some e => exact ⟨rfl, Or.inr ⟨e, rfl⟩⟩
    | none =>
      cases selectRows models.User.whereClause models.User.order mods exec.users with
      | error e => exact ⟨rfl, Or.inr ⟨e, rfl⟩⟩
      | ok rows => exact ⟨rfl, Or.inl ⟨_, rfl⟩⟩

/-- Witness for C7: the second identifier is the first malformed one. -/
theorem C7_users_invalid_id_witness :
    ∃ bad k, (["7", "x1", ""] : List String).find? (fun s => !isUint64Decimal s) = some bad ∧
      users.Store.Users fixtureBackend { users.UserQueryFilter.zero with IDs := ["7", "x1", ""] } =
        (.error (.wrapf ("invalid user ID " ++ bad) (.numError "ParseUint" bad k)),
          fixtureBackend) :=
  (C7_users_invalid_id fixtureBackend { users.UserQueryFilter.zero with IDs := ["7", "x1", ""] }).1
    ⟨"x1", by simp, by decide⟩

/-- Claim C8.  For a filter without `Limit` and `Offset`: whenever
`Store.Users` succeeds, the users it returns are the rows of the table that
satisfy every present predicate (`matchesRow`), each returned once as the
domain user it stands for, in table order when no ordering is asked for; so
an absent field never narrows the result.  On a backend without faults, the
filter with no field set returns every row, a filter whose only field is
`Username` or `Gender` returns exactly the rows equal on that column, and a
filter whose only field is `Email` returns no row, no row storing an
e-mail. -/
theorem C8_users_filter_semantics (exec : Backend) (filter : users.UserQueryFilter)
    (hl : filter.Limit.Valid = false) (ho : filter.Offset.Valid = false) :
    (∀ rs exec1, users.Store.Users exec filter = (.ok rs, exec1) →
      ∃ rows, rs = rows.map users.User.ofRow ∧
        rows.Perm (exec.users.filter filter.matchesRow) ∧
        (∀ r, r ∈ rows ↔ r ∈ exec.users ∧ filter.matchesRow r = true) ∧
        (filter.OrderBy.Valid = false → rows = exec.users.filter filter.matchesRow)) ∧
    ((∀ st, exec.fault st = none) → filter.IDs = [] → filter.OrderBy.Valid = false →
      (filter.Username.Valid = false → filter.Email.Valid = false →
        filter.Gender.Valid = false →
        (users.Store.Users exec filter).1 = .ok (exec.users.map users.User.ofRow)) ∧
      (filter.Username.Valid = true → filter.Email.Valid = false →
        filter.Gender.Valid = false →
        (users.Store.Users exec filter).1 =
          .ok ((exec.users.filter fun r => r.Username == filter.Username.StringVal).map
            users.User.ofRow)) ∧
      (filter.Username.Valid = false → filter.Email.Valid = true →
        filter.Gender.Valid = false →
        (users.Store.Users exec filter).1 = .ok []) ∧
      (filter.Username.Valid = false → filter.Email.Valid = false →
        filter.Gender.Valid = true →
        (users.Store.Users exec filter).1 =
          .ok ((exec.users.filter fun r =>
            r.Gender.Valid && r.Gender.StringVal == filter.Gender.StringVal).map
            users.User.ofRow))) := by
  have hview : ∀ rows : List models.User,
      users.dbUsersToUsers rows = rows.map users.User.ofRow := fun _ => rfl
  constructor
  · intro rs exec1 h
    obtain ⟨rows, hrs, hperm, hord⟩ := users_select exec exec1 filter rs hl ho h
    refine ⟨rows, by rw [hrs, hview], hperm, ?_, hord⟩
    intro r
    rw [hperm.mem_iff, List.mem_filter]
  · intro hfault hids hO
    have hv : ∀ s ∈ filter.IDs, isUint64Decimal s = true := by simp [hids]
    have hsel := users_select_ok exec filter hv hO hl ho hfault
    rw [hview] at hsel
    refine ⟨?_, ?_, ?_, ?_⟩ <;> intro hU hE hG <;> rw [hsel] <;> congr 1
    · have : filter.matchesRow = fun _ => true := by
        funext r; simp [users.UserQueryFilter.matchesRow, hids, hU, hE, hG]
      rw [this]; simp
    · congr 2; funext r; simp [users.UserQueryFilter.matchesRow, hids, hU, hE, hG]
    · have : filter.matchesRow = fun _ => false := by
        funext r; simp [users.UserQueryFilter.matchesRow, hids, hU, hE, hG]
      rw [this]; simp
    · congr 2; funext r; simp [users.UserQueryFilter.matchesRow, hids, hU, hE, hG]

/-- Witness for C8: the gender filter of the test "success-filters-by-gender"
returns alice and bob, and the filter with no field set returns the three
users of the table. -/
theorem C8_users_filter_semantics_witness :
    (users.Store.Users fixtureBackend
        { users.UserQueryFilter.zero with Gender := .From "male" }).1 =
      .ok [⟨"1", "alice", "", "User alice", "male", ⟨1⟩⟩,
        ⟨"2", "bob", "", "User bob", "male", ⟨2⟩⟩] ∧
    (users.Store.Users fixtureBackend users.UserQueryFilter.zero).1 =
      .ok [⟨"1", "alice", "", "User alice", "male", ⟨1⟩⟩,
        ⟨"2", "bob", "", "User bob", "male", ⟨2⟩⟩,
        ⟨"3", "charlie", "", "User charlie", "female", ⟨3⟩⟩] :=
  ⟨(((C8_users_filter_semantics fixtureBackend
      { users.UserQueryFilter.zero with Gender := .From "male" } rfl rfl).2
    (fun _ => rfl) rfl rfl).2.2.2 rfl rfl rfl).trans (by decide),
    (((C8_users_filter_semantics fixtureBackend users.UserQueryFilter.zero rfl rfl).2
    (fun _ => rfl) rfl rfl).1 rfl rfl rfl).trans (by decide)⟩

/-- Counterexample to C9 as stated: with the empty `IDs` list (and nothing else
set) the three users of the fixture are returned, although none of them has an
identifier that is a member of the empty list. -/
theorem C9_counterexample :
    (users.Store.Users fixtureBackend users.UserQueryFilter.zero).1 =
      .ok [⟨"1", "alice", "", "User alice", "male", ⟨1⟩⟩,
        ⟨"2", "bob", "", "User bob", "male", ⟨2⟩⟩,
        ⟨"3", "charlie", "", "User charlie", "female", ⟨3⟩⟩] ∧
    ¬ ∃ s ∈ users.UserQueryFilter.zero.IDs, s = "1" ∨ ParseUint s = .ok 1 :=
  ⟨by decide, by simp [users.UserQueryFilter.zero]⟩

/-- Claim C9, as amended.  With only `IDs` set and the list non-empty, a
successful `Store.Users` returns exactly the rows whose numeric id is the
parsed value of a member of the list, so every returned user carries the
decimal form of the number some listed identifier parses to.  With the empty
list no membership clause is built: on a backend without faults every row of
the table is returned. -/
theorem C9_users_by_ids (exec : Backend) (filter : users.UserQueryFilter)
    (hU : filter.Username.Valid = false) (hE : filter.Email.Valid = false)
    (hG : filter.Gender.Valid = false) (hO : filter.OrderBy.Valid = false)
    (hl : filter.Limit.Valid = false) (ho : filter.Offset.Valid = false) :
    (filter.IDs ≠ [] → ∀ rs exec1, users.Store.Users exec filter = (.ok rs, exec1) →
      rs = users.dbUsersToUsers (exec.users.filter fun r =>
        filter.IDs.any fun s => decide (ParseUint s = .ok r.ID)) ∧
      ∀ u ∈ rs, ∃ s ∈ filter.IDs, ∃ n, ParseUint s = .ok n ∧ u.ID = formatUint n) ∧
    (filter.IDs = [] → (∀ st, exec.fault st = none) →
      (users.Store.Users exec filter).1 = .ok (users.dbUsersToUsers exec.users)) := by
  constructor
  · intro hne rs exec1 h
    obtain ⟨rows, hrs, _, hrows⟩ := users_select exec exec1 filter rs hl ho h
    have hempty : filter.IDs.isEmpty = false := by
      cases hI : filter.IDs with
      | nil => exact absurd hI hne
      | cons a l => rfl
    have hm : filter.matchesRow = fun r =>
        filter.IDs.any fun s => decide (ParseUint s = .ok r.ID) := by
      funext r; simp [users.UserQueryFilter.matchesRow, hempty, hU, hE, hG]
    rw [hrows hO, hm] at hrs
    refine ⟨hrs, ?_⟩
    intro u hu
    rw [hrs] at hu
    simp only [users.dbUsersToUsers, List.mem_map, List.mem_filter, List.any_eq_true,
      decide_eq_true_eq] at hu
    obtain ⟨r, ⟨_, s, hs, hp⟩, hur⟩ := hu
    exact ⟨s, hs, r.ID, hp, by rw [← hur]⟩
  · intro hids hfault
    have hv : ∀ s ∈ filter.IDs, isUint64Decimal s = true := by simp [hids]
    rw [users_select_ok exec filter hv hO hl ho hfault]
    congr 2
    have : filter.matchesRow = fun _ => true := by
      funext r; simp [users.UserQueryFilter.matchesRow, hids, hU, hE, hG]
    rw [this]; simp

/-- Witness for C9 as amended: the lookup by the identifiers "1" and "3". -/
theorem C9_users_by_ids_witness :
    (users.Store.Users fixtureBackend { users.UserQueryFilter.zero with IDs := ["1", "3"] }).1 =
      .ok (users.dbUsersToUsers (fixtureBackend.users.filter fun r =>
        (["1", "3"] : List String).any fun s => decide (ParseUint s = .ok r.ID))) :=
  congrArg Except.ok (((C9_users_by_ids fixtureBackend
    { users.UserQueryFilter.zero with IDs := ["1", "3"] } rfl rfl rfl rfl rfl rfl).1
    (by decide)
    [⟨"1", "alice", "", "User alice", "male", ⟨1⟩⟩,
      ⟨"3", "charlie", "", "User charlie", "female", ⟨3⟩⟩]
    (users.Store.Users fixtureBackend { users.UserQueryFilter.zero with IDs := ["1", "3"] }).2
    rfl).1)

/-- Claim C10.  For a filter whose identifiers are valid, the clause list that
`Users` (`Rooms`) builds is the concatenation, in this fixed order, of: the
`id IN ?` membership clause (when `IDs` is non-empty), one equality clause per
present field in declaration order (username, email, gender; for rooms name,
created_by, is_active, created_at), the `ORDER BY` clause, `LIMIT`, `OFFSET`;
each present field gives exactly one clause and an absent field none.  Being
a function of the filter, the list is the same whenever the filter is. -/
theorem C10_clause_order :
    (∀ filter : users.UserQueryFilter, (∀ s ∈ filter.IDs, isUint64Decimal s = true) →
      users.Store.queryMods filter = .ok (
        (if filter.IDs = [] then []
          else [QueryMod.WhereIn "id IN ?" (filter.IDs.map fun s => Value.uint64 (idValue s))])
        ++ (if filter.Username.Valid then
              [QueryMod.Where "username = ?" (.string filter.Username.StringVal)] else [])
        ++ (if filter.Email.Valid then
              [QueryMod.Where "email = ?" (.string filter.Email.StringVal)] else [])
        ++ (if filter.Gender.Valid then
              [QueryMod.Where "gender = ?" (.string filter.Gender.StringVal)] else [])
        ++ (if filter.OrderBy.Valid then
              [QueryMod.OrderBy (filter.OrderBy.StringVal ++ " " ++
                (if filter.SortDir.Valid then filter.SortDir.StringVal else "ASC"))] else [])
        ++ (if filter.Limit.Valid then [QueryMod.Limit filter.Limit.IntVal] else [])
        ++ (if filter.Offset.Valid then [QueryMod.Offset filter.Offset.IntVal] else []))) ∧
    (∀ filter : rooms.RoomQueryFilter, (∀ s ∈ filter.IDs, isUint64Decimal s = true) →
      (filter.CreatedBy.Valid = true → isUint64Decimal filter.CreatedBy.StringVal = true) →
      rooms.Store.queryMods filter = .ok (
        (if filter.IDs = [] then []
          else [QueryMod.WhereIn "id IN ?" (filter.IDs.map fun s => Value.uint64 (idValue s))])
        ++ (if filter.Name.Valid then
              [QueryMod.Where "name = ?" (.string filter.Name.StringVal)] else [])
        ++ (if filter.CreatedBy.Valid then
              [QueryMod.Where "created_by = ?" (.uint64 (idValue filter.CreatedBy.StringVal))]
            else [])
        ++ (if filter.IsActive.Valid then
              [QueryMod.Where "is_active = ?" (.bool filter.IsActive.BoolVal)] else [])
        ++ (if filter.CreatedAt.Valid then
              [QueryMod.Where "created_at = ?" (.time filter.CreatedAt.TimeVal)] else [])
        ++ (if filter.OrderBy.Valid then
              [QueryMod.OrderBy (filter.OrderBy.StringVal ++ " " ++
                (if filter.SortDir.Valid then filter.SortDir.StringVal else "ASC"))] else [])
        ++ (if filter.Limit.Valid then [QueryMod.Limit filter.Limit.IntVal] else [])
        ++ (if filter.Offset.Valid then [QueryMod.Offset filter.Offset.IntVal] else []))) := by
  constructor
  · intro filter hids
    rw [users.Store.queryMods_eq, parseIDs_ok _ _ hids]
    cases hI : filter.IDs with
    | nil => rfl
    | cons a l => simp
  · intro filter hids hcb
    exact rooms_queryMods_closed filter hids hcb

/-- Witness for C10: the clause list of the test "success-combines-multiple-filters". -/
theorem C10_clause_order_witness :
    users.Store.queryMods { users.UserQueryFilter.zero with
        IDs := ["1", "2"], Gender := .From "male", OrderBy := .From "username",
        SortDir := .From "ASC", Limit := .From 10 } =
      .ok [QueryMod.WhereIn "id IN ?" [Value.uint64 (idValue "1"), Value.uint64 (idValue "2")],
        QueryMod.Where "gender = ?" (.string "male"),
        QueryMod.OrderBy ("username" ++ " " ++ "ASC"),
        QueryMod.Limit 10] :=
  C10_clause_order.1 { users.UserQueryFilter.zero with
      IDs := ["1", "2"], Gender := .From "male", OrderBy := .From "username",
      SortDir := .From "ASC", Limit := .From 10 } (by decide)

/-- Claim C11.  Whenever `Store.Users` builds its clause list: with `OrderBy`
present and `Sort` absent the only `ORDER BY` clause is the `OrderBy` column
followed by " ASC"; with both present it is the column, a space and the value
of `Sort`; with `OrderBy` absent there is no `ORDER BY` clause, whatever `Sort`
holds. -/
theorem C11_order_by_direction (filter : users.UserQueryFilter) (mods : List QueryMod)
    (h : users.Store.queryMods filter = .ok mods) :
    (filter.OrderBy.Valid = true → filter.SortDir.Valid = false →
      mods.filter QueryMod.isOrderBy = [QueryMod.OrderBy (filter.OrderBy.StringVal ++ " ASC")]) ∧
    (filter.OrderBy.Valid = true → filter.SortDir.Valid = true →
      mods.filter QueryMod.isOrderBy =
        [QueryMod.OrderBy (filter.OrderBy.StringVal ++ " " ++ filter.SortDir.StringVal)]) ∧
    (filter.OrderBy.Valid = false → mods.filter QueryMod.isOrderBy = []) := by
  rw [users.Store.queryMods_orderBy filter mods h]
  refine ⟨?_, ?_, ?_⟩
  · intro hO hS
    simp only [users.UserQueryFilter.orderMods, hO, hS, if_true, Bool.false_eq_true, if_false,
      String.append_assoc]
    rfl
  · intro hO hS
    simp only [users.UserQueryFilter.orderMods, hO, hS, if_true]
  · intro hO
    simp only [users.UserQueryFilter.orderMods, hO, Bool.false_eq_true, if_false]

/-- Witness for C11: `OrderBy` "created_at" without `Sort`, and a `Sort` that is
ignored because `OrderBy` is absent. -/
theorem C11_order_by_direction_witness :
    [QueryMod.OrderBy "created_at ASC"].filter QueryMod.isOrderBy =
      [QueryMod.OrderBy ("created_at" ++ " ASC")] ∧
    [QueryMod.Where "gender = ?" (.string "male")].filter QueryMod.isOrderBy = [] :=
  ⟨(C11_order_by_direction
      { users.UserQueryFilter.zero with OrderBy := .From "created_at" }
      [QueryMod.OrderBy "created_at ASC"] (by decide)).1 rfl rfl,
    (C11_order_by_direction
      { users.UserQueryFilter.zero with Gender := .From "male", SortDir := .From "DESC" }
      [QueryMod.Where "gender = ?" (.string "male")] (by decide)).2.2 rfl⟩

/-- Claim C12.  For a filter without `Limit` and `Offset`, on every table
state: with `OrderBy` "username" and `Sort` "ASC" a successful `Store.Users`
returns exactly the matching rows (a permutation of them) in ascending
lexicographic order of username; with `OrderBy` "created_at" and `Sort` "DESC"
it returns exactly the matching rows newest first (rows without a creation
time last).  When the identifiers are valid and the backend reports no fault,
the call does succeed. -/
theorem C12_ordering (exec : Backend) (filter : users.UserQueryFilter)
    (hl : filter.Limit.Valid = false) (ho : filter.Offset.Valid = false) :
    (filter.OrderBy = NullString.From "username" → filter.SortDir = NullString.From "ASC" →
      (∀ rs exec1, users.Store.Users exec filter = (.ok rs, exec1) →
        ∃ rows, rs = users.dbUsersToUsers rows ∧
          rows.Perm (exec.users.filter filter.matchesRow) ∧
          rows.Sorted fun a b => a.Username.toList ≤ b.Username.toList) ∧
      ((∀ s ∈ filter.IDs, isUint64Decimal s = true) → (∀ st, exec.fault st = none) →
        ∃ rs, (users.Store.Users exec filter).1 = .ok rs)) ∧
    (filter.OrderBy = NullString.From "created_at" → filter.SortDir = NullString.From "DESC" →
      (∀ rs exec1, users.Store.Users exec filter = (.ok rs, exec1) →
        ∃ rows, rs = users.dbUsersToUsers rows ∧
          rows.Perm (exec.users.filter filter.matchesRow) ∧
          rows.Sorted fun a b => b.CreatedAt.Valid = false ∨ (a.CreatedAt.Valid = true ∧
            b.CreatedAt.TimeVal.nanos ≤ a.CreatedAt.TimeVal.nanos)) ∧
      ((∀ s ∈ filter.IDs, isUint64Decimal s = true) → (∀ st, exec.fault st = none) →
        ∃ rs, (users.Store.Users exec filter).1 = .ok rs)) := by
  constructor
  · intro hO hS
    have hmods : filter.orderMods = [QueryMod.OrderBy "username ASC"] := by
      simp only [users.UserQueryFilter.orderMods, hO, hS, NullString.From, if_true]
      rfl
    constructor
    · intro rs exec1 h
      exact ⟨_, users_sorted_select exec exec1 filter rs _ _ hl ho hmods username_order h,
        List.perm_insertionSort _ _, sorted_by_username _⟩
    · intro hids hfault
      exact ⟨_, users_sorted_select_ok exec filter _ _ hids hfault hl ho hmods username_order⟩
  · intro hO hS
    have hmods : filter.orderMods = [QueryMod.OrderBy "created_at DESC"] := by
      simp only [users.UserQueryFilter.orderMods, hO, hS, NullString.From, if_true]
      rfl
    constructor
    · intro rs exec1 h
      exact ⟨_, users_sorted_select exec exec1 filter rs _ _ hl ho hmods created_at_order h,
        List.perm_insertionSort _ _, sorted_newest_first _⟩
    · intro hids hfault
      exact ⟨_, users_sorted_select_ok exec filter _ _ hids hfault hl ho hmods created_at_order⟩

/-- Witness for C12: over the users dave, bob, erin, alice, charlie (stored in
that order) the filter `Gender` = male, `OrderBy` = username, `Sort` = ASC
returns alice, bob, dave in that order. -/
theorem C12_ordering_witness :
    (users.Store.Users fixtureFive { users.UserQueryFilter.zero with
        Gender := .From "male", OrderBy := .From "username", SortDir := .From "ASC" }).1.map
      (fun rs => rs.map fun u => u.Username) = .ok ["alice", "bob", "dave"] ∧
    ∃ rows,
      [(⟨"1", "alice", "", "User alice", "male", ⟨1⟩⟩ : users.User),
        ⟨"2", "bob", "", "User bob", "male", ⟨2⟩⟩,
        ⟨"4", "dave", "", "User dave", "male", ⟨4⟩⟩] = users.dbUsersToUsers rows ∧
      rows.Perm (fixtureFive.users.filter
        ({ users.UserQueryFilter.zero with
          Gender := .From "male", OrderBy := .From "username",
          SortDir := .From "ASC" } : users.UserQueryFilter).matchesRow) ∧
      rows.Sorted fun a b => a.Username.toList ≤ b.Username.toList :=
  ⟨by decide,
    ((C12_ordering fixtureFive { users.UserQueryFilter.zero with
        Gender := .From "male", OrderBy := .From "username", SortDir := .From "ASC" }
      rfl rfl).1 rfl rfl).1 _
      (users.Store.Users fixtureFive { users.UserQueryFilter.zero with
        Gender := .From "male", OrderBy := .From "username", SortDir := .From "ASC" }).2 rfl⟩

/-- Claim C13.  For a filter with `OrderBy` set: whenever `Store.Users`
succeeds, `Limit` and `Offset` (each when present) are not negative and the
result is the ordered matching rows with the first `Offset` rows dropped when
`Offset` is present and then at most `Limit` rows kept when `Limit` is present;
in particular `Offset` without `Limit` skips the rows and returns the rest.
Conversely, with valid identifiers, no fault, a sort clause the table
understands and no negative count, the call succeeds with that result. -/
theorem C13_pagination (exec : Backend) (filter : users.UserQueryFilter)
    (hO : filter.OrderBy.Valid = true) :
    (∀ rs exec1, users.Store.Users exec filter = (.ok rs, exec1) →
      ∃ ordered,
        compileOrder models.User.order
          [QueryMod.OrderBy (filter.OrderBy.StringVal ++ " " ++
            (if filter.SortDir.Valid then filter.SortDir.StringVal else "ASC"))]
          (exec.users.filter filter.matchesRow) = .ok ordered ∧
        ordered.Perm (exec.users.filter filter.matchesRow) ∧
        (filter.Limit.Valid = true → 0 ≤ filter.Limit.IntVal) ∧
        (filter.Offset.Valid = true → 0 ≤ filter.Offset.IntVal) ∧
        rs = users.dbUsersToUsers (filter.page ordered) ∧
        (filter.Limit.Valid = false → filter.Offset.Valid = true →
          rs = users.dbUsersToUsers (ordered.drop filter.Offset.IntVal.toNat))) ∧
    ((∀ s ∈ filter.IDs, isUint64Decimal s = true) → (∀ st, exec.fault st = none) →
      (filter.Limit.Valid = true → 0 ≤ filter.Limit.IntVal) →
      (filter.Offset.Valid = true → 0 ≤ filter.Offset.IntVal) →
      ∀ ordered, compileOrder models.User.order
          [QueryMod.OrderBy (filter.OrderBy.StringVal ++ " " ++
            (if filter.SortDir.Valid then filter.SortDir.StringVal else "ASC"))]
          (exec.users.filter filter.matchesRow) = .ok ordered →
        (users.Store.Users exec filter).1 = .ok (users.dbUsersToUsers (filter.page ordered))) := by
  have hmods : filter.orderMods = [QueryMod.OrderBy (filter.OrderBy.StringVal ++ " " ++
      (if filter.SortDir.Valid then filter.SortDir.StringVal else "ASC"))] := by
    simp only [users.UserQueryFilter.orderMods, hO, if_true]
  rw [← hmods]
  constructor
  · intro rs exec1 h
    obtain ⟨ordered, paged, hc, hpg, hrs⟩ := users_select_page exec exec1 filter rs h
    rw [paginate_pageMods_iff] at hpg
    obtain ⟨hL, hOff, hpaged⟩ := hpg
    refine ⟨ordered, hc, compileOrder_perm _ _ _ _ hc, hL, hOff, by rw [hrs, hpaged], ?_⟩
    intro hl ho
    rw [hrs, hpaged]
    simp [users.UserQueryFilter.page, hl, ho]
  · intro hids hfault hL hOff ordered hc
    exact users_select_page_ok exec filter hids hfault ordered _ hc
      ((paginate_pageMods_iff filter ordered _).2 ⟨hL, hOff, rfl⟩)

/-- Witness for C13: `Limit` = 2, `Offset` = 2 over five rows ordered by id
returns the rows at the 0-based positions 2 and 3 (ids 3 and 4). -/
theorem C13_pagination_witness :
    (users.Store.Users fixtureFive { users.UserQueryFilter.zero with
        OrderBy := .From "id", SortDir := .From "ASC", Limit := .From 2, Offset := .From 2 }).1 =
      .ok (users.dbUsersToUsers
        (({ users.UserQueryFilter.zero with
            OrderBy := .From "id", SortDir := .From "ASC", Limit := .From 2,
            Offset := .From 2 } : users.UserQueryFilter).page
          [fixtureUser 1 "alice" "male", fixtureUser 2 "bob" "male",
            fixtureUser 3 "charlie" "female", fixtureUser 4 "dave" "male",
            fixtureUser 5 "erin" "female"])) ∧
    (users.Store.Users fixtureFive { users.UserQueryFilter.zero with
        OrderBy := .From "id", SortDir := .From "ASC", Limit := .From 2, Offset := .From 2 }).1.map
      (fun rs => rs.map fun u => u.ID) = .ok ["3", "4"] :=
  ⟨(C13_pagination fixtureFive { users.UserQueryFilter.zero with
        OrderBy := .From "id", SortDir := .From "ASC", Limit := .From 2, Offset := .From 2 }
      rfl).2 (by decide) (fun _ => rfl) (fun _ => by decide) (fun _ => by decide) _ (by decide),
    by decide⟩

/-- Claim C14.  `dbUsersToUsers` is total and keeps length and order: element
`i` of the result is built from row `i`, with the decimal string of the row's
id, the row's username, and display name, gender and creation time equal to
the column value when the column is set and to the empty string, the empty
gender and the zero time when it is not (`Email` is always empty). -/
theorem C14_dbUsersToUsers (dbUsers : List models.User) :
    (users.dbUsersToUsers dbUsers).length = dbUsers.length ∧
    ∀ (i : Nat) (db : models.User), dbUsers[i]? = some db →
      ∃ u, (users.dbUsersToUsers dbUsers)[i]? = some u ∧
        u.ID = formatUint db.ID ∧
        u.Username = db.Username ∧
        u.Email = "" ∧
        u.DisplayName = (if db.DisplayName.Valid then db.DisplayName.StringVal else "") ∧
        u.Gender = (if db.Gender.Valid then db.Gender.StringVal else "") ∧
        u.CreatedAt = (if db.CreatedAt.Valid then db.CreatedAt.TimeVal else Time.zero) := by
  refine ⟨by simp [users.dbUsersToUsers], ?_⟩
  intro i db h
  simp only [users.dbUsersToUsers, List.getElem?_map, h, Option.map_some']
  exact ⟨_, rfl, rfl, rfl, rfl, rfl, rfl, rfl⟩

/-- Witness for C14: a row with unset display name, gender and creation time. -/
theorem C14_dbUsersToUsers_witness :
    ∃ u, (users.dbUsersToUsers
        [fixtureUser 1 "alice" "male", ⟨42, "dora", ⟨"x", false⟩, .unset, .unset⟩])[1]? =
          some u ∧
      u.ID = formatUint 42 ∧ u.Username = "dora" ∧ u.Email = "" ∧ u.DisplayName = "" ∧
      u.Gender = "" ∧ u.CreatedAt = Time.zero :=
  (C14_dbUsersToUsers
    [fixtureUser 1 "alice" "male", ⟨42, "dora", ⟨"x", false⟩, .unset, .unset⟩]).2 1 _ rfl

/-- Counterexample to C15 as stated: a user with a valid identifier and an
e-mail address comes back without the address, and the valid identifier
"007" comes back as "7"; in both cases the round trip does not return the
user it started from. -/
theorem C15_counterexample :
    (isUint64Decimal "1" = true ∧
      (users.userToDBUser ⟨"1", "alice", "alice@example.com", "Alice", "female", ⟨5⟩⟩).map
          (fun db => users.dbUsersToUsers [db]) =
        .ok [⟨"1", "alice", "", "Alice", "female", ⟨5⟩⟩] ∧
      (users.userToDBUser ⟨"1", "alice", "alice@example.com", "Alice", "female", ⟨5⟩⟩).map
          (fun db => users.dbUsersToUsers [db]) ≠
        .ok [⟨"1", "alice", "alice@example.com", "Alice", "female", ⟨5⟩⟩]) ∧
    (isUint64Decimal "007" = true ∧
      (users.userToDBUser ⟨"007", "bond", "", "James", "male", ⟨5⟩⟩).map
          (fun db => users.dbUsersToUsers [db]) =
        .ok [⟨"7", "bond", "", "James", "male", ⟨5⟩⟩] ∧
      (users.userToDBUser ⟨"007", "bond", "", "James", "male", ⟨5⟩⟩).map
          (fun db => users.dbUsersToUsers [db]) ≠
        .ok [⟨"007", "bond", "", "James", "male", ⟨5⟩⟩]) :=
  ⟨⟨by decide, by decide, by decide⟩, ⟨by decide, by decide, by decide⟩⟩

/-- Claim C15, as amended.  For a domain user `u` whose `ID` is a valid
identifier, `userToDBUser` succeeds and converting the row back with
`dbUsersToUsers` yields `u` with `Username`, `DisplayName`, `Gender` and
`CreatedAt` unchanged, `Email` empty, and `ID` the decimal form of the number
that `u.ID` denotes; so the round trip returns `u` itself when `u.Email` is
empty and `u.ID` is the decimal form of a number. -/
theorem C15_user_round_trip (u : users.User) (h : isUint64Decimal u.ID = true) :
    (users.userToDBUser u).map (fun db => users.dbUsersToUsers [db]) =
        .ok [{ u with ID := formatUint (idValue u.ID), Email := "" }] ∧
    (u.Email = "" → (∃ n, u.ID = formatUint n) →
      (users.userToDBUser u).map (fun db => users.dbUsersToUsers [db]) = .ok [u]) := by
  refine ⟨users_round_trip u h, ?_⟩
  rintro he ⟨n, hn⟩
  rw [users_round_trip u h]
  have hid : formatUint (idValue u.ID) = u.ID := by
    rw [hn, idValue, (formatUint_spec n).2.2]
  rw [hid]
  cases u
  simp_all

/-- Witness for C15 as amended: a user with empty e-mail and canonical id. -/
theorem C15_user_round_trip_witness :
    (users.userToDBUser ⟨"12", "alice", "", "", "female", Time.zero⟩).map
        (fun db => users.dbUsersToUsers [db]) =
      .ok [⟨"12", "alice", "", "", "female", Time.zero⟩] :=
  (C15_user_round_trip ⟨"12", "alice", "", "", "female", Time.zero⟩ (by decide)).2 rfl
    ⟨12, by decide⟩

/-- Claim C16.  The decimal string surfaced for an unsigned 64-bit identifier
`n` parses back to exactly `n`: `ParseUint (formatUint n) = n`.  Hence a
`users` row converted by `dbUsersToUsers` is accepted by `userToDBUser` with
its id restored, and a `rooms` row converted by `dbRoomsToRooms` is accepted by
`roomToDBRoom` with its id and its owner id restored. -/
theorem C16_id_round_trip :
    (∀ n : Nat, n < 2 ^ 64 → ParseUint (formatUint n) = .ok n) ∧
    (∀ db : models.User, db.ID < 2 ^ 64 → ∀ u ∈ users.dbUsersToUsers [db],
      (users.userToDBUser u).map (fun r => r.ID) = .ok db.ID) ∧
    (∀ db : models.Room, db.ID < 2 ^ 64 → db.CreatedBy < 2 ^ 64 →
      ∀ r ∈ rooms.dbRoomsToRooms [db],
        (rooms.roomToDBRoom r).map (fun x => (x.ID, x.CreatedBy)) = .ok (db.ID, db.CreatedBy)) := by
  refine ⟨ParseUint_formatUint, ?_, ?_⟩
  · intro db h u hu
    simp only [users.dbUsersToUsers, List.map_cons, List.map_nil, List.mem_singleton] at hu
    subst hu
    simp [users.userToDBUser, ParseUint_formatUint _ h, Except.map]
  · intro db h hc r hr
    simp only [rooms.dbRoomsToRooms, List.map_cons, List.map_nil, List.mem_singleton] at hr
    subst hr
    simp [rooms.roomToDBRoom, ParseUint_formatUint _ h, ParseUint_formatUint _ hc, Except.map]

/-- Witness for C16: the largest identifier. -/
theorem C16_id_round_trip_witness :
    ParseUint (formatUint 18446744073709551615) = .ok 18446744073709551615 :=
  C16_id_round_trip.1 18446744073709551615 (by norm_num)

/-- Claim C17, evaluated on the code.  `dbRoomMembersToRoomMembers` maps
`joined_at` to the zero time when the column is unset and to its value when it
is set, but it copies the time carried by `left_at` whether or not the column
is set: for the row with both columns unset and carrying the times 5 and 9,
`JoinedAt` is the zero time and `LeftAt` is 9. -/
theorem C17_room_member_times :
    (∀ db : models.RoomMember, ∃ m, room_members.dbRoomMembersToRoomMembers [db] = [m] ∧
      m.JoinedAt = (if db.JoinedAt.Valid then db.JoinedAt.TimeVal else Time.zero) ∧
      m.LeftAt = db.LeftAt.TimeVal) ∧
    room_members.dbRoomMembersToRoomMembers [⟨1, 2, 3, ⟨⟨5⟩, false⟩, ⟨⟨9⟩, false⟩⟩] =
      [⟨"1", "2", "3", Time.zero, ⟨9⟩⟩] ∧
    (⟨9⟩ : Time) ≠ Time.zero := by
  refine ⟨?_, by decide, by decide⟩
  intro db
  refine ⟨_, rfl, ?_, rfl⟩
  cases hv : db.JoinedAt.Valid <;> simp [hv, NullTime.From, NullTime.unset]

/-- Claim C18.  `BulkInsert` of `UserRepo`, `RoomRepo` and `RoomMemberRepo`
returns success for the empty list and hands the execution handle back
unchanged (no statement); for a non-empty list the log of the handle grows by
exactly one statement, the raw `INSERT` with its arguments. -/
theorem C18_bulk_insert_statements (exec : Backend) :
    (repo.UserRepo.BulkInsert exec [] = (none, exec) ∧
      repo.RoomRepo.BulkInsert exec [] = (none, exec) ∧
      repo.RoomMemberRepo.BulkInsert exec [] = (none, exec)) ∧
    (∀ users : List models.User, users ≠ [] →
      (repo.UserRepo.BulkInsert exec users).2.log = exec.log ++
        [Statement.ExecContext (repo.UserRepo.bulkInsertStatement users).1
          (repo.UserRepo.bulkInsertStatement users).2]) ∧
    (∀ rooms : List models.Room, rooms ≠ [] →
      (repo.RoomRepo.BulkInsert exec rooms).2.log = exec.log ++
        [Statement.ExecContext (repo.RoomRepo.bulkInsertStatement rooms).1
          (repo.RoomRepo.bulkInsertStatement rooms).2]) ∧
    (∀ roomMembers : List models.RoomMember, roomMembers ≠ [] →
      (repo.RoomMemberRepo.BulkInsert exec roomMembers).2.log = exec.log ++
        [Statement.ExecContext (repo.RoomMemberRepo.bulkInsertStatement roomMembers).1
          (repo.RoomMemberRepo.bulkInsertStatement roomMembers).2]) := by
  refine ⟨⟨rfl, rfl, rfl⟩, ?_, ?_, ?_⟩
  · intro users hne
    have hlen : users.length ≠ 0 := fun h => hne (List.length_eq_zero.mp h)
    have hlog := Backend.ExecContext_log exec (repo.UserRepo.bulkInsertStatement users).1
      (repo.UserRepo.bulkInsertStatement users).2
    simp only [repo.UserRepo.BulkInsert, hlen, if_false]
    cases hr : exec.ExecContext (repo.UserRepo.bulkInsertStatement users).1
        (repo.UserRepo.bulkInsertStatement users).2 with
    | mk res exec1 =>
      rw [hr] at hlog
      cases res <;> exact hlog
  · intro rooms hne
    have hlen : rooms.length ≠ 0 := fun h => hne (List.length_eq_zero.mp h)
    have hlog := Backend.ExecContext_log exec (repo.RoomRepo.bulkInsertStatement rooms).1
      (repo.RoomRepo.bulkInsertStatement rooms).2
    simp only [repo.RoomRepo.BulkInsert, hlen, if_false]
    cases hr : exec.ExecContext (repo.RoomRepo.bulkInsertStatement rooms).1
        (repo.RoomRepo.bulkInsertStatement rooms).2 with
    | mk res exec1 =>
      rw [hr] at hlog
      cases res <;> exact hlog
  · intro roomMembers hne
    have hlen : roomMembers.length ≠ 0 := fun h => hne (List.length_eq_zero.mp h)
    have hlog := Backend.ExecContext_log exec
      (repo.RoomMemberRepo.bulkInsertStatement roomMembers).1
      (repo.RoomMemberRepo.bulkInsertStatement roomMembers).2
    simp only [repo.RoomMemberRepo.BulkInsert, hlen, if_false]
    cases hr : exec.ExecContext (repo.RoomMemberRepo.bulkInsertStatement roomMembers).1
        (repo.RoomMemberRepo.bulkInsertStatement roomMembers).2 with
    | mk res exec1 =>
      rw [hr] at hlog
      cases res <;> exact hlog

/-- Witness for C18: inserting the three fixture users issues one statement. -/
theorem C18_bulk_insert_statements_witness :
    (repo.UserRepo.BulkInsert fixtureBackend fixtureBackend.users).2.log =
      fixtureBackend.log ++
        [Statement.ExecContext (repo.UserRepo.bulkInsertStatement fixtureBackend.users).1
          (repo.UserRepo.bulkInsertStatement fixtureBackend.users).2] :=
  (C18_bulk_insert_statements fixtureBackend).2.1 fixtureBackend.users (by decide)

/-- Claim C19, evaluated on the code.  For every input list of `n` entities the
statement of each `BulkInsert` has `n` placeholder groups after `VALUES`, five
named columns, and `5 * n` arguments, the entities' column values in input
order.  For users and rooms the text has `5 * n` placeholders; for room
members each group is `(?, ?, ?, ?, ?, ?)`, so the text has `6 * n`
placeholders against `5 * n` arguments: for one room member, 6 against 5. -/
theorem C19_bulk_insert_placeholders :
    (∀ users : List models.User,
      (insertValues (repo.UserRepo.bulkInsertStatement users).1).map
          (fun v => v.toList.count '(') = some users.length ∧
      placeholderCount (repo.UserRepo.bulkInsertStatement users).1 = 5 * users.length ∧
      (repo.UserRepo.bulkInsertStatement users).2.length = 5 * users.length ∧
      (insertColumns (repo.UserRepo.bulkInsertStatement users).1).length = 5 ∧
      (repo.UserRepo.bulkInsertStatement users).2 = (users.map fun user =>
        [Value.uint64 user.ID, .string user.Username, .nullString user.DisplayName,
          .nullString user.Gender, .nullTime user.CreatedAt]).flatten) ∧
    (∀ rooms : List models.Room,
      (insertValues (repo.RoomRepo.bulkInsertStatement rooms).1).map
          (fun v => v.toList.count '(') = some rooms.length ∧
      placeholderCount (repo.RoomRepo.bulkInsertStatement rooms).1 = 5 * rooms.length ∧
      (repo.RoomRepo.bulkInsertStatement rooms).2.length = 5 * rooms.length ∧
      (insertColumns (repo.RoomRepo.bulkInsertStatement rooms).1).length = 5 ∧
      (repo.RoomRepo.bulkInsertStatement rooms).2 = (rooms.map fun room =>
        [Value.uint64 room.ID, .string room.Name, .uint64 room.CreatedBy,
          .nullBool room.IsActive, .nullTime room.CreatedAt]).flatten) ∧
    (∀ roomMembers : List models.RoomMember,
      (insertValues (repo.RoomMemberRepo.bulkInsertStatement roomMembers).1).map
          (fun v => v.toList.count '(') = some roomMembers.length ∧
      placeholderCount (repo.RoomMemberRepo.bulkInsertStatement roomMembers).1 =
        6 * roomMembers.length ∧
      (repo.RoomMemberRepo.bulkInsertStatement roomMembers).2.length =
        5 * roomMembers.length ∧
      (insertColumns (repo.RoomMemberRepo.bulkInsertStatement roomMembers).1).length = 5 ∧
      (repo.RoomMemberRepo.bulkInsertStatement roomMembers).2 =
        (roomMembers.map fun roomMember =>
          [Value.uint64 roomMember.ID, .uint64 roomMember.RoomID, .uint64 roomMember.UserID,
            .nullTime roomMember.JoinedAt, .nullTime roomMember.LeftAt]).flatten) ∧
    (placeholderCount (repo.RoomMemberRepo.bulkInsertStatement [fixtureRoomMember]).1 = 6 ∧
      (repo.RoomMemberRepo.bulkInsertStatement [fixtureRoomMember]).2.length = 5) := by
  refine ⟨?_, ?_, ?_, by decide, by decide⟩
  · intro users
    obtain ⟨h1, h2, h3, h4⟩ := repo.UserRepo.users_statement_facts users
    exact ⟨h1, h2, h3, by rw [repo.UserRepo.users_insertColumns_eq]; rfl, h4⟩
  · intro rooms
    obtain ⟨h1, h2, h3, h4⟩ := repo.RoomRepo.rooms_statement_facts rooms
    exact ⟨h1, h2, h3, by rw [repo.RoomRepo.rooms_insertColumns_eq]; rfl, h4⟩
  · intro roomMembers
    obtain ⟨h1, h2, h3, h4⟩ := repo.RoomMemberRepo.members_statement_facts roomMembers
    exact ⟨h1, h2, h3, by rw [repo.RoomMemberRepo.members_insertColumns_eq]; rfl, h4⟩

/-- Claim C20, evaluated on the code.  The statement of `UserRepo.BulkInsert`
names the table `users` and that of `RoomRepo.BulkInsert` the table `rooms`,
for every input; the statement of `RoomMemberRepo.BulkInsert` names the table
`room_member`, which is not the `room_members` table of the schema. -/
theorem C20_bulk_insert_tables :
    (∀ users : List models.User,
      insertTable (repo.UserRepo.bulkInsertStatement users).1 = some "users") ∧
    (∀ rooms : List models.Room,
      insertTable (repo.RoomRepo.bulkInsertStatement rooms).1 = some "rooms") ∧
    (∀ roomMembers : List models.RoomMember,
      insertTable (repo.RoomMemberRepo.bulkInsertStatement roomMembers).1 =
        some "room_member") ∧
    insertTable (repo.RoomMemberRepo.bulkInsertStatement [fixtureRoomMember]).1 ≠
      some "room_members" :=
  ⟨repo.UserRepo.users_insertTable_eq, repo.RoomRepo.rooms_insertTable_eq,
    repo.RoomMemberRepo.members_insertTable_eq, by decide⟩

/-- Claim C21.  The text of the statement that `UserRepo.BulkInsert` and
`RoomRepo.BulkInsert` build is the same for any two input lists of the same
length: it depends on the number of entities only.  The field values are
handed on in the argument list, five per entity in input order. -/
theorem C21_bulk_insert_text :
    (∀ us vs : List models.User, us.length = vs.length →
      (repo.UserRepo.bulkInsertStatement us).1 = (repo.UserRepo.bulkInsertStatement vs).1) ∧
    (∀ rs ss : List models.Room, rs.length = ss.length →
      (repo.RoomRepo.bulkInsertStatement rs).1 = (repo.RoomRepo.bulkInsertStatement ss).1) ∧
    (∀ us : List models.User, (repo.UserRepo.bulkInsertStatement us).2 = (us.map fun user =>
      [Value.uint64 user.ID, .string user.Username, .nullString user.DisplayName,
        .nullString user.Gender, .nullTime user.CreatedAt]).flatten) ∧
    (∀ rs : List models.Room, (repo.RoomRepo.bulkInsertStatement rs).2 = (rs.map fun room =>
      [Value.uint64 room.ID, .string room.Name, .uint64 room.CreatedBy,
        .nullBool room.IsActive, .nullTime room.CreatedAt]).flatten) := by
  refine ⟨?_, ?_, fun us => (repo.UserRepo.users_statement_facts us).2.2.2,
    fun rs => (repo.RoomRepo.rooms_statement_facts rs).2.2.2⟩
  · intro us vs h
    simp only [repo.UserRepo.bulkInsertStatement, List.map_const', h]
  · intro rs ss h
    simp only [repo.RoomRepo.bulkInsertStatement, List.map_const', h]

/-- Witness for C21: two different lists of three users give the same text. -/
theorem C21_bulk_insert_text_witness :
    (repo.UserRepo.bulkInsertStatement fixtureBackend.users).1 =
      (repo.UserRepo.bulkInsertStatement
        [fixtureUser 7 "x" "other", fixtureUser 8 "'; DROP TABLE users; --" "male",
          fixtureUser 9 "z" "female"]).1 :=
  C21_bulk_insert_text.1 _ _ rfl

/-- Counterexample to C22 as stated: two user filters with the same present
fields (only `OrderBy`) and no `IDs` give different clause texts, because the
value of `OrderBy` is the text of the sort clause; likewise the value of
`Sort` for two room filters. -/
theorem C22_counterexample :
    users.Store.queryMods { users.UserQueryFilter.zero with OrderBy := .From "username" } =
      .ok [QueryMod.OrderBy "username ASC"] ∧
    users.Store.queryMods { users.UserQueryFilter.zero with OrderBy := .From "created_at" } =
      .ok [QueryMod.OrderBy "created_at ASC"] ∧
    [QueryMod.OrderBy "username ASC"].map QueryMod.clauseText ≠
      [QueryMod.OrderBy "created_at ASC"].map QueryMod.clauseText ∧
    rooms.Store.queryMods { rooms.RoomQueryFilter.zero with
        OrderBy := .From "name", SortDir := .From "DESC" } =
      .ok [QueryMod.OrderBy "name DESC"] ∧
    rooms.Store.queryMods { rooms.RoomQueryFilter.zero with
        OrderBy := .From "name", SortDir := .From "ASC" } =
      .ok [QueryMod.OrderBy "name ASC"] := by
  refine ⟨by decide, by decide, by decide, by decide, by decide⟩

/-- Claim C22, amended.  For two `UserQueryFilter`s (and for two
`RoomQueryFilter`s) with the same present fields, both with or both without
`IDs`, and, when `OrderBy` is present, the same `OrderBy` and `Sort` values,
the clause texts built by `Users` (`Rooms`) are identical.  The text of every
clause other than the sort clause is one of the fixed predicate texts of the
entity, so the values of those fields reach the query as bound arguments
only; the sort clause is the text made of the `OrderBy` and `Sort` values. -/
theorem C22_clause_texts :
    (∀ (f g : users.UserQueryFilter) (mf mg : List QueryMod),
      users.Store.queryMods f = .ok mf → users.Store.queryMods g = .ok mg →
      (f.IDs = [] ↔ g.IDs = []) →
      f.Username.Valid = g.Username.Valid → f.Email.Valid = g.Email.Valid →
      f.Gender.Valid = g.Gender.Valid → f.OrderBy.Valid = g.OrderBy.Valid →
      f.SortDir.Valid = g.SortDir.Valid →
      f.Limit.Valid = g.Limit.Valid → f.Offset.Valid = g.Offset.Valid →
      (f.OrderBy.Valid = true → f.OrderBy.StringVal = g.OrderBy.StringVal ∧
        (f.SortDir.Valid = true → f.SortDir.StringVal = g.SortDir.StringVal)) →
      mf.map QueryMod.clauseText = mg.map QueryMod.clauseText) ∧
    (∀ (f g : rooms.RoomQueryFilter) (mf mg : List QueryMod),
      rooms.Store.queryMods f = .ok mf → rooms.Store.queryMods g = .ok mg →
      (f.IDs = [] ↔ g.IDs = []) →
      f.Name.Valid = g.Name.Valid → f.CreatedBy.Valid = g.CreatedBy.Valid →
      f.IsActive.Valid = g.IsActive.Valid → f.CreatedAt.Valid = g.CreatedAt.Valid →
      f.OrderBy.Valid = g.OrderBy.Valid → f.SortDir.Valid = g.SortDir.Valid →
      f.Limit.Valid = g.Limit.Valid → f.Offset.Valid = g.Offset.Valid →
      (f.OrderBy.Valid = true → f.OrderBy.StringVal = g.OrderBy.StringVal ∧
        (f.SortDir.Valid = true → f.SortDir.StringVal = g.SortDir.StringVal)) →
      mf.map QueryMod.clauseText = mg.map QueryMod.clauseText) ∧
    (∀ (f : users.UserQueryFilter) (mf : List QueryMod), users.Store.queryMods f = .ok mf →
      (∀ m ∈ mf, m.isOrderBy = false → ∀ t, m.clauseText = some t →
        t ∈ ["id IN ?", "username = ?", "email = ?", "gender = ?"]) ∧
      (∀ m ∈ mf, m.isOrderBy = true → m = QueryMod.OrderBy (f.OrderBy.StringVal ++ " " ++
        (if f.SortDir.Valid then f.SortDir.StringVal else "ASC")))) ∧
    (∀ (f : rooms.RoomQueryFilter) (mf : List QueryMod), rooms.Store.queryMods f = .ok mf →
      (∀ m ∈ mf, m.isOrderBy = false → ∀ t, m.clauseText = some t →
        t ∈ ["id IN ?", "name = ?", "created_by = ?", "is_active = ?", "created_at = ?"]) ∧
      (∀ m ∈ mf, m.isOrderBy = true → m = QueryMod.OrderBy (f.OrderBy.StringVal ++ " " ++
        (if f.SortDir.Valid then f.SortDir.StringVal else "ASC")))) := by
  refine ⟨?_, ?_, ?_, ?_⟩
  · intro f g mf mg hf hg hI h1 h2 h3 h4 h5 h6 h7 h8
    rw [users_clauseTexts_eq f mf hf, users_clauseTexts_eq g mg hg]
    exact users_clauseTexts_congr f g hI h1 h2 h3 h4 h5 h6 h7 h8
  · intro f g mf mg hf hg hI h1 h2 h3 h3b h4 h5 h6 h7 h8
    rw [rooms_clauseTexts_eq f mf hf, rooms_clauseTexts_eq g mg hg]
    exact rooms_clauseTexts_congr f g hI h1 h2 h3 h3b h4 h5 h6 h7 h8
  · intro f mf hf
    exact ⟨fun m hm ho t ht => users_clause_fixed f mf hf m hm ho t ht,
      fun m hm ho => users_clause_orderBy f mf hf m hm ho⟩
  · intro f mf hf
    exact ⟨fun m hm ho t ht => rooms_clause_fixed f mf hf m hm ho t ht,
      fun m hm ho => rooms_clause_orderBy f mf hf m hm ho⟩

/-- Witness for C22: two user filters with different values in the same
fields, sorted alike, give the same clause texts. -/
theorem C22_clause_texts_witness :
    [QueryMod.WhereIn "id IN ?" [.uint64 1, .uint64 2], QueryMod.Where "gender = ?" (.string "male"),
        QueryMod.OrderBy "username DESC", QueryMod.Limit 5].map QueryMod.clauseText =
      [QueryMod.WhereIn "id IN ?" [.uint64 3], QueryMod.Where "gender = ?" (.string "x' OR 1=1"),
        QueryMod.OrderBy "username DESC", QueryMod.Limit 7].map QueryMod.clauseText :=
  C22_clause_texts.1
    { users.UserQueryFilter.zero with
      IDs := ["1", "2"], Gender := .From "male", OrderBy := .From "username",
      SortDir := .From "DESC", Limit := .From 5 }
    { users.UserQueryFilter.zero with
      IDs := ["3"], Gender := .From "x' OR 1=1", OrderBy := .From "username",
      SortDir := .From "DESC", Limit := .From 7 }
    _ _ (by decide) (by decide) (by decide) rfl rfl rfl rfl rfl rfl rfl (by decide)

/-- Claim C23.  A failure of the backing store is never suppressed.  Once the
call reaches the execution handle: if the handle answers with an error,
`Users`, `Rooms` and `RoomMembers` return no result and that error wrapped
("query users", "query rooms", "query room members"), both `Update`s return
that error, and each `BulkInsert` returns it wrapped; if the handle succeeds,
none of them returns an error. -/
theorem C23_failures_propagate (exec : Backend) :
    (∀ (filter : users.UserQueryFilter) (mods : List QueryMod),
      users.Store.queryMods filter = .ok mods →
      (∀ e exec1, exec.UsersAll mods = (.error e, exec1) →
        users.Store.Users exec filter = (.error (.wrapf "query users" e), exec1)) ∧
      (∀ rows exec1, exec.UsersAll mods = (.ok rows, exec1) →
        users.Store.Users exec filter = (.ok (users.dbUsersToUsers rows), exec1))) ∧
    (∀ (filter : rooms.RoomQueryFilter) (mods : List QueryMod),
      rooms.Store.queryMods filter = .ok mods →
      (∀ e exec1, exec.RoomsAll mods = (.error e, exec1) →
        rooms.Store.Rooms exec filter = (.error (.wrapf "query rooms" e), exec1)) ∧
      (∀ rows exec1, exec.RoomsAll mods = (.ok rows, exec1) →
        rooms.Store.Rooms exec filter = (.ok (rooms.dbRoomsToRooms rows), exec1))) ∧
    (∀ (filter : room_members.RoomMemberQueryFilter) (mods : List QueryMod),
      room_members.Store.queryMods filter = .ok mods →
      (∀ e exec1, exec.RoomMembersAll mods = (.error e, exec1) →
        room_members.Store.RoomMembers exec filter =
          (.error (.wrapf "query room members" e), exec1)) ∧
      (∀ rows exec1, exec.RoomMembersAll mods = (.ok rows, exec1) →
        room_members.Store.RoomMembers exec filter =
          (.ok (room_members.dbRoomMembersToRoomMembers rows), exec1))) ∧
    (∀ (update : users.UpdateUser) (ids : List Value),
      update.IDs ≠ [] → users.Store.updateCols update ≠ [] →
      parseIDs "invalid user ID " update.IDs = .ok ids →
      (∀ e exec1, exec.UsersUpdateAll [QueryMod.WhereIn "id IN ?" ids]
          (users.Store.updateCols update) = (.error e, exec1) →
        users.Store.Update exec update = (some e, exec1)) ∧
      (∀ n exec1, exec.UsersUpdateAll [QueryMod.WhereIn "id IN ?" ids]
          (users.Store.updateCols update) = (.ok n, exec1) →
        users.Store.Update exec update = (none, exec1))) ∧
    (∀ (update : rooms.UpdateRoom) (cols : Cols) (ids : List Value),
      update.IDs ≠ [] → rooms.Store.updateCols update = .ok cols → cols ≠ [] →
      parseIDs "invalid room ID " update.IDs = .ok ids →
      (∀ e exec1, exec.RoomsUpdateAll [QueryMod.WhereIn "id IN ?" ids] cols = (.error e, exec1) →
        rooms.Store.Update exec update = (some e, exec1)) ∧
      (∀ n exec1, exec.RoomsUpdateAll [QueryMod.WhereIn "id IN ?" ids] cols = (.ok n, exec1) →
        rooms.Store.Update exec update = (none, exec1))) ∧
    (∀ us : List models.User, us ≠ [] →
      (∀ e exec1, exec.ExecContext (repo.UserRepo.bulkInsertStatement us).1
          (repo.UserRepo.bulkInsertStatement us).2 = (.error e, exec1) →
        repo.UserRepo.BulkInsert exec us = (some (.wrapf "bulk insert users" e), exec1)) ∧
      (∀ exec1, exec.ExecContext (repo.UserRepo.bulkInsertStatement us).1
          (repo.UserRepo.bulkInsertStatement us).2 = (.ok (), exec1) →
        repo.UserRepo.BulkInsert exec us = (none, exec1))) ∧
    (∀ rs : List models.Room, rs ≠ [] →
      (∀ e exec1, exec.ExecContext (repo.RoomRepo.bulkInsertStatement rs).1
          (repo.RoomRepo.bulkInsertStatement rs).2 = (.error e, exec1) →
        repo.RoomRepo.BulkInsert exec rs = (some (.wrapf "bulk insert rooms" e), exec1)) ∧
      (∀ exec1, exec.ExecContext (repo.RoomRepo.bulkInsertStatement rs).1
          (repo.RoomRepo.bulkInsertStatement rs).2 = (.ok (), exec1) →
        repo.RoomRepo.BulkInsert exec rs = (none, exec1))) ∧
    (∀ ms : List models.RoomMember, ms ≠ [] →
      (∀ e exec1, exec.ExecContext (repo.RoomMemberRepo.bulkInsertStatement ms).1
          (repo.RoomMemberRepo.bulkInsertStatement ms).2 = (.error e, exec1) →
        repo.RoomMemberRepo.BulkInsert exec ms =
          (some (.wrapf "insert room member" e), exec1)) ∧
      (∀ exec1, exec.ExecContext (repo.RoomMemberRepo.bulkInsertStatement ms).1
          (repo.RoomMemberRepo.bulkInsertStatement ms).2 = (.ok (), exec1) →
        repo.RoomMemberRepo.BulkInsert exec ms = (none, exec1))) := by
  refine ⟨?_, ?_, ?_, ?_, ?_, ?_, ?_, ?_⟩
  · intro filter mods hq
    exact ⟨fun e exec1 h => by simp only [users.Store.Users, hq, h],
      fun rows exec1 h => by simp only [users.Store.Users, hq, h]⟩
  · intro filter mods hq
    exact ⟨fun e exec1 h => by simp only [rooms.Store.Rooms, hq, h],
      fun rows exec1 h => by simp only [rooms.Store.Rooms, hq, h]⟩
  · intro filter mods hq
    exact ⟨fun e exec1 h => by simp only [room_members.Store.RoomMembers, hq, h],
      fun rows exec1 h => by simp only [room_members.Store.RoomMembers, hq, h]⟩
  · intro update ids hne hcols hp
    have hlen : update.IDs.length ≠ 0 := fun h => hne (List.length_eq_zero.mp h)
    have hclen : (users.Store.updateCols update).length ≠ 0 :=
      fun h => hcols (List.length_eq_zero.mp h)
    exact ⟨fun e exec1 h => by simp only [users.Store.Update, hlen, hclen, if_false, hp, h],
      fun n exec1 h => by simp only [users.Store.Update, hlen, hclen, if_false, hp, h]⟩
  · intro update cols ids hne hcols hcne hp
    have hlen : update.IDs.length ≠ 0 := fun h => hne (List.length_eq_zero.mp h)
    have hclen : cols.length ≠ 0 := fun h => hcne (List.length_eq_zero.mp h)
    exact ⟨fun e exec1 h => by
        simp only [rooms.Store.Update, hlen, hcols, hclen, if_false, hp, h],
      fun n exec1 h => by
        simp only [rooms.Store.Update, hlen, hcols, hclen, if_false, hp, h]⟩
  · intro us hne
    have hlen : us.length ≠ 0 := fun h => hne (List.length_eq_zero.mp h)
    exact ⟨fun e exec1 h => by simp only [repo.UserRepo.BulkInsert, hlen, if_false, h],
      fun exec1 h => by simp only [repo.UserRepo.BulkInsert, hlen, if_false, h]⟩
  · intro rs hne
    have hlen : rs.length ≠ 0 := fun h => hne (List.length_eq_zero.mp h)
    exact ⟨fun e exec1 h => by simp only [repo.RoomRepo.BulkInsert, hlen, if_false, h],
      fun exec1 h => by simp only [repo.RoomRepo.BulkInsert, hlen, if_false, h]⟩
  · intro ms hne
    have hlen : ms.length ≠ 0 := fun h => hne (List.length_eq_zero.mp h)
    exact ⟨fun e exec1 h => by simp only [repo.RoomMemberRepo.BulkInsert, hlen, if_false, h],
      fun exec1 h => by simp only [repo.RoomMemberRepo.BulkInsert, hlen, if_false, h]⟩

/-- Witness for C23: with the backing store unreachable, the user query, the
user update and the user bulk insert each hand the failure on. -/
theorem C23_failures_propagate_witness :
    users.Store.Users fixtureDown users.UserQueryFilter.zero =
      (.error (.wrapf "query users" (.driver "connection refused")),
        { fixtureDown with log := [Statement.UsersAll []] }) ∧
    users.Store.Update fixtureDown ⟨["1"], .From "al", .unset, .unset⟩ =
      (some (.driver "connection refused"),
        { fixtureDown with log := [Statement.UsersUpdateAll
          [QueryMod.WhereIn "id IN ?" [.uint64 1]] [("username", .string "al")]] }) ∧
    repo.UserRepo.BulkInsert fixtureDown [fixtureUser 9 "zed" "male"] =
      (some (.wrapf "bulk insert users" (.driver "connection refused")),
        { fixtureDown with log := [Statement.ExecContext
          (repo.UserRepo.bulkInsertStatement [fixtureUser 9 "zed" "male"]).1
          (repo.UserRepo.bulkInsertStatement [fixtureUser 9 "zed" "male"]).2] }) :=
  ⟨((C23_failures_propagate fixtureDown).1 users.UserQueryFilter.zero [] rfl).1 _ _ rfl,
    ((C23_failures_propagate fixtureDown).2.2.2.1 ⟨["1"], .From "al", .unset, .unset⟩
      [.uint64 1] (by decide) (by decide) (by decide)).1 _ _ rfl,
    ((C23_failures_propagate fixtureDown).2.2.2.2.2.1 [fixtureUser 9 "zed" "male"]
      (by decide)).1 _ _ rfl⟩

/-- Claim C24.  For a `RoomQueryFilter` with `CreatedBy` present: when the
owner identifier is not an unsigned 64-bit decimal number, `Store.Rooms`
returns no result and an error and leaves the handle untouched (no query is
issued); with valid `IDs` the error is the invalid-created_by error of the
parse.  When the clause list is built, the identifier is valid and the
predicate `created_by = ?` is bound to the number it denotes, and that list is
the query issued.  `Store.Update` on rooms with non-empty `IDs` and a
malformed `CreatedBy` returns the parse error and leaves the handle
untouched. -/
theorem C24_rooms_created_by (exec : Backend) :
    (∀ filter : rooms.RoomQueryFilter, filter.CreatedBy.Valid = true →
      isUint64Decimal filter.CreatedBy.StringVal = false →
      (∃ e, rooms.Store.Rooms exec filter = (.error e, exec)) ∧
      ((∀ s ∈ filter.IDs, isUint64Decimal s = true) →
        ∃ err, ParseUint filter.CreatedBy.StringVal = .error err ∧
          rooms.Store.Rooms exec filter =
            (.error (.wrapf ("invalid created_by ID " ++ filter.CreatedBy.StringVal) err),
              exec))) ∧
    (∀ (filter : rooms.RoomQueryFilter) (mods : List QueryMod),
      filter.CreatedBy.Valid = true → rooms.Store.queryMods filter = .ok mods →
      isUint64Decimal filter.CreatedBy.StringVal = true ∧
      ParseUint filter.CreatedBy.StringVal = .ok (idValue filter.CreatedBy.StringVal) ∧
      QueryMod.Where "created_by = ?" (.uint64 (idValue filter.CreatedBy.StringVal)) ∈ mods ∧
      (∀ v, QueryMod.Where "created_by = ?" v ∈ mods →
        v = .uint64 (idValue filter.CreatedBy.StringVal)) ∧
      (rooms.Store.Rooms exec filter).2.log = exec.log ++ [Statement.RoomsAll mods]) ∧
    (∀ update : rooms.UpdateRoom, update.IDs ≠ [] → update.CreatedBy.Valid = true →
      isUint64Decimal update.CreatedBy.StringVal = false →
      ∃ err, ParseUint update.CreatedBy.StringVal = .error err ∧
        rooms.Store.Update exec update =
          (some (.wrapf ("invalid created_by ID " ++ update.CreatedBy.StringVal) err),
            exec)) := by
  refine ⟨?_, ?_, ?_⟩
  · intro filter hv hbad
    obtain ⟨⟨e, he⟩, h2⟩ := rooms_queryMods_bad_owner filter hv hbad
    refine ⟨⟨e, by simp only [rooms.Store.Rooms, he]⟩, fun hids => ?_⟩
    obtain ⟨err, hp, hq⟩ := h2 hids
    exact ⟨err, hp, by simp only [rooms.Store.Rooms, hq]⟩
  · intro filter mods hv hq
    obtain ⟨hids, hcb⟩ := rooms_queryMods_ok_inv filter mods hq
    have hclosed := rooms_queryMods_closed filter hids hcb
    rw [hq] at hclosed
    have hm := Except.ok.inj hclosed
    refine ⟨hcb hv, (ParseUint_ok_iff _ _).2 ⟨hcb hv, rfl⟩, ?_, ?_, ?_⟩
    · rw [hm]
      simp [hv]
    · intro v hmem
      rw [hm] at hmem
      simp only [hv, if_true, List.mem_append, List.mem_singleton, List.mem_ite_nil_right,
        List.mem_ite_nil_left] at hmem
      rcases hmem with ((((((h | h) | h) | h) | h) | h) | h) | h <;>
        first
        | (cases h; rfl)
        | (obtain ⟨_, h⟩ := h; cases h)
        | (obtain ⟨_, h⟩ := h; exact absurd (QueryMod.Where.inj h).1 (by decide))
    · simp only [rooms.Store.Rooms, hq, Backend.RoomsAll]
      cases exec.fault (Statement.RoomsAll mods) with
      | some e => rfl
      | none =>
        simp only []
        cases selectRows models.Room.whereClause models.Room.order mods exec.rooms <;> rfl
  · intro update hne hv hbad
    obtain ⟨err, hp⟩ := ParseUint_error_of_not_decimal _ hbad
    have hlen : update.IDs.length ≠ 0 := fun h => hne (List.length_eq_zero.mp h)
    refine ⟨err, hp, ?_⟩
    simp only [rooms.Store.Update, hlen, if_false, rooms_updateCols_bad_owner update hv err hp]

/-- Witness for C24: the owner "bob" is rejected without a query, the owner
"1" is bound as the number 1, and an update to the owner "bob" is rejected
without a statement. -/
theorem C24_rooms_created_by_witness :
    (∃ e, rooms.Store.Rooms fixtureBackend
      { rooms.RoomQueryFilter.zero with CreatedBy := .From "bob" } = (.error e, fixtureBackend)) ∧
    QueryMod.Where "created_by = ?" (.uint64 (idValue "1")) ∈
      [QueryMod.Where "created_by = ?" (.uint64 1)] ∧
    (∃ err, ParseUint "bob" = .error err ∧
      rooms.Store.Update fixtureBackend ⟨["1"], .unset, .unset, .unset, .From "bob"⟩ =
        (some (.wrapf ("invalid created_by ID " ++ "bob") err), fixtureBackend)) :=
  ⟨((C24_rooms_created_by fixtureBackend).1
      { rooms.RoomQueryFilter.zero with CreatedBy := .From "bob" } rfl (by decide)).1,
    ((C24_rooms_created_by fixtureBackend).2.1
      { rooms.RoomQueryFilter.zero with CreatedBy := .From "1" }
      [QueryMod.Where "created_by = ?" (.uint64 1)] rfl (by decide)).2.2.1,
    (C24_rooms_created_by fixtureBackend).2.2
      ⟨["1"], .unset, .unset, .unset, .From "bob"⟩ (by decide) rfl (by decide)⟩

/-- Claim C25, evaluated on the code.  `Store.RoomMembers` parses the entries
of `IDs` only.  A present `RoomID` or `UserID` is bound as the string it is:
the built predicates are `room_id = ?` and `user_id = ?` with a string
argument, whatever the string.  With `RoomID` set to "abc", which is not a
decimal number, no identifier error is returned and the query is issued. -/
theorem C25_room_member_keys :
    (∀ filter : room_members.RoomMemberQueryFilter,
      room_members.Store.queryMods filter =
        match (if filter.IDs.length > 0 then
            (match parseIDs "invalid room member ID " filter.IDs with
              | .error e => .error e
              | .ok ids => .ok [QueryMod.WhereIn "id IN (?)" [room_members.idsSlice ids]])
            else (.ok [] : Except GoError (List QueryMod))) with
        | .error e => .error e
        | .ok idMods => .ok (idMods
            ++ (if filter.RoomID.Valid then
                  [QueryMod.Where "room_id = ?" (.string filter.RoomID.StringVal)] else [])
            ++ (if filter.UserID.Valid then
                  [QueryMod.Where "user_id = ?" (.string filter.UserID.StringVal)] else [])
            ++ (if filter.JoinedAt.Valid then
                  [QueryMod.WhereIn "joined_at = ?" [.time filter.JoinedAt.TimeVal]] else [])
            ++ (if filter.LeftAt.Valid then
                  [QueryMod.WhereIn "left_at = ?" [.time filter.LeftAt.TimeVal]] else []))) ∧
    isUint64Decimal "abc" = false ∧
    room_members.Store.queryMods
        { room_members.RoomMemberQueryFilter.zero with RoomID := .From "abc" } =
      .ok [QueryMod.Where "room_id = ?" (.string "abc")] ∧
    (room_members.Store.RoomMembers fixtureMembers
        { room_members.RoomMemberQueryFilter.zero with RoomID := .From "abc" }).2.log =
      [Statement.RoomMembersAll [QueryMod.Where "room_id = ?" (.string "abc")]] ∧
    room_members.Store.queryMods
        { room_members.RoomMemberQueryFilter.zero with UserID := .From "3" } =
      .ok [QueryMod.Where "user_id = ?" (.string "3")] :=
  ⟨room_members_queryMods_eq, by decide, by decide, by decide, by decide⟩

/-- Claim C26, evaluated on the code.  For a non-empty list of valid
identifiers `Store.Users` and `Store.Rooms` build `id IN ?` with one numeric
argument per identifier, in list order.  `Store.RoomMembers` builds a clause
with another text, `id IN (?)`, and a single argument: the whole slice of
parsed identifiers. -/
theorem C26_room_member_ids :
    (∀ (n : Nat) (ns : List Nat),
      room_members.Store.queryMods { room_members.RoomMemberQueryFilter.zero with
          IDs := (n :: ns).map fun k => formatUint (k % 2 ^ 64) } =
        .ok [QueryMod.WhereIn "id IN (?)" [Value.slice ((n :: ns).map fun k => k % 2 ^ 64)]] ∧
      users.Store.queryMods { users.UserQueryFilter.zero with
          IDs := (n :: ns).map fun k => formatUint (k % 2 ^ 64) } =
        .ok [QueryMod.WhereIn "id IN ?" ((n :: ns).map fun k => Value.uint64 (k % 2 ^ 64))] ∧
      rooms.Store.queryMods { rooms.RoomQueryFilter.zero with
          IDs := (n :: ns).map fun k => formatUint (k % 2 ^ 64) } =
        .ok [QueryMod.WhereIn "id IN ?" ((n :: ns).map fun k => Value.uint64 (k % 2 ^ 64))]) ∧
    room_members.Store.queryMods
        { room_members.RoomMemberQueryFilter.zero with IDs := ["1", "2"] } =
      .ok [QueryMod.WhereIn "id IN (?)" [Value.slice [1, 2]]] ∧
    users.Store.queryMods { users.UserQueryFilter.zero with IDs := ["1", "2"] } =
      .ok [QueryMod.WhereIn "id IN ?" [.uint64 1, .uint64 2]] ∧
    (room_members.Store.RoomMembers fixtureMembers
        { room_members.RoomMemberQueryFilter.zero with IDs := ["1"] }).2.log =
      [Statement.RoomMembersAll [QueryMod.WhereIn "id IN (?)" [Value.slice [1]]]] := by
  refine ⟨fun n ns => ⟨?_, ?_, ?_⟩, by decide, by decide, by decide⟩
  · rw [room_members_queryMods_eq]
    simp only [room_members.RoomMemberQueryFilter.zero, List.length_map, List.length_cons,
      gt_iff_lt, Nat.zero_lt_succ, if_true, parseIDs_formatUint]
    rw [idsSlice_map (fun k => k % 2 ^ 64) (n :: ns)]
    rfl
  · rw [users.Store.queryMods_eq]
    simp only [users.UserQueryFilter.zero, List.length_map, List.length_cons,
      gt_iff_lt, Nat.zero_lt_succ, if_true, parseIDs_formatUint]
    rfl
  · unfold rooms.Store.queryMods
    simp only [rooms.RoomQueryFilter.zero, List.length_map, List.length_cons,
      gt_iff_lt, Nat.zero_lt_succ, if_true, parseIDs_formatUint]
    rfl

/-- Claim C27.  The files `runUpMigrations` works on are the `*.up.sql`
entries of the directory in ascending lexicographic order of their names;
it executes them in that order, all of them when the step is not positive and
the first `step` of them (all, when there are fewer) when the step is
positive.  The files `runDownMigrations` works on are the `*.down.sql`
entries in descending order; it executes the first of them when the step is
0 and the first `step` of them when the step is positive.  Executing a list
of files stops at the first file that fails: the files applied are the ones
before it, the run is fatal at that file, and a run over files that all
succeed applies them all. -/
theorem C27_migration_order (env : cmd.MigrationEnv) (dir : String) (step : Int) :
    (cmd.sortStrings (cmd.Glob env dir ".up.sql") =
        (cmd.sortStrings (env.entries.filter fun name => cmd.HasSuffix name ".up.sql")).map
          (fun name => dir ++ "/" ++ name) ∧
      (cmd.sortStrings (env.entries.filter fun name => cmd.HasSuffix name ".up.sql")).Sorted
        (fun a b => a.toList ≤ b.toList) ∧
      (cmd.sortStrings (env.entries.filter fun name => cmd.HasSuffix name ".up.sql")).Perm
        (env.entries.filter fun name => cmd.HasSuffix name ".up.sql")) ∧
    (cmd.sortStringsReverse (cmd.Glob env dir ".down.sql") =
        (cmd.sortStringsReverse
          (env.entries.filter fun name => cmd.HasSuffix name ".down.sql")).map
          (fun name => dir ++ "/" ++ name) ∧
      (cmd.sortStringsReverse
        (env.entries.filter fun name => cmd.HasSuffix name ".down.sql")).Sorted
        (fun a b => b.toList ≤ a.toList) ∧
      (cmd.sortStringsReverse
        (env.entries.filter fun name => cmd.HasSuffix name ".down.sql")).Perm
        (env.entries.filter fun name => cmd.HasSuffix name ".down.sql")) ∧
    cmd.runUpMigrations env dir step =
      cmd.runPlan env
        (if step > 0 then (cmd.sortStrings (cmd.Glob env dir ".up.sql")).take step.toNat
          else cmd.sortStrings (cmd.Glob env dir ".up.sql")) [] [] ∧
    cmd.runDownMigrations env dir step =
      cmd.runPlan env
        ((cmd.sortStringsReverse (cmd.Glob env dir ".down.sql")).take
          (if step = 0 then 1 else step.toNat)) [] [] ∧
    (∀ plan : List String,
      (cmd.runPlan env plan [] []).applied <+: plan ∧
      ((cmd.runPlan env plan [] []).fatal = none →
        (cmd.runPlan env plan [] []).applied = plan) ∧
      (∀ f, (cmd.runPlan env plan [] []).fatal = some f →
        ((cmd.runPlan env plan [] []).applied ++ [f]) <+: plan ∧
        ((∃ e, env.readFile f = .error e) ∨
          ∃ d c e, env.readFile f = .ok c ∧ env.exec d c = some e)) ∧
      ((∀ f ∈ plan, ∃ c, env.readFile f = .ok c) → (∀ d c, env.exec d c = none) →
        cmd.runPlan env plan [] [] = ⟨plan, none⟩)) := by
  refine ⟨⟨glob_sorted env dir ".up.sql", sortStrings_sorted _⟩,
    ⟨glob_sorted_reverse env dir ".down.sql", sortStringsReverse_sorted _⟩,
    runUpMigrations_eq env dir step, runDownMigrations_eq env dir step, fun plan => ?_⟩
  obtain ⟨p, h1, h2, h3, h4⟩ := runPlan_spec env plan [] []
  rw [List.nil_append] at h1
  refine ⟨h1 ▸ h2, fun hf => h1 ▸ h3 hf, fun f hf => ?_, fun hread hexec => ?_⟩
  · rw [h1]
    exact h4 f hf
  · rw [runPlan_all env plan hread hexec [] [], List.nil_append]

/-- Witness for C27: in the fixture directory an `up` run of all migrations
applies the first two and is fatal at the third, whose content the database
rejects; a `down` run with step 0 rolls back the last migration only. -/
theorem C27_migration_order_witness :
    cmd.runUpMigrations fixtureMigrations "db" 0 =
      ⟨["db/001_users.up.sql", "db/002_rooms.up.sql"], some "db/003_bad.up.sql"⟩ ∧
    (["db/001_users.up.sql", "db/002_rooms.up.sql"] ++ ["db/003_bad.up.sql"]) <+:
      ["db/001_users.up.sql", "db/002_rooms.up.sql", "db/003_bad.up.sql"] ∧
    cmd.runUpMigrations fixtureMigrations "db" 1 = ⟨["db/001_users.up.sql"], none⟩ ∧
    cmd.runUpMigrations fixtureMigrations "db" 5 =
      ⟨["db/001_users.up.sql", "db/002_rooms.up.sql"], some "db/003_bad.up.sql"⟩ ∧
    cmd.runDownMigrations fixtureMigrations "db" 0 = ⟨["db/003_bad.down.sql"], none⟩ ∧
    cmd.runDownMigrations fixtureMigrations "db" 2 =
      ⟨["db/003_bad.down.sql", "db/002_rooms.down.sql"], none⟩ :=
  ⟨(C27_migration_order fixtureMigrations "db" 0).2.2.1.trans (by decide),
    (((C27_migration_order fixtureMigrations "db" 0).2.2.2.2
      ["db/001_users.up.sql", "db/002_rooms.up.sql", "db/003_bad.up.sql"]).2.2.1
      "db/003_bad.up.sql" (by decide)).1,
    (C27_migration_order fixtureMigrations "db" 1).2.2.1.trans (by decide),
    (C27_migration_order fixtureMigrations "db" 5).2.2.1.trans (by decide),
    (C27_migration_order fixtureMigrations "db" 0).2.2.2.1.trans (by decide),
    (C27_migration_order fixtureMigrations "db" 2).2.2.2.1.trans (by decide)⟩

/-- Counterexample to C28 as stated: the line `=x` names the empty key, which
`os.Setenv` rejects, so `Load` returns an error and the line `A=1` after it
sets nothing; and a line of 65536 bytes ends the scan, so the line `A=1` after
it is not read. -/
theorem C28_counterexample :
    osenv.lineBinding "=x" = some ("", "x") ∧
    osenv.lineBinding "A=1" = some ("A", "1") ∧
    osenv.Load (.ok "=x\nA=1\n") [] =
      (some (.wrapf "error setting env variable "
        (.errorf "setenv: invalid argument")), []) ∧
    osenv.Load (.ok (String.mk (List.replicate 65536 'a' ++ '\n' :: "A=1\n".toList))) [] =
      (some (.wrapf "error reading env file" (.errorf "bufio.Scanner: token too long")), []) :=
  ⟨by decide, by decide, by decide, Load_long_line 65536 (by decide) _ _⟩

/-- Claim C28, amended.  For every content, `Load` reads the lines in order up
to the first line that reaches the token limit of the scanner (65536 bytes),
or all lines when there is none (`linesRead`).  Of the lines read, one that is
blank after trimming, starts with `#` after trimming or holds no `=` sets
nothing; every other line names one variable, with the trimmed text before
the first `=` as key and the trimmed text after it as value (`lineBinding`).
The variables are set one after the other up to the first one `os.Setenv`
rejects (an empty key, or a NUL character): there `Load` stops with the error
of that key, and that line and the later lines set nothing.  When none is
rejected all are set, and `Load` returns no error, or the read error when a
line of 65536 bytes or more stopped the reading.  In particular, for a
content without such a line in which no variable is rejected, `Load` returns
no error and has set the variable of every line.  After setting a list of
variables, the value of a key is that of its last occurrence in the list, and
a key that does not occur keeps its value. -/
theorem C28_env_file_load (content : String) (env : osenv.Environ) :
    (osenv.Load (.ok content) env).2 =
      osenv.applyBindings env
        (((osenv.linesRead content).filterMap osenv.lineBinding).takeWhile
          fun b => osenv.setenvAccepts b.1 b.2) ∧
    (osenv.Load (.ok content) env).1 =
      (match ((osenv.linesRead content).filterMap osenv.lineBinding).find?
          (fun b => !osenv.setenvAccepts b.1 b.2) with
      | some b =>
        some (.wrapf ("error setting env variable " ++ b.1) (.errorf "setenv: invalid argument"))
      | none =>
        if (osenv.rawLines content.toList []).all
            (fun l => decide (osenv.byteLen l < osenv.MaxScanTokenSize)) then none
        else some (.wrapf "error reading env file" (.errorf "bufio.Scanner: token too long"))) ∧
    ((∀ l ∈ osenv.rawLines content.toList [], osenv.byteLen l < osenv.MaxScanTokenSize) →
      osenv.linesRead content =
        (osenv.rawLines content.toList []).map (fun l => String.mk (osenv.dropCR l)) ∧
      ((∀ b ∈ ((osenv.rawLines content.toList []).map fun l =>
            String.mk (osenv.dropCR l)).filterMap osenv.lineBinding,
          osenv.setenvAccepts b.1 b.2 = true) →
        osenv.Load (.ok content) env =
          (none, osenv.applyBindings env
            (((osenv.rawLines content.toList []).map fun l =>
              String.mk (osenv.dropCR l)).filterMap osenv.lineBinding)))) ∧
    ((∃ l ∈ osenv.rawLines content.toList [], osenv.byteLen l ≥ osenv.MaxScanTokenSize) →
      (∀ b ∈ (osenv.linesRead content).filterMap osenv.lineBinding,
        osenv.setenvAccepts b.1 b.2 = true) →
      osenv.Load (.ok content) env =
        (some (.wrapf "error reading env file" (.errorf "bufio.Scanner: token too long")),
          osenv.applyBindings env ((osenv.linesRead content).filterMap osenv.lineBinding))) ∧
    (∀ (bs : List (String × String)) (k : String),
      (osenv.applyBindings env bs).get k =
        match bs.reverse.find? (fun b => b.1 == k) with
        | some b => some b.2
        | none => env.get k) := by
  obtain ⟨h1, h2⟩ := Load_spec content env
  have hacc : ∀ bs : List (String × String),
      (∀ b ∈ bs, osenv.setenvAccepts b.1 b.2 = true) →
      bs.takeWhile (fun b => osenv.setenvAccepts b.1 b.2) = bs ∧
        bs.find? (fun b => !osenv.setenvAccepts b.1 b.2) = none := by
    intro bs hall
    refine ⟨List.takeWhile_eq_self_iff.2 hall, ?_⟩
    rw [List.find?_eq_none]
    intro b hb
    simp [hall b hb]
  refine ⟨h1, h2, fun hshort => ?_, fun hlong hall => ?_,
    fun bs k => applyBindings_get bs env k⟩
  · obtain ⟨hlines, hallshort⟩ := linesRead_short content hshort
    refine ⟨hlines, fun hall => ?_⟩
    rw [hlines] at h1 h2
    obtain ⟨ht, hf⟩ := hacc _ hall
    rw [ht] at h1
    rw [hf, hallshort] at h2
    exact Prod.ext h2 h1
  · obtain ⟨ht, hf⟩ := hacc _ hall
    rw [ht] at h1
    have hnot : (osenv.rawLines content.toList []).all
        (fun l => decide (osenv.byteLen l < osenv.MaxScanTokenSize)) = false := by
      obtain ⟨l, hl, hlen⟩ := hlong
      rw [Bool.eq_false_iff]
      intro hall2
      have := List.all_eq_true.1 hall2 l hl
      simp only [decide_eq_true_eq] at this
      omega
    rw [hf, hnot] at h2
    exact Prod.ext h2 h1

/-- Witness for C28: a file with a comment, two assignments of `A`, an
assignment with spaces, a carriage return and a second `=`, a blank line, a
line without `=` and an empty value. -/
theorem C28_env_file_load_witness :
    osenv.Load (.ok "# c\nA=1\n  B = x=y \r\n\nnoeq\nA=2\nC=") [("HOME", "/root")] =
      (none, [("HOME", "/root"), ("A", "2"), ("B", "x=y"), ("C", "")]) :=
  ((((C28_env_file_load "# c\nA=1\n  B = x=y \r\n\nnoeq\nA=2\nC=" [("HOME", "/root")]).2.2.1
    (by decide)).2 (by decide)).trans (by decide))
